import Mathlib

/-!
PSMS-ReSTIR pass: host-side orchestration.

A shallow embedding of `Source/Falcor/Rendering/PSMSReSTIR/PSMSReSTIR.cpp` (and its
header): the host prefix sum over the environment-map importance buffer, the frame
life cycle (`setOptions`, `beginFrame`, `update`, `endFrame`), the grow-only buffer
management of `prepareResources`, and the neighbour offset table; and of
`SMS::setupSpecularShapes` in `SMS.cpp`, the scan that fills the specular-shape
registry.

Conventions of the embedding.

* `float` values are read as exact rationals (`ℚ`); the neighbour offset loop is given
  a second time with every operation rounded to binary32.
* C++ `int` values are `Int` with exact arithmetic (signed overflow is undefined and
  out of reach of the values the user interface admits); `uint32_t` values are `Nat`
  reduced modulo `2 ^ 32` after every arithmetic operation.
* A run that would hit undefined behaviour (null dereference, out-of-range index,
  division by zero) or a fatal allocation error is `none`.
* Everything the pass asks of the device and of the render context is appended, in
  program order, to the `log` component of the state.
-/

namespace PSMSReSTIR

/-! ## Host prefix sum of `update` (lines 361-376) -/

/-- Division of two C++ `int`s: truncation toward zero, undefined for a zero divisor. -/
def cdiv (a b : Int) : Option Int :=
  if b = 0 then none else some (Int.tdiv a b)

/-- The loop body `result[j] += (j > blockOffset) ? result[j - 1] : 0;` on the
host vector `result`; an index outside the vector is undefined behaviour. -/
def prefixStep (blockOffset j : Nat) (result : List ℚ) : Option (List ℚ) :=
  match result[j]? with
  | none => none
  | some cur =>
    if blockOffset < j then
      match result[j - 1]? with
      | none => none
      | some prev => some (result.set j (cur + prev))
    else some (result.set j (cur + 0))

/-- The inner loop `for (int j = blockOffset; j < blockOffset + sz; j++)`:
`innerLoop blockOffset k j result` runs the `k` iterations that remain when the
loop variable is `j`. -/
def innerLoop (blockOffset : Nat) : Nat → Nat → List ℚ → Option (List ℚ)
  | 0, _, result => some result
  | k + 1, j, result =>
    match prefixStep blockOffset j result with
    | none => none
    | some r => innerLoop blockOffset k (j + 1) r

/-- One region copy of the loop: the staging buffer `pTemp` is created from
`result.data() + blockOffset` (`sz` floats) and copied to element offset
`blockOffset` of the importance buffer. -/
structure Upload where
  blockOffset : Nat
  data : List ℚ
deriving DecidableEq

/-- The outer loop `for (int i = 0; i < numBlocks; i++)`: `outerLoop sz n i result ups`
runs the `n` iterations that remain when the loop variable is `i`; `ups` are the
region copies issued so far. -/
def outerLoop (sz : Nat) : Nat → Nat → List ℚ → List Upload → Option (List ℚ × List Upload)
  | 0, _, result, ups => some (result, ups)
  | n + 1, i, result, ups =>
    match innerLoop (i * sz) sz (i * sz) result with
    | none => none
    | some r => outerLoop sz n (i + 1) r (ups ++ [⟨i * sz, (r.drop (i * sz)).take sz⟩])

/-- Line 362: `int2 blockSize = (importanceMapDim + int2(envMapNumBlockX, envMapNumBlockY) - 1)
/ int2(envMapNumBlockX, envMapNumBlockY)`, component by component. -/
def blockSize (importanceMapDim : Int × Int) (envMapNumBlockX envMapNumBlockY : Int) :
    Option (Int × Int) :=
  match cdiv (importanceMapDim.1 + envMapNumBlockX - 1) envMapNumBlockX,
        cdiv (importanceMapDim.2 + envMapNumBlockY - 1) envMapNumBlockY with
  | some x, some y => some (x, y)
  | _, _ => none

/-- Lines 362-376 of `update`: block size, block count and the two nested loops, run
on the vector `result` read back from the importance buffer.  Returns the final
host vector and the region copies in the order they were issued.  A staging buffer
of negative size cannot be created. -/
def hostPrefixSum (importanceMapDim : Int × Int) (envMapNumBlockX envMapNumBlockY : Int)
    (result : List ℚ) : Option (List ℚ × List Upload) :=
  match blockSize importanceMapDim envMapNumBlockX envMapNumBlockY with
  | none => none
  | some blockSize =>
    let numBlocks := envMapNumBlockX * envMapNumBlockY
    let sz := blockSize.1 * blockSize.2
    if numBlocks ≤ 0 then some (result, [])
    else if sz < 0 then none
    else outerLoop sz.toNat numBlocks.toNat 0 result []

/-- Sum of the `t + 1` elements of `r` at positions `a, a + 1, ..., a + t`. -/
def runningTotal (r : List ℚ) (a t : Nat) : ℚ :=
  ((List.range (t + 1)).map (fun u => r.getD (a + u) 0)).sum

/-! ## Pipeline state (`PSMSReSTIR.h`) -/

/-- Line 10 of the header: `const int maxNumPasses = 4;`. -/
def maxNumPasses : Nat := 4

/-- Line 16: `const uint32_t kNeighborOffsetCount = 8192;`. -/
def kNeighborOffsetCount : Nat := 8192

/-- Line 17: `const uint2 kScreenTileDim = {16, 16};`. -/
def kScreenTileDim : Nat × Nat := (16, 16)

/-- Reduction of an arithmetic result to `uint32_t`. -/
def u32 (n : Nat) : Nat := n % 2 ^ 32

/-- Conversion of an `int` to `uint32_t`. -/
def toU32 (x : Int) : Nat := (x % 2 ^ 32).toNat

/-- The struct `Options` as `setOptions` sees it: its object representation.  Integer
and boolean members carry their value, `float` members their 32-bit pattern, and
`padding` the bytes the compiler leaves between members, so that two values are equal
exactly when `std::memcmp` over `sizeof(Options)` bytes returns 0. -/
structure Options where
  useTemporalResampling : Bool
  useSpatialResampling : Bool
  useTiling : Bool
  usePriorDistribution : Bool
  buildPriorThreadGroupSize : Int
  numThreadsUsedForPrior : Int
  imageBlockDim : Int × Int
  numTilesX : Int
  uniformThreshold : Int
  priorThreshold : Int
  useConstraint : Bool
  useBoundProb : Bool
  useDirectional : Bool
  alpha : Nat
  maxBernoulliTrials : Int
  mSpatialNeighborCount : Nat
  mSpatialGatherRadius : Nat
  reuseMaxIterations : Int
  solverThreshold : Nat
  padding : List Nat
deriving DecidableEq

/-- The member initialisers of `Options` (header lines 21-42), padding zeroed;
`0.8f`, `30.f` and `1e-4f` as bit patterns. -/
def Options.default : Options where
  useTemporalResampling := false
  useSpatialResampling := false
  useTiling := false
  usePriorDistribution := false
  buildPriorThreadGroupSize := 128
  numThreadsUsedForPrior := 128
  imageBlockDim := (16, 16)
  numTilesX := 16
  uniformThreshold := 4
  priorThreshold := 1
  useConstraint := false
  useBoundProb := false
  useDirectional := false
  alpha := 0x3F4CCCCD
  maxBernoulliTrials := 128
  mSpatialNeighborCount := 1
  mSpatialGatherRadius := 0x41F00000
  reuseMaxIterations := 5
  solverThreshold := 0x38D1B717
  padding := [0]

/-- A device buffer: the identity of the allocation and `getElementCount()`. -/
structure Buffer where
  id : Nat
  elementCount : Nat
deriving DecidableEq

/-- A device texture: the identity of the allocation, `getWidth()`, `getHeight()`. -/
structure Texture where
  id : Nat
  width : Nat
  height : Nat
deriving DecidableEq

/-- The shader files of lines 7-14. -/
inductive Program where
  | reflectTypes
  | initialSampling
  | temporalResampling
  | spatialResampling
  | traceReceiver
  | buildPrior
  | resolve
  | writeToEnvBuffer
deriving DecidableEq

/-- A kernel object made by `ComputePass::create`: its identity and its shader file. -/
structure ComputePass where
  id : Nat
  program : Program
deriving DecidableEq

/-- The members of `mParams` that `setReSTIRParams` assigns (lines 632-639); `float`
members as bit patterns. -/
structure Params where
  useFixedSeed : Int
  fixedSeed : Nat
  lodBias : Nat
  specularRoughnessThreshold : Nat
  frameDim : Nat × Nat
  screenTiles : Nat × Nat
  frameCount : Nat
  seed : Nat
deriving DecidableEq

/-- What the pass asks of the device (`create...`), of the scene and of the render
context (`clearUAV`, `copyBufferRegion`, `execute`).  A kernel execution records the
kernel object, the pass index, the reservoir, receiver-info and solution-tile
buffers bound to it, and the thread counts handed to `execute`. -/
inductive Event where
  | createPass (pass : ComputePass)
  | createBuffer (buffer : Buffer)
  | createTexture (texture : Texture)
  | getILightCollection
  | clearUAV (buffer : Buffer) (value : Nat)
  | uploadBlock (dst : Buffer) (blockOffset : Nat) (data : List ℚ)
  | writeToEnvBuffer (pass : ComputePass) (envMapImportanceBuffer : Buffer)
      (threads : Nat × Nat × Nat)
  | traceReceiver (pass : ComputePass) (receiverInfos : Option Buffer)
      (threads : Nat × Nat × Nat)
  | buildPrior (pass : ComputePass) (passId : Nat) (receiverInfos : Option Buffer)
      (solutionTiles : Buffer) (threads : Nat × Nat × Nat)
  | initialSampling (pass : ComputePass) (passId : Nat) (outputReservoirs : Option Buffer)
      (receiverInfos : Option Buffer) (solutionTiles : Option Buffer)
      (threads : Nat × Nat × Nat)
  | temporalResampling (pass : ComputePass) (passId : Nat)
      (temporalReservoirs : Option Buffer) (outputReservoirs : Option Buffer)
      (threads : Nat × Nat × Nat)
  | spatialResampling (pass : ComputePass) (passId : Nat)
      (inputReservoirs : Option Buffer) (outputReservoirs : Buffer)
      (threads : Nat × Nat × Nat)
  | resolve (pass : ComputePass) (reservoirs : List (Option Buffer))
      (threads : Nat × Nat × Nat)
deriving DecidableEq

/-- The data members of `PSMSReSTIRPass` (header lines 94-176), the two scene
properties the pass reads (`getRenderSettings().useEmissiveLights`, `getEnvMap()`),
the device's allocation counter and the log of requests.  `mpNeighborOffsets` is
set by the constructor and never reassigned. -/
structure State where
  mOptions : Options
  sceneUseEmissiveLights : Bool
  sceneHasEnvMap : Bool
  mpReflectTypes : Option ComputePass
  mpInitialSamplingPass : Option ComputePass
  mpTemporalResamplingPass : Option ComputePass
  mpSpatialResamplingPass : Option ComputePass
  mpResolvePass : Option ComputePass
  mpTraceReceiverPass : Option ComputePass
  mpBuildPriorPass : Option ComputePass
  mpCurrentReceiverInfo : Option Buffer
  mpPriorCounters : Option Buffer
  mpInitialCounters : Option Buffer
  mpTemporalCounters : Option Buffer
  mpSpatialCounters : Option Buffer
  mParams : Params
  mpSolutionTiles : Fin 4 → Option Buffer
  mpTemporalReservoirs : Fin 4 → Option Buffer
  mpOutputReservoirs : Fin 4 → Option Buffer
  mpNeighborOffsets : Texture
  mpDebugOutputTexture : Option Texture
  mpFinalThp : Option Texture
  mFrameDim : Nat × Nat
  mFrameIndex : Nat
  mRecompile : Bool
  useOurs : Bool
  numPasses : Int
  mCalculateCounters : Bool
  envMapNumBlockX : Int
  envMapNumBlockY : Int
  importanceMapDim : Int × Int
  prevEnvMapNumBlockX : Int
  prevEnvMapNumBlockY : Int
  mpEnvMapBlockBuffer : Option Buffer
  mpWriteToEnvBuffer : Option ComputePass
  nextId : Nat
  log : List Event

/-- The object right after the constructor (lines 20-32) with the header's member
initialisers: no kernel, no buffer, `mRecompile = true`, frame index 0, and the
neighbour offset texture of `kNeighborOffsetCount` texels as allocation 0.  The
members of `mParams`, which have no initialiser in these files, start as 0. -/
def State.init (options : Options) (sceneUseEmissiveLights sceneHasEnvMap : Bool) : State where
  mOptions := options
  sceneUseEmissiveLights := sceneUseEmissiveLights
  sceneHasEnvMap := sceneHasEnvMap
  mpReflectTypes := none
  mpInitialSamplingPass := none
  mpTemporalResamplingPass := none
  mpSpatialResamplingPass := none
  mpResolvePass := none
  mpTraceReceiverPass := none
  mpBuildPriorPass := none
  mpCurrentReceiverInfo := none
  mpPriorCounters := none
  mpInitialCounters := none
  mpTemporalCounters := none
  mpSpatialCounters := none
  mParams := ⟨0, 0, 0, 0, (0, 0), (0, 0), 0, 0⟩
  mpSolutionTiles := fun _ => none
  mpTemporalReservoirs := fun _ => none
  mpOutputReservoirs := fun _ => none
  mpNeighborOffsets := ⟨0, kNeighborOffsetCount, 1⟩
  mpDebugOutputTexture := none
  mpFinalThp := none
  mFrameDim := (0, 0)
  mFrameIndex := 0
  mRecompile := true
  useOurs := true
  numPasses := 1
  mCalculateCounters := false
  envMapNumBlockX := 8
  envMapNumBlockY := 8
  importanceMapDim := (512, 512)
  prevEnvMapNumBlockX := 0
  prevEnvMapNumBlockY := 0
  mpEnvMapBlockBuffer := none
  mpWriteToEnvBuffer := none
  nextId := 1
  log := [.createTexture ⟨0, kNeighborOffsetCount, 1⟩]

/-! ## Configuration and kernel objects (lines 34-138) -/

/-- Lines 34-41.  `memcmp` differs from 0 exactly when the two object
representations differ. -/
def setOptions (s : State) (options : Options) : State :=
  if options ≠ s.mOptions then { s with mOptions := options, mRecompile := true } else s

/-- Lines 629-640. -/
def setReSTIRParams (s : State) (useFixedSeed : Int) (fixedSeed lodBias
    specularRoughnessThreshold : Nat) (frameDim screenTiles : Nat × Nat)
    (frameCount seed : Nat) : State :=
  { s with mParams := ⟨useFixedSeed, fixedSeed, lodBias, specularRoughnessThreshold,
      frameDim, screenTiles, frameCount, seed⟩ }

/-- The call `ComputePass::create`: a new kernel object with a fresh identity. -/
def createPass (s : State) (program : Program) : ComputePass × State :=
  (⟨s.nextId, program⟩,
    { s with nextId := s.nextId + 1, log := s.log ++ [.createPass ⟨s.nextId, program⟩] })

/-- Lines 75-80: the reflection kernel is created if null. -/
def ensureReflectTypes (s : State) : State :=
  if s.mpReflectTypes.isNone then
    let (p, s') := createPass s .reflectTypes
    { s' with mpReflectTypes := some p }
  else s

/-- Lines 82-88. -/
def ensureTraceReceiverPass (s : State) : State :=
  if s.mpTraceReceiverPass.isNone then
    let (p, s') := createPass s .traceReceiver
    { s' with mpTraceReceiverPass := some p }
  else s

/-- Lines 91-97. -/
def ensureBuildPriorPass (s : State) : State :=
  if s.mpBuildPriorPass.isNone then
    let (p, s') := createPass s .buildPrior
    { s' with mpBuildPriorPass := some p }
  else s

/-- Lines 98-104. -/
def ensureInitialSamplingPass (s : State) : State :=
  if s.mpInitialSamplingPass.isNone then
    let (p, s') := createPass s .initialSampling
    { s' with mpInitialSamplingPass := some p }
  else s

/-- Lines 106-112: created only if null and `useTemporalResampling` is set. -/
def ensureTemporalResamplingPass (s : State) : State :=
  if s.mpTemporalResamplingPass.isNone && s.mOptions.useTemporalResampling then
    let (p, s') := createPass s .temporalResampling
    { s' with mpTemporalResamplingPass := some p }
  else s

/-- Lines 114-121: created only if null and `useSpatialResampling` is set. -/
def ensureSpatialResamplingPass (s : State) : State :=
  if s.mpSpatialResamplingPass.isNone && s.mOptions.useSpatialResampling then
    let (p, s') := createPass s .spatialResampling
    { s' with mpSpatialResamplingPass := some p }
  else s

/-- Lines 122-128. -/
def ensureResolvePass (s : State) : State :=
  if s.mpResolvePass.isNone then
    let (p, s') := createPass s .resolve
    { s' with mpResolvePass := some p }
  else s

/-- Lines 129-135. -/
def ensureWriteToEnvBuffer (s : State) : State :=
  if s.mpWriteToEnvBuffer.isNone then
    let (p, s') := createPass s .writeToEnvBuffer
    { s' with mpWriteToEnvBuffer := some p }
  else s

/-- Lines 54-138.  Nothing happens unless `mRecompile` is set; then the frame index is
reset, every kernel object that is still null is created (the temporal and spatial
ones only when their option is set), and the flag is cleared. -/
def updatePrograms (s : State) : State :=
  if !s.mRecompile then s
  else
    { ensureWriteToEnvBuffer (ensureResolvePass (ensureSpatialResamplingPass
        (ensureTemporalResamplingPass (ensureInitialSamplingPass (ensureBuildPriorPass
          (ensureTraceReceiverPass (ensureReflectTypes { s with mFrameIndex := 0 }))))))) with
      mRecompile := false }

/-! ## Buffers (lines 140-253) -/

/-- The call `createStructuredBuffer` for `elementCount` elements: a new buffer with a fresh
identity.  Allocation failure is not modelled. -/
def createStructuredBuffer (s : State) (elementCount : Nat) : Buffer × State :=
  (⟨s.nextId, elementCount⟩,
    { s with nextId := s.nextId + 1, log := s.log ++ [.createBuffer ⟨s.nextId, elementCount⟩] })

/-- The call `createTexture2D(width, height, ...)`: a new texture with a fresh identity. -/
def createTexture2D (s : State) (width height : Nat) : Texture × State :=
  (⟨s.nextId, width, height⟩,
    { s with nextId := s.nextId + 1, log := s.log ++ [.createTexture ⟨s.nextId, width, height⟩] })

/-- The test `!p || p->getElementCount() < n` guarding every buffer creation. -/
def needsBuffer (p : Option Buffer) (n : Nat) : Bool :=
  match p with
  | none => true
  | some b => decide (b.elementCount < n)

/-- The test `!p || p->getWidth() != dim.x || p->getHeight() != dim.y`. -/
def needsTexture (p : Option Texture) (dim : Nat × Nat) : Bool :=
  match p with
  | none => true
  | some t => t.width != dim.1 || t.height != dim.2

/-- Line 143-144: `tileCount * kScreenTileDim.x * kScreenTileDim.y` in `uint32_t`. -/
def elementCountOf (screenTiles : Nat × Nat) : Nat :=
  u32 (u32 (u32 (screenTiles.1 * screenTiles.2) * kScreenTileDim.1) * kScreenTileDim.2)

/-- Lines 149-159: the output reservoir buffer of pass `i`. -/
def ensureOutputReservoirs (elementCount : Nat) (i : Fin 4) (s : State) : State :=
  if needsBuffer (s.mpOutputReservoirs i) elementCount then
    let (b, s') := createStructuredBuffer s elementCount
    { s' with mpOutputReservoirs := Function.update s'.mpOutputReservoirs i (some b) }
  else s

/-- Lines 160-170: the temporal reservoir buffer of pass `i`. -/
def ensureTemporalReservoirs (elementCount : Nat) (i : Fin 4) (s : State) : State :=
  if needsBuffer (s.mpTemporalReservoirs i) elementCount then
    let (b, s') := createStructuredBuffer s elementCount
    { s' with mpTemporalReservoirs := Function.update s'.mpTemporalReservoirs i (some b) }
  else s

/-- Lines 171-181: the solution-tile buffer of pass `i`, of `elementCount * 4`
elements (a `uint32_t` product). -/
def ensureSolutionTiles (elementCount : Nat) (i : Fin 4) (s : State) : State :=
  if needsBuffer (s.mpSolutionTiles i) (u32 (elementCount * 4)) then
    let (b, s') := createStructuredBuffer s (u32 (elementCount * 4))
    { s' with mpSolutionTiles := Function.update s'.mpSolutionTiles i (some b) }
  else s

/-- The body of the loop of lines 147-182 for pass index `i`. -/
def preparePass (elementCount : Nat) (s : State) (i : Fin 4) : State :=
  ensureSolutionTiles elementCount i
    (ensureTemporalReservoirs elementCount i (ensureOutputReservoirs elementCount i s))

/-- Lines 185-188. -/
def ensureDebugOutputTexture (s : State) : State :=
  if needsTexture s.mpDebugOutputTexture s.mFrameDim then
    let (t, s') := createTexture2D s s.mFrameDim.1 s.mFrameDim.2
    { s' with mpDebugOutputTexture := some t }
  else s

/-- Lines 189-192. -/
def ensureFinalThp (s : State) : State :=
  if needsTexture s.mpFinalThp s.mFrameDim then
    let (t, s') := createTexture2D s s.mFrameDim.1 s.mFrameDim.2
    { s' with mpFinalThp := some t }
  else s

/-- Lines 193-203. -/
def ensureCurrentReceiverInfo (elementCount : Nat) (s : State) : State :=
  if needsBuffer s.mpCurrentReceiverInfo elementCount then
    let (b, s') := createStructuredBuffer s elementCount
    { s' with mpCurrentReceiverInfo := some b }
  else s

/-- Lines 204-247: the four counter buffers, recreated (with `elementCount` elements)
when null or of fewer than 10 elements. -/
def ensureCounters (elementCount : Nat) (s : State) : State :=
  let s := if needsBuffer s.mpPriorCounters 10 then
      let (b, s') := createStructuredBuffer s elementCount
      { s' with mpPriorCounters := some b }
    else s
  let s := if needsBuffer s.mpInitialCounters 10 then
      let (b, s') := createStructuredBuffer s elementCount
      { s' with mpInitialCounters := some b }
    else s
  let s := if needsBuffer s.mpTemporalCounters 10 then
      let (b, s') := createStructuredBuffer s elementCount
      { s' with mpTemporalCounters := some b }
    else s
  if needsBuffer s.mpSpatialCounters 10 then
    let (b, s') := createStructuredBuffer s elementCount
    { s' with mpSpatialCounters := some b }
  else s

/-- Lines 248-252: the importance buffer of `importanceMapTexels * 2` elements. -/
def ensureEnvMapBlockBuffer (s : State) : State :=
  if needsBuffer s.mpEnvMapBlockBuffer (u32 (u32 (1024 * 1024) * 2)) then
    let (b, s') := createStructuredBuffer s (u32 (u32 (1024 * 1024) * 2))
    { s' with mpEnvMapBlockBuffer := some b }
  else s

/-- Lines 184-252: the two frame-sized textures, the receiver-info buffer, the four
counter buffers and the importance buffer. -/
def prepareShared (elementCount : Nat) (s : State) : State :=
  ensureEnvMapBlockBuffer (ensureCounters elementCount
    (ensureCurrentReceiverInfo elementCount (ensureFinalThp (ensureDebugOutputTexture s))))

/-- Lines 140-253.  `mpReflectTypes->getRootVar()` dereferences the reflection kernel;
the loop runs `i = 0, 1, 2, 3`.  The parameter `frameDim` is not read: the textures
are sized from `mFrameDim`. -/
def prepareResources (s : State) (_frameDim screenTiles : Nat × Nat) : Option State :=
  match s.mpReflectTypes with
  | none => none
  | some _ =>
    let elementCount := elementCountOf screenTiles
    some (prepareShared elementCount
      ((List.finRange 4).foldl (preparePass elementCount) s))

/-- Lines 255-262. -/
def prepareLighting (s : State) : State :=
  if s.sceneUseEmissiveLights then { s with log := s.log ++ [.getILightCollection] } else s

/-- Lines 43-52 (the pixel-debug helper is left out). -/
def beginFrame (s : State) (frameDim screenTiles : Nat × Nat) (needRecompile : Bool) :
    Option State :=
  let s := { s with mRecompile := s.mRecompile || needRecompile, mFrameDim := frameDim }
  let s := prepareLighting s
  let s := updatePrograms s
  prepareResources s s.mFrameDim screenTiles

/-! ## The frame (lines 271-562) -/

/-- Appends requests to the log. -/
def State.emit (s : State) (es : List Event) : State :=
  { s with log := s.log ++ es }

/-- The thread counts `{ mParams.screenTiles.x * kScreenTileDim.x,
mParams.screenTiles.y * kScreenTileDim.y, 1u }` of the three resampling stages. -/
def resamplingThreads (s : State) : Nat × Nat × Nat :=
  (u32 (s.mParams.screenTiles.1 * kScreenTileDim.1),
    u32 (s.mParams.screenTiles.2 * kScreenTileDim.2), 1)

/-- The thread counts `{mFrameDim.x, mFrameDim.y, 1u}` of receiver trace and resolve. -/
def frameThreads (s : State) : Nat × Nat × Nat :=
  (s.mFrameDim.1, s.mFrameDim.2, 1)

/-- Lines 330-348.  Returns at once when the kernel is null; otherwise clears the
importance buffer and executes the kernel over `importanceMapDim`. -/
def writeToEnvBuffer (s : State) : Option State :=
  match s.mpWriteToEnvBuffer with
  | none => some s
  | some pass =>
    match s.mpEnvMapBlockBuffer with
    | none => none
    | some buf =>
      some (s.emit [.clearUAV buf 0,
        .writeToEnvBuffer pass buf (toU32 s.importanceMapDim.1, toU32 s.importanceMapDim.2, 1)])

/-- Lines 355-381: the rebuild of the importance field.  `envContent k` is element `k`
of the importance buffer as `getElements<float>()` reads it back after the kernel. -/
def rebuildImportance (s : State) (envContent : Nat → ℚ) : Option State :=
  if s.prevEnvMapNumBlockX ≠ s.envMapNumBlockX ∨ s.prevEnvMapNumBlockY ≠ s.envMapNumBlockY then
    if s.mpWriteToEnvBuffer.isSome && s.sceneHasEnvMap then
      match writeToEnvBuffer s with
      | none => none
      | some s =>
        match s.mpEnvMapBlockBuffer with
        | none => none
        | some buf =>
          match hostPrefixSum s.importanceMapDim s.envMapNumBlockX s.envMapNumBlockY
              ((List.range buf.elementCount).map envContent) with
          | none => none
          | some (_, ups) =>
            some { s.emit (ups.map fun u => .uploadBlock buf u.blockOffset u.data) with
              prevEnvMapNumBlockX := s.envMapNumBlockX
              prevEnvMapNumBlockY := s.envMapNumBlockY }
    else some s
  else some s

/-- Lines 386-389: the four counter buffers are cleared to 0. -/
def clearCounters (s : State) : Option State :=
  match s.mpPriorCounters, s.mpInitialCounters, s.mpTemporalCounters, s.mpSpatialCounters with
  | some a, some b, some c, some d =>
    some (s.emit [.clearUAV a 0, .clearUAV b 0, .clearUAV c 0, .clearUAV d 0])
  | _, _, _, _ => none

/-- Lines 271-289. -/
def traceReceiver (s : State) : Option State :=
  match s.mpTraceReceiverPass with
  | none => none
  | some pass => some (s.emit [.traceReceiver pass s.mpCurrentReceiverInfo (frameThreads s)])

/-- Lines 326-327: `numBlocks.x * numBlocks.y * buildPriorThreadGroupSize`, computed in
`uint32_t` after the `int` operands are converted; a zero block dimension divides by
zero. -/
def buildPriorThreads (s : State) : Option (Nat × Nat × Nat) :=
  let bx := toU32 s.mOptions.imageBlockDim.1
  let by' := toU32 s.mOptions.imageBlockDim.2
  if bx = 0 ∨ by' = 0 then none
  else
    let numBlocksX := u32 (u32 (s.mFrameDim.1 + bx) + (2 ^ 32 - 1)) / bx
    let numBlocksY := u32 (u32 (s.mFrameDim.2 + by') + (2 ^ 32 - 1)) / by'
    some (u32 (u32 (numBlocksX * numBlocksY) * toU32 s.mOptions.buildPriorThreadGroupSize), 1, 1)

/-- Lines 291-328: the pass's solution tiles are cleared to all ones, then the kernel
is executed.  The argument `pSMS` is taken to be non-null, here and in the three
resampling stages. -/
def buildPrior (s : State) (passId : Nat) : Option State :=
  match s.mpBuildPriorPass with
  | none => none
  | some pass =>
    if h : passId < 4 then
      match s.mpSolutionTiles ⟨passId, h⟩ with
      | none => none
      | some tiles =>
        match buildPriorThreads s with
        | none => none
        | some threads =>
          some (s.emit [.clearUAV tiles 0xFFFFFFFF,
            .buildPrior pass passId s.mpCurrentReceiverInfo tiles threads])
    else none

/-- Lines 411-459. -/
def initialSampling (s : State) (passId : Nat) : Option State :=
  match s.mpInitialSamplingPass with
  | none => none
  | some pass =>
    if h : passId < 4 then
      some (s.emit [.initialSampling pass passId (s.mpOutputReservoirs ⟨passId, h⟩)
        s.mpCurrentReceiverInfo (s.mpSolutionTiles ⟨passId, h⟩) (resamplingThreads s)])
    else none

/-- Lines 461-487. -/
def temporalResampling (s : State) (passId : Nat) : Option State :=
  match s.mpTemporalResamplingPass with
  | none => none
  | some pass =>
    if h : passId < 4 then
      some (s.emit [.temporalResampling pass passId (s.mpTemporalReservoirs ⟨passId, h⟩)
        (s.mpOutputReservoirs ⟨passId, h⟩) (resamplingThreads s)])
    else none

/-- Lines 489-526: the two reservoir slots of the pass are exchanged, the new output
buffer is cleared to 0, and the kernel reads the new temporal slot and writes the
new output slot. -/
def spatialResampling (s : State) (passId : Nat) : Option State :=
  match s.mpSpatialResamplingPass with
  | none => none
  | some pass =>
    if h : passId < 4 then
      let s := { s with
        mpTemporalReservoirs :=
          Function.update s.mpTemporalReservoirs ⟨passId, h⟩ (s.mpOutputReservoirs ⟨passId, h⟩)
        mpOutputReservoirs :=
          Function.update s.mpOutputReservoirs ⟨passId, h⟩ (s.mpTemporalReservoirs ⟨passId, h⟩) }
      match s.mpOutputReservoirs ⟨passId, h⟩ with
      | none => none
      | some out =>
        some (s.emit [.clearUAV out 0,
          .spatialResampling pass passId (s.mpTemporalReservoirs ⟨passId, h⟩) out
            (resamplingThreads s)])
    else none

/-- The loop of lines 537-540: `reservoirs[i] = mpOutputReservoirs[i]` for
`i = from, ..., from + n - 1`. -/
def resolveBindings (s : State) : Nat → Nat → Option (List (Option Buffer))
  | 0, _ => some []
  | n + 1, i =>
    if h : i < 4 then
      match resolveBindings s n (i + 1) with
      | none => none
      | some rest => some (s.mpOutputReservoirs ⟨i, h⟩ :: rest)
    else none

/-- Lines 528-555. -/
def resolve (s : State) : Option State :=
  match s.mpResolvePass with
  | none => none
  | some pass =>
    match resolveBindings s s.numPasses.toNat 0 with
    | none => none
    | some reservoirs => some (s.emit [.resolve pass reservoirs (frameThreads s)])

/-- The body of the loop of lines 392-407 for pass index `i`. -/
def passBody (s : State) (i : Nat) : Option State :=
  (if s.mOptions.usePriorDistribution && s.useOurs then buildPrior s i else some s).bind
    fun s => (initialSampling s i).bind
    fun s => (if s.mOptions.useTemporalResampling && s.mFrameIndex != 0
        then temporalResampling s i else some s).bind
    fun s => if s.mOptions.useSpatialResampling then spatialResampling s i else some s

/-- The loop `for (int i = 0; i < numPasses; i++)` of lines 392-407: `passLoop n i s`
runs the `n` iterations that remain when the loop variable is `i`. -/
def passLoop : Nat → Nat → State → Option State
  | 0, _, s => some s
  | n + 1, i, s => (passBody s i).bind fun s => passLoop n (i + 1) s

/-- Lines 350-409: importance rebuild when the block grid changed, counter clears,
receiver trace, the passes in ascending order, resolve. -/
def update (s : State) (envContent : Nat → ℚ) : Option State :=
  (rebuildImportance s envContent).bind
    fun s => (clearCounters s).bind
    fun s => (traceReceiver s).bind
    fun s => (passLoop s.numPasses.toNat 0 s).bind
    fun s => resolve s

/-- Lines 557-562: the frame index is incremented (a `uint`) and the two reservoir
arrays are exchanged as a whole (the pixel-debug helper is left out). -/
def endFrame (s : State) : State :=
  { s with
    mFrameIndex := u32 (s.mFrameIndex + 1)
    mpTemporalReservoirs := s.mpOutputReservoirs
    mpOutputReservoirs := s.mpTemporalReservoirs }

/-! ## Reading the log -/

/-- The pipeline stages `update` executes. -/
inductive Stage where
  | traceReceiver
  | buildPrior
  | initialSampling
  | temporalResampling
  | spatialResampling
  | resolve
deriving DecidableEq

/-- The stage and pass index of a stage execution; `none` for every other request. -/
def Event.stage : Event → Option (Stage × Option Nat)
  | .traceReceiver _ _ _ => some (.traceReceiver, none)
  | .buildPrior _ i _ _ _ => some (.buildPrior, some i)
  | .initialSampling _ i _ _ _ _ => some (.initialSampling, some i)
  | .temporalResampling _ i _ _ _ => some (.temporalResampling, some i)
  | .spatialResampling _ i _ _ _ => some (.spatialResampling, some i)
  | .resolve _ _ _ => some (.resolve, none)
  | _ => none

/-- The stage executions among the requests `es`, in order. -/
def stageDispatches (es : List Event) : List (Stage × Option Nat) :=
  es.filterMap Event.stage

/-- The number of executions of the temporal stage for pass `i` among `es`. -/
def temporalDispatches (es : List Event) (i : Nat) : Nat :=
  (stageDispatches es).count (Stage.temporalResampling, some i)

/-- The stages lines 394-406 select for pass `i` in state `s`. -/
def passStages (s : State) (i : Nat) : List (Stage × Option Nat) :=
  (if s.mOptions.usePriorDistribution && s.useOurs then [(Stage.buildPrior, some i)] else [])
    ++ [(Stage.initialSampling, some i)]
    ++ (if s.mOptions.useTemporalResampling && s.mFrameIndex != 0
        then [(Stage.temporalResampling, some i)] else [])
    ++ (if s.mOptions.useSpatialResampling then [(Stage.spatialResampling, some i)] else [])

/-- The sub-sequence the specification words give for pass `i`: as `passStages`, with
the prior build selected by `usePriorDistribution` alone. -/
def passStagesAsSpecified (s : State) (i : Nat) : List (Stage × Option Nat) :=
  (if s.mOptions.usePriorDistribution then [(Stage.buildPrior, some i)] else [])
    ++ [(Stage.initialSampling, some i)]
    ++ (if s.mOptions.useTemporalResampling && s.mFrameIndex != 0
        then [(Stage.temporalResampling, some i)] else [])
    ++ (if s.mOptions.useSpatialResampling then [(Stage.spatialResampling, some i)] else [])

/-- State `s'` was reached from `s` by steps that left the options, the frame index,
`useOurs` and `numPasses` alone and appended requests whose stage executions are
`ds`. -/
def Extends (s s' : State) (ds : List (Stage × Option Nat)) : Prop :=
  s'.mOptions = s.mOptions ∧ s'.mFrameIndex = s.mFrameIndex ∧ s'.useOurs = s.useOurs ∧
    s'.numPasses = s.numPasses ∧ ∃ es, s'.log = s.log ++ es ∧ stageDispatches es = ds

/-- State `s'` has the frame index, the frame size, the frame parameters, the options
and the reflection kernel of `s`. -/
def SameFrame (s s' : State) : Prop :=
  s'.mFrameIndex = s.mFrameIndex ∧ s'.mFrameDim = s.mFrameDim ∧ s'.mParams = s.mParams ∧
    s'.mOptions = s.mOptions ∧ s'.mpReflectTypes = s.mpReflectTypes

/-- Element capacity of a buffer slot; a null slot counts as 0. -/
def capacity (p : Option Buffer) : Nat :=
  match p with
  | none => 0
  | some b => b.elementCount

/-- State `s'` holds the reservoir, solution-tile and receiver-info buffers of `s`. -/
def SameBuffers (s s' : State) : Prop :=
  s'.mpOutputReservoirs = s.mpOutputReservoirs ∧
    s'.mpTemporalReservoirs = s.mpTemporalReservoirs ∧
    s'.mpSolutionTiles = s.mpSolutionTiles ∧
    s'.mpCurrentReceiverInfo = s.mpCurrentReceiverInfo

/-- Every thread of every stage has an element in the reservoir buffers of every pass
and in the receiver-info buffer: the thread counts of receiver trace and resolve, and
those of the three resampling stages, multiplied out, do not exceed the capacities. -/
def dispatchThreadsFit (s : State) : Prop :=
  ∀ j : Fin 4,
    (frameThreads s).1 * (frameThreads s).2.1 ≤ capacity (s.mpOutputReservoirs j) ∧
    (frameThreads s).1 * (frameThreads s).2.1 ≤ capacity (s.mpTemporalReservoirs j) ∧
    (frameThreads s).1 * (frameThreads s).2.1 ≤ capacity s.mpCurrentReceiverInfo ∧
    (resamplingThreads s).1 * (resamplingThreads s).2.1 ≤ capacity (s.mpOutputReservoirs j) ∧
    (resamplingThreads s).1 * (resamplingThreads s).2.1
      ≤ capacity (s.mpTemporalReservoirs j) ∧
    (resamplingThreads s).1 * (resamplingThreads s).2.1 ≤ capacity s.mpCurrentReceiverInfo

/-- State `s` after steps of `update`: the last-built grid, the two reservoir arrays and
the log are the only members such steps assign. -/
def State.evolve (s : State) (px py : Int) (t o : Fin 4 → Option Buffer) (es : List Event) :
    State :=
  { s with
    prevEnvMapNumBlockX := px
    prevEnvMapNumBlockY := py
    mpTemporalReservoirs := t
    mpOutputReservoirs := o
    log := s.log ++ es }

/-- The kernel objects of the pass, in the order `updatePrograms` creates them. -/
def State.kernels (s : State) : List (Option ComputePass) :=
  [s.mpReflectTypes, s.mpTraceReceiverPass, s.mpBuildPriorPass, s.mpInitialSamplingPass,
    s.mpTemporalResamplingPass, s.mpSpatialResamplingPass, s.mpResolvePass,
    s.mpWriteToEnvBuffer]

/-- Whether a request creates a kernel object. -/
def Event.isCreatePass : Event → Bool
  | .createPass _ => true
  | _ => false

/-- The number of kernel objects created among the requests `es`. -/
def kernelCreations (es : List Event) : Nat :=
  es.countP Event.isCreatePass

/-- Whether a request is the execution of the `writeToEnvBuffer` kernel, the dispatch of
the importance-field rebuild. -/
def Event.isRebuild : Event → Bool
  | .writeToEnvBuffer _ _ _ => true
  | _ => false

/-- The number of importance-field rebuild dispatches among the requests `es`. -/
def rebuildDispatches (es : List Event) : Nat :=
  es.countP Event.isRebuild

/-- The pass index and the write target (the `outputReservoirs` binding) of an
execution of one of the three resampling stages. -/
def Event.write : Event → Option (Nat × Option Buffer)
  | .initialSampling _ i o _ _ _ => some (i, o)
  | .temporalResampling _ i _ o _ => some (i, o)
  | .spatialResampling _ i _ o _ => some (i, some o)
  | _ => none

/-- The write target of the last resampling stage executed for pass `i` among the
requests `es`; `none` when no such stage was executed. -/
def lastWrite (es : List Event) (i : Nat) : Option (Option Buffer) :=
  es.foldl (fun acc e =>
    match e.write with
    | some (k, b) => if k = i then some b else acc
    | none => acc) none

/-- The requests pass `i` may issue in `passBody`, with the reservoir bindings read
from the slots of pass `i` as they are in state `s`: the clears, the prior build of
`i`, the initial sampling of `i` writing `output[i]`, the temporal resampling of `i`
reading `temporal[i]` and writing `output[i]`, the spatial resampling of `i` reading
`output[i]` and writing the buffer in `temporal[i]`. -/
def PassEvent (s : State) (i : Nat) : Event → Prop
  | .clearUAV _ _ => True
  | .buildPrior _ k _ _ _ => k = i
  | .initialSampling _ k o _ _ _ => k = i ∧ ∃ h : i < 4, o = s.mpOutputReservoirs ⟨i, h⟩
  | .temporalResampling _ k t o _ =>
    k = i ∧ ∃ h : i < 4, t = s.mpTemporalReservoirs ⟨i, h⟩ ∧ o = s.mpOutputReservoirs ⟨i, h⟩
  | .spatialResampling _ k inp out _ =>
    k = i ∧ ∃ h : i < 4, inp = s.mpOutputReservoirs ⟨i, h⟩ ∧
      s.mpTemporalReservoirs ⟨i, h⟩ = some out
  | _ => False

/-- The requests `update` issues before the first pass: clears, the importance-field
rebuild with its region copies, the receiver trace. -/
def Event.isPreamble : Event → Bool
  | .clearUAV _ _ => true
  | .uploadBlock _ _ _ => true
  | .writeToEnvBuffer _ _ _ => true
  | .traceReceiver _ _ _ => true
  | _ => false

/-- The temporal slot of pass `j` after the passes `lo, ..., hi - 1` ran from state `s`:
exchanged with the output slot when the pass ran with spatial resampling. -/
def temporalAfter (s : State) (lo hi : Nat) (j : Fin 4) : Option Buffer :=
  if s.mOptions.useSpatialResampling = true ∧ lo ≤ j.val ∧ j.val < hi
  then s.mpOutputReservoirs j else s.mpTemporalReservoirs j

/-- The output slot of pass `j` after the passes `lo, ..., hi - 1` ran from state `s`. -/
def outputAfter (s : State) (lo hi : Nat) (j : Fin 4) : Option Buffer :=
  if s.mOptions.useSpatialResampling = true ∧ lo ≤ j.val ∧ j.val < hi
  then s.mpTemporalReservoirs j else s.mpOutputReservoirs j

/-- The condition of lines 355-357 under which `update` rebuilds the importance field:
the configured block grid differs from the last-built one, the `writeToEnvBuffer`
kernel exists and the scene has an environment map. -/
def rebuildNeeded (s : State) : Prop :=
  (s.prevEnvMapNumBlockX ≠ s.envMapNumBlockX ∨ s.prevEnvMapNumBlockY ≠ s.envMapNumBlockY) ∧
    s.mpWriteToEnvBuffer.isSome = true ∧ s.sceneHasEnvMap = true

/-- A run of frames: one `update` call after the other, `envs` giving the importance
buffer content each call would read back. -/
def updates : List (Nat → ℚ) → State → Option State
  | [], s => some s
  | env :: envs, s => (update s env).bind (updates envs)

/-! ## Call sequences -/

/-- The steps of `updatePrograms` when `mRecompile` is set, in order. -/
def kernelSteps : List (State → State) :=
  [fun s => { s with mFrameIndex := 0 }, ensureReflectTypes, ensureTraceReceiverPass,
    ensureBuildPriorPass, ensureInitialSamplingPass, ensureTemporalResamplingPass,
    ensureSpatialResamplingPass, ensureResolvePass, ensureWriteToEnvBuffer,
    fun s => { s with mRecompile := false }]

/-- The steps of `prepareResources` after the reflection kernel was dereferenced, in
order: the three buffers of each of the four passes, then the shared resources. -/
def bufferSteps (elementCount : Nat) : List (State → State) :=
  [ensureOutputReservoirs elementCount 0, ensureTemporalReservoirs elementCount 0,
    ensureSolutionTiles elementCount 0,
    ensureOutputReservoirs elementCount 1, ensureTemporalReservoirs elementCount 1,
    ensureSolutionTiles elementCount 1,
    ensureOutputReservoirs elementCount 2, ensureTemporalReservoirs elementCount 2,
    ensureSolutionTiles elementCount 2,
    ensureOutputReservoirs elementCount 3, ensureTemporalReservoirs elementCount 3,
    ensureSolutionTiles elementCount 3,
    ensureDebugOutputTexture, ensureFinalThp, ensureCurrentReceiverInfo elementCount,
    ensureCounters elementCount, ensureEnvMapBlockBuffer]

/-- Runs steps one after the other. -/
def runSteps (fs : List (State → State)) (s : State) : State :=
  fs.foldl (fun s f => f s) s

/-- A configuration call of the host: `setOptions` or `beginFrame`. -/
inductive Call where
  | setOptions (options : Options)
  | beginFrame (frameDim screenTiles : Nat × Nat) (needRecompile : Bool)

/-- One configuration call. -/
def runCall (s : State) : Call → Option State
  | .setOptions options => some (setOptions s options)
  | .beginFrame frameDim screenTiles needRecompile =>
    beginFrame s frameDim screenTiles needRecompile

/-- A sequence of configuration calls, stopping at the first fault. -/
def runCalls : List Call → State → Option State
  | [], s => some s
  | c :: cs, s => (runCall s c).bind (runCalls cs)

/-- The options `new` enable no resampling stage that is disabled in `old`. -/
def nonStructural (old new : Options) : Prop :=
  (new.useTemporalResampling = true → old.useTemporalResampling = true) ∧
    (new.useSpatialResampling = true → old.useSpatialResampling = true)

/-- No `setOptions` call of the sequence enables a resampling stage that is disabled in
the options stored before it; `stored` are the options stored at the start. -/
def nonStructuralCalls : Options → List Call → Prop
  | _, [] => True
  | stored, .setOptions options :: cs =>
    nonStructural stored options ∧ nonStructuralCalls options cs
  | stored, .beginFrame _ _ _ :: cs => nonStructuralCalls stored cs

/-- Every kernel object `updatePrograms` would create under the stored options exists:
the six unconditional ones, and the temporal and the spatial one when their option is
set. -/
def kernelsBuilt (s : State) : Prop :=
  s.mpReflectTypes.isSome = true ∧ s.mpTraceReceiverPass.isSome = true ∧
    s.mpBuildPriorPass.isSome = true ∧ s.mpInitialSamplingPass.isSome = true ∧
    s.mpResolvePass.isSome = true ∧ s.mpWriteToEnvBuffer.isSome = true ∧
    (s.mOptions.useTemporalResampling = true → s.mpTemporalResamplingPass.isSome = true) ∧
    (s.mOptions.useSpatialResampling = true → s.mpSpatialResamplingPass.isSome = true)

/-- The states reached from construction by `setOptions`, `beginFrame`, `update` and
`endFrame`, where `update` is called only when a `beginFrame` was made after the latest
`setOptions`; the flag records whether that is so. -/
inductive Reachable : State → Bool → Prop where
  | init (options : Options) (sceneUseEmissiveLights sceneHasEnvMap : Bool) :
    Reachable (State.init options sceneUseEmissiveLights sceneHasEnvMap) false
  | setOptions {s : State} {f : Bool} (options : Options) :
    Reachable s f → Reachable (setOptions s options) false
  | beginFrame {s s' : State} {f : Bool} {frameDim screenTiles : Nat × Nat}
    {needRecompile : Bool} :
    Reachable s f → beginFrame s frameDim screenTiles needRecompile = some s' →
    Reachable s' true
  | update {s s' : State} {env : Nat → ℚ} :
    Reachable s true → update s env = some s' → Reachable s' true
  | endFrame {s : State} {f : Bool} : Reachable s f → Reachable (endFrame s) f

/-- What one call of `renderUI` (lines 564-627) leaves in the members its widgets are bound
to: the options, the pass count, the two flags, the block grid; whether the "Clean
Reservoirs" button was pressed; whether one of the two widgets that set `mRecompile`
reported a change. -/
structure UIInput where
  options : Options
  cleanReservoirs : Bool
  numPasses : Int
  calculateCounters : Bool
  useOurs : Bool
  envMapNumBlockX : Int
  envMapNumBlockY : Int
  recompile : Bool

/-- Lines 564-627.  The widgets write the members directly: the options without
`setOptions`, the frame index is reset by the button, `mRecompile` is or-ed with the
change reports of the two `group.var` widgets.  Which values a widget admits is not
part of this function: any value may be left in a member, and `ReachableUI` imposes
the range of the pass count. -/
def renderUI (s : State) (ui : UIInput) : State :=
  { s with
    mOptions := ui.options
    mFrameIndex := if ui.cleanReservoirs then 0 else s.mFrameIndex
    numPasses := ui.numPasses
    mCalculateCounters := ui.calculateCounters
    useOurs := ui.useOurs
    envMapNumBlockX := ui.envMapNumBlockX
    envMapNumBlockY := ui.envMapNumBlockY
    mRecompile := s.mRecompile || ui.recompile }

/-- The states reached from construction by `setOptions`, `beginFrame`, `update`,
`endFrame` and `renderUI`, the "Num Passes" widget keeping the pass count between 1
and `maxNumPasses` (line 580); `update` is called only after a `beginFrame`, which the
flag records. -/
inductive ReachableUI : State → Bool → Prop where
  | init (options : Options) (sceneUseEmissiveLights sceneHasEnvMap : Bool) :
    ReachableUI (State.init options sceneUseEmissiveLights sceneHasEnvMap) false
  | setOptions {s : State} {f : Bool} (options : Options) :
    ReachableUI s f → ReachableUI (setOptions s options) f
  | renderUI {s : State} {f : Bool} (ui : UIInput) :
    ReachableUI s f → 1 ≤ ui.numPasses → ui.numPasses ≤ maxNumPasses →
    ReachableUI (renderUI s ui) f
  | beginFrame {s s' : State} {f : Bool} {frameDim screenTiles : Nat × Nat}
    {needRecompile : Bool} :
    ReachableUI s f → beginFrame s frameDim screenTiles needRecompile = some s' →
    ReachableUI s' true
  | update {s s' : State} {env : Nat → ℚ} :
    ReachableUI s true → update s env = some s' → ReachableUI s' true
  | endFrame {s : State} {f : Bool} : ReachableUI s f → ReachableUI (endFrame s) f

/-- The reservoir buffers were allocated before the next allocation identity, and the
output and the temporal slot of a pass never hold the same allocation. -/
def reservoirsDistinct (s : State) : Prop :=
  ∀ i : Fin 4,
    (∀ b, s.mpOutputReservoirs i = some b → b.id < s.nextId) ∧
    (∀ b, s.mpTemporalReservoirs i = some b → b.id < s.nextId) ∧
    (∀ b b', s.mpOutputReservoirs i = some b → s.mpTemporalReservoirs i = some b' →
      b.id ≠ b'.id)

/-- Both reservoir slots of every pass hold a buffer. -/
def reservoirsAllocated (s : State) : Prop :=
  ∀ i : Fin 4, (s.mpOutputReservoirs i).isSome = true ∧ (s.mpTemporalReservoirs i).isSome = true

/-- State `s'` has the kernel objects, the options and the recompile flag of `s`, and
its log extends that of `s` by requests that create no kernel object. -/
def SameKernels (s s' : State) : Prop :=
  s'.kernels = s.kernels ∧ s'.mOptions = s.mOptions ∧ s'.mRecompile = s.mRecompile ∧
    s.log <+: s'.log ∧ kernelCreations s'.log = kernelCreations s.log

/-- A step that allocates at most fresh resources: kernels, options and recompile flag
stay, the allocation counter does not decrease, distinct reservoir slots stay
distinct and allocated reservoir slots stay allocated. -/
def BufferStep (s s' : State) : Prop :=
  SameKernels s s' ∧ s.nextId ≤ s'.nextId ∧
    (reservoirsDistinct s → reservoirsDistinct s') ∧
    (∀ j, (s.mpOutputReservoirs j).isSome = true → (s'.mpOutputReservoirs j).isSome = true) ∧
    (∀ j, (s.mpTemporalReservoirs j).isSome = true → (s'.mpTemporalReservoirs j).isSome = true)

/-- A step of `updatePrograms`: the options and both reservoir arrays stay, the
allocation counter does not decrease and no kernel object is dropped. -/
def KernelStep (s s' : State) : Prop :=
  s.nextId ≤ s'.nextId ∧ s'.mOptions = s.mOptions ∧
    s'.mpOutputReservoirs = s.mpOutputReservoirs ∧
    s'.mpTemporalReservoirs = s.mpTemporalReservoirs ∧
    (s.mpReflectTypes.isSome = true → s'.mpReflectTypes.isSome = true) ∧
    (s.mpTraceReceiverPass.isSome = true → s'.mpTraceReceiverPass.isSome = true) ∧
    (s.mpBuildPriorPass.isSome = true → s'.mpBuildPriorPass.isSome = true) ∧
    (s.mpInitialSamplingPass.isSome = true → s'.mpInitialSamplingPass.isSome = true) ∧
    (s.mpTemporalResamplingPass.isSome = true → s'.mpTemporalResamplingPass.isSome = true) ∧
    (s.mpSpatialResamplingPass.isSome = true → s'.mpSpatialResamplingPass.isSome = true) ∧
    (s.mpResolvePass.isSome = true → s'.mpResolvePass.isSome = true) ∧
    (s.mpWriteToEnvBuffer.isSome = true → s'.mpWriteToEnvBuffer.isSome = true)

/-- What `update` needs to run through without fault when the prior build is off:
every kernel the stored options call for, the four counter buffers, the reservoir
buffers of every pass, a pass count of at most `maxNumPasses`, a block grid the user
interface admits on the 512 x 512 importance map, and an importance buffer of the
size `prepareResources` allocates. -/
def Ready (s : State) : Prop :=
  kernelsBuilt s ∧
  (s.mpPriorCounters.isSome = true ∧ s.mpInitialCounters.isSome = true ∧
    s.mpTemporalCounters.isSome = true ∧ s.mpSpatialCounters.isSome = true) ∧
  reservoirsAllocated s ∧ s.numPasses ≤ 4 ∧
  (s.importanceMapDim = (512, 512) ∧ 1 ≤ s.envMapNumBlockX ∧ s.envMapNumBlockX ≤ 32 ∧
    1 ≤ s.envMapNumBlockY ∧ s.envMapNumBlockY ≤ 32 ∧
    2 * 1024 * 1024 ≤ capacity s.mpEnvMapBlockBuffer) ∧
  (s.mOptions.usePriorDistribution && s.useOurs) = false

/-- One frame after the first: `update`, `endFrame`, and the `beginFrame` of the next
frame with no recompile requested. -/
def frame (s : State) (p : (Nat → ℚ) × (Nat × Nat) × (Nat × Nat)) : Option State :=
  (update s p.1).bind fun s => beginFrame (endFrame s) p.2.1 p.2.2 false

/-- A run of frames, each given by what the importance buffer holds and by the frame
size and tile grid of the next `beginFrame`; no `setOptions` in between. -/
def frames : List ((Nat → ℚ) × (Nat × Nat) × (Nat × Nat)) → State → Option State
  | [], s => some s
  | p :: ps, s => (frame s p).bind (frames ps)

/-- A step of `beginFrame` keeps what `Ready` asks for besides kernels and reservoirs. -/
def Keeps (s s' : State) : Prop :=
  s'.numPasses = s.numPasses ∧ s'.useOurs = s.useOurs ∧
  s'.importanceMapDim = s.importanceMapDim ∧ s'.envMapNumBlockX = s.envMapNumBlockX ∧
  s'.envMapNumBlockY = s.envMapNumBlockY ∧
  s'.prevEnvMapNumBlockX = s.prevEnvMapNumBlockX ∧
  s'.prevEnvMapNumBlockY = s.prevEnvMapNumBlockY ∧
  s'.sceneHasEnvMap = s.sceneHasEnvMap ∧
  (s.mpPriorCounters.isSome = true → s'.mpPriorCounters.isSome = true) ∧
  (s.mpInitialCounters.isSome = true → s'.mpInitialCounters.isSome = true) ∧
  (s.mpTemporalCounters.isSome = true → s'.mpTemporalCounters.isSome = true) ∧
  (s.mpSpatialCounters.isSome = true → s'.mpSpatialCounters.isSome = true) ∧
  (2 * 1024 * 1024 ≤ capacity s.mpEnvMapBlockBuffer →
    2 * 1024 * 1024 ≤ capacity s'.mpEnvMapBlockBuffer)

/-! ## Specular shapes (SMS.cpp lines 14-36) -/

/-- The geometry types of the framework; only `TriangleMesh` is named in these files. -/
inductive GeometryType where
  | None
  | TriangleMesh
  | DisplacedTriangleMesh
  | Curve
  | SDFGrid
  | Custom
deriving DecidableEq

/-- The members of `GeometryInstanceData` that `setupSpecularShapes` reads. -/
structure GeometryInstanceData where
  type : GeometryType
  materialID : Nat
  geometryID : Nat
deriving DecidableEq

/-- An axis-aligned bounding box: `minPoint` and `maxPoint`. -/
structure AABB where
  minPoint : ℚ × ℚ × ℚ
  maxPoint : ℚ × ℚ × ℚ
deriving DecidableEq

/-- What `setupSpecularShapes` asks of a basic material. -/
structure BasicMaterial where
  isCausticBouncer : Bool
  isUVSpaceSampling : Bool
deriving DecidableEq

/-- A material: `toBasicMaterial()` is null for a material that is not a basic one. -/
structure Material where
  toBasicMaterial : Option BasicMaterial
deriving DecidableEq

/-- The scene as `setupSpecularShapes` sees it: the geometry instances
`getGeometryInstance(0), ..., getGeometryInstance(getGeometryInstanceCount() - 1)`, and
the lookups `getMaterial` and `getMeshBounds`, which have no result for an identifier
the scene does not know. -/
structure Scene where
  instances : List GeometryInstanceData
  getMaterial : Nat → Option Material
  getMeshBounds : Nat → Option AABB

/-- The three vectors of the `SMS` object (header lines 27-29). -/
structure SMS where
  materialIDs : List Nat
  specularAABBs : List AABB
  isUVSpaceSampling : List Nat
deriving DecidableEq

/-- The three vectors of a newly constructed object: empty. -/
def SMS.empty : SMS := ⟨[], [], []⟩

/-- The body of the loop of lines 16-35 for one instance.  An instance that is not a
triangle mesh is passed over before any lookup; for a triangle mesh the material is
looked up and dereferenced and the mesh bounds are fetched, and the three vectors
grow by one element each when the material is a basic one and a caustic bouncer. -/
def SMS.visit (scene : Scene) (sms : SMS) (instanceData : GeometryInstanceData) : Option SMS :=
  if instanceData.type ≠ GeometryType.TriangleMesh then some sms
  else
    match scene.getMaterial instanceData.materialID with
    | none => none
    | some material =>
      match scene.getMeshBounds instanceData.geometryID with
      | none => none
      | some aabb =>
        match material.toBasicMaterial with
        | none => some sms
        | some pMaterial =>
          if pMaterial.isCausticBouncer then
            some { materialIDs := sms.materialIDs ++ [instanceData.materialID]
                   specularAABBs := sms.specularAABBs ++ [aabb]
                   isUVSpaceSampling := sms.isUVSpaceSampling ++
                     [if pMaterial.isUVSpaceSampling then 1 else 0] }
          else some sms

/-- The loop of lines 16-35 over the remaining instances. -/
def SMS.scan (scene : Scene) : List GeometryInstanceData → SMS → Option SMS
  | [], sms => some sms
  | instanceData :: rest, sms => (SMS.visit scene sms instanceData).bind (SMS.scan scene rest)

/-- Lines 14-36. -/
def SMS.setupSpecularShapes (sms : SMS) (pScene : Scene) : Option SMS :=
  SMS.scan pScene pScene.instances sms

/-- The registry entry the specification gives an instance: the material identifier,
the bounding box and the UV-space flag as 0 or 1 of a triangle mesh whose material is
a basic material and a caustic bouncer; no entry for any other instance. -/
def entryAsSpecified (scene : Scene) (instanceData : GeometryInstanceData) :
    Option (Nat × AABB × Nat) :=
  if instanceData.type = GeometryType.TriangleMesh then
    match scene.getMaterial instanceData.materialID, scene.getMeshBounds instanceData.geometryID with
    | some material, some aabb =>
      match material.toBasicMaterial with
      | some pMaterial =>
        if pMaterial.isCausticBouncer then
          some (instanceData.materialID, aabb, if pMaterial.isUVSpaceSampling then 1 else 0)
        else none
      | none => none
    | _, _ => none
  else none

/-- The registry the specification describes: the entries of the qualifying instances,
in instance order. -/
def registryAsSpecified (scene : Scene) : List (Nat × AABB × Nat) :=
  scene.instances.filterMap (entryAsSpecified scene)

/-- A scene of five instances: a curve whose identifiers the scene does not know, a
caustic bouncer with UV-space sampling, a mesh with a material that is not a basic one,
a basic material that is no caustic bouncer, and a caustic bouncer without UV-space
sampling. -/
def sampleScene : Scene where
  instances := [⟨.Curve, 9, 9⟩, ⟨.TriangleMesh, 0, 0⟩, ⟨.TriangleMesh, 1, 1⟩,
    ⟨.TriangleMesh, 2, 0⟩, ⟨.TriangleMesh, 3, 1⟩]
  getMaterial := fun id =>
    match id with
    | 0 => some ⟨some ⟨true, true⟩⟩
    | 1 => some ⟨none⟩
    | 2 => some ⟨some ⟨false, true⟩⟩
    | 3 => some ⟨some ⟨true, false⟩⟩
    | _ => none
  getMeshBounds := fun id =>
    match id with
    | 0 => some ⟨(0, 0, 0), (1, 1, 1)⟩
    | 1 => some ⟨(-1, -1, -1), (0, 2, 0)⟩
    | _ => none

/-! ## Sample states -/

/-- The state after construction with temporal and spatial reuse switched on, one
`beginFrame` for a 32 x 32 frame of 2 x 2 tiles, and one `endFrame`: the frame index
is 1 and every kernel and buffer exists. -/
def secondFrameState : State :=
  endFrame ((beginFrame (State.init { Options.default with
      useTemporalResampling := true, useSpatialResampling := true } false false)
    (32, 32) (2, 2) false).getD (State.init Options.default false false))

/-- The state after construction with the prior distribution switched on and one
`beginFrame`, with the `useOurs` flag then cleared as the "Use Ours" checkbox of
`renderUI` does. -/
def useOursOffState : State :=
  { (beginFrame (State.init { Options.default with usePriorDistribution := true } false false)
      (32, 32) (2, 2) false).getD (State.init Options.default false false) with
    useOurs := false }

/-- The state `secondFrameState` after one `update` over an all-zero importance buffer. -/
def secondFrameUpdated : State :=
  (update secondFrameState (fun _ => 0)).getD secondFrameState

/-- Four configuration calls on `secondFrameState`: the Bernoulli-trial bound is
changed, a frame begins, spatial reuse is switched off, and a frame begins with a
recompile requested. -/
def sampleCalls : List Call :=
  [.setOptions { Options.default with
      useTemporalResampling := true, useSpatialResampling := true, maxBernoulliTrials := 7 },
    .beginFrame (32, 32) (2, 2) false,
    .setOptions { Options.default with
      useTemporalResampling := true, useSpatialResampling := false, maxBernoulliTrials := 7 },
    .beginFrame (64, 64) (4, 4) true]

/-- The state `secondFrameState` after the "Num Passes" widget was set to 3. -/
def threePassState : State :=
  renderUI secondFrameState
    ⟨secondFrameState.mOptions, false, 3, false, true, 8, 8, false⟩

/-- The state `threePassState` after one `update` over an all-zero importance buffer. -/
def threePassUpdated : State :=
  (update threePassState (fun _ => 0)).getD threePassState

/-- The state at the start of the next frame: `threePassUpdated` after `endFrame`, a
`setOptions` with the stored options and a `beginFrame` of the same frame size. -/
def threePassNext : State :=
  (beginFrame (setOptions (endFrame threePassUpdated) secondFrameState.mOptions)
    (32, 32) (2, 2) false).getD secondFrameState

/-- The state `threePassNext` after one `update` over an all-zero importance buffer. -/
def threePassNextUpdated : State :=
  (update threePassNext (fun _ => 0)).getD threePassNext

/-- The state at the start of frame 0: construction with temporal and spatial reuse
switched on, and one `beginFrame`. -/
def firstFrameState : State :=
  (beginFrame (State.init { Options.default with
      useTemporalResampling := true, useSpatialResampling := true } false false)
    (32, 32) (2, 2) false).getD (State.init Options.default false false)

/-- The state at the start of frame 1: `firstFrameState` after one frame. -/
def oneFrameLater : State :=
  (frames [(fun _ => 0, (32, 32), (2, 2))] firstFrameState).getD firstFrameState

/-- The state at the start of frame 0 in a scene with an environment map. -/
def envMapFrameState : State :=
  (beginFrame (State.init Options.default false true) (32, 32) (2, 2) false).getD
    (State.init Options.default false true)

/-- The state `envMapFrameState` after one `update` that read back an importance buffer of
ones. -/
def envMapUpdated : State :=
  (update envMapFrameState (fun _ => 1)).getD envMapFrameState

/-- The state `envMapUpdated` after one more `update`. -/
def envMapUpdatedTwice : State :=
  (updates [fun _ => 1] envMapUpdated).getD envMapFrameState

/-! ## Neighbour offset table (lines 642-667) -/

/-- Line 646, `const float phi2 = 1.f / 1.3247179572447f;`, read exactly. -/
def phi2 : ℚ := 10000000000000 / 13247179572447

/-- Lines 651-656: the next point of the additive recurrence,
`u += phi2; v += phi2 * phi2;` with each coordinate reduced by 1 when it reached 1. -/
def nextPoint (p : ℚ × ℚ) : ℚ × ℚ :=
  let u := p.1 + phi2
  let v := p.2 + phi2 * phi2
  (if u ≥ 1 then u - 1 else u, if v ≥ 1 then v - 1 else v)

/-- Line 658: `rSq = (u - 0.5f) * (u - 0.5f) + (v - 0.5f) * (v - 0.5f)`. -/
def rSq (p : ℚ × ℚ) : ℚ :=
  (p.1 - 1 / 2) * (p.1 - 1 / 2) + (p.2 - 1 / 2) * (p.2 - 1 / 2)

/-- Conversion of a `float` to an integer: truncation toward zero. -/
def truncate (x : ℚ) : Int := Int.tdiv x.num x.den

/-- The conversion `int8_t(x)`: truncation toward zero, kept to 8 bits in two's
complement. -/
def toInt8 (x : ℚ) : Int := (truncate x + 128) % 256 - 128

/-- Lines 662-663: the two components stored for an accepted point, `R = 254`. -/
def offsetPair (p : ℚ × ℚ) : Int × Int :=
  (toInt8 ((p.1 - 1 / 2) * 254), toInt8 ((p.2 - 1 / 2) * 254))

/-- The loop of lines 649-664, `for (uint32_t index = 0; index < sampleCount * 2;)`,
with `limit` the bound and `fuel` a bound on the number of iterations; `none` when the
fuel runs out before the loop ends.  `stores` are the stores `offsets[index] = value`
done so far, as (index, value), in program order. -/
def offsetsLoop (limit : Nat) : Nat → Nat → ℚ × ℚ → List (Nat × Int) → Option (List (Nat × Int))
  | 0, index, _, stores => if index < limit then none else some stores
  | fuel + 1, index, p, stores =>
    if index < limit then
      if rSq (nextPoint p) > 1 / 4 then offsetsLoop limit fuel index (nextPoint p) stores
      else
        offsetsLoop limit fuel (u32 (u32 (index + 1) + 1)) (nextPoint p)
          (stores ++ [(index, (offsetPair (nextPoint p)).1),
            (u32 (index + 1), (offsetPair (nextPoint p)).2)])
    else some stores

/-- Lines 642-665 of `createNeighborOffsetTexture(sampleCount)`: the stores into
`offsets`, starting from `u = v = 0.5f` with the bound `sampleCount * 2` computed in
`uint32_t`. -/
def createNeighborOffsetTexture (sampleCount fuel : Nat) : Option (List (Nat × Int)) :=
  offsetsLoop (u32 (sampleCount * 2)) fuel 0 (1 / 2, 1 / 2) []

/-- The `k`-th point the loop generates: `k` steps of the recurrence from (0.5, 0.5). -/
def point (k : Nat) : ℚ × ℚ := nextPoint^[k] (1 / 2, 1 / 2)

/-- The accepted points (`rSq ≤ 0.25`) among the `m` points generated after `p`, in
the order of generation. -/
def acceptedPoints : Nat → ℚ × ℚ → List (ℚ × ℚ)
  | 0, _ => []
  | m + 1, p =>
    if rSq (nextPoint p) > 1 / 4 then acceptedPoints m (nextPoint p)
    else nextPoint p :: acceptedPoints m (nextPoint p)

/-- The components of the offset pairs of `ps`, pair after pair. -/
def components (ps : List (ℚ × ℚ)) : List Int :=
  ps.flatMap fun p => [(offsetPair p).1, (offsetPair p).2]

/-! ### The same loop in `float` arithmetic

The loop once more, with every `float` operation rounded the way IEEE 754 binary32
arithmetic does (round to nearest, ties to even), each operation on its own. -/

/-- Rounding of a rational to the nearest integer, a tie going to the even one. -/
def roundEven (q : ℚ) : ℤ :=
  if q - ⌊q⌋ < 1 / 2 then ⌊q⌋
  else if q - ⌊q⌋ > 1 / 2 then ⌊q⌋ + 1
  else if ⌊q⌋ % 2 = 0 then ⌊q⌋ else ⌊q⌋ + 1

/-- The `float` nearest to the real number `x`: a significand of 24 bits, the unit in
the last place `2 ^ (e - 23)` for `2 ^ e ≤ |x| < 2 ^ (e + 1)`, and `2 ^ (-149)` below
the least normal number `2 ^ (-126)`.  Overflow (`|x| ≥ 2 ^ 128`) is out of reach of
the values of this loop and is not modelled. -/
def roundF32 (x : ℚ) : ℚ :=
  if x = 0 then 0
  else (roundEven (x / 2 ^ (max (Int.log 2 |x|) (-126) - 23)) : ℚ)
    * 2 ^ (max (Int.log 2 |x|) (-126) - 23)

/-- The sum of two `float`s. -/
def f32Add (a b : ℚ) : ℚ := roundF32 (a + b)

/-- The difference of two `float`s. -/
def f32Sub (a b : ℚ) : ℚ := roundF32 (a - b)

/-- The product of two `float`s. -/
def f32Mul (a b : ℚ) : ℚ := roundF32 (a * b)

/-- The quotient of two `float`s. -/
def f32Div (a b : ℚ) : ℚ := roundF32 (a / b)

/-- Line 646, `const float phi2 = 1.f / 1.3247179572447f;`: the literal is rounded to a
`float`, and so is the quotient. -/
def phi2F32 : ℚ := f32Div 1 (roundF32 (13247179572447 / 10000000000000))

/-- Lines 651-656 in `float` arithmetic: `u += phi2; v += phi2 * phi2;` and the two
conditional subtractions of `1.f`. -/
def nextPointF32 (p : ℚ × ℚ) : ℚ × ℚ :=
  let u := f32Add p.1 phi2F32
  let v := f32Add p.2 (f32Mul phi2F32 phi2F32)
  (if u ≥ 1 then f32Sub u 1 else u, if v ≥ 1 then f32Sub v 1 else v)

/-- Line 658 in `float` arithmetic: two differences, two products, one sum. -/
def rSqF32 (p : ℚ × ℚ) : ℚ :=
  f32Add (f32Mul (f32Sub p.1 (1 / 2)) (f32Sub p.1 (1 / 2)))
    (f32Mul (f32Sub p.2 (1 / 2)) (f32Sub p.2 (1 / 2)))

/-- Lines 662-663 in `float` arithmetic: `int8_t((u - 0.5f) * R)` with `R = 254`
converted to `float`. -/
def offsetPairF32 (p : ℚ × ℚ) : Int × Int :=
  (toInt8 (f32Mul (f32Sub p.1 (1 / 2)) 254), toInt8 (f32Mul (f32Sub p.2 (1 / 2)) 254))

/-- The loop of lines 649-664 in `float` arithmetic; `limit`, `fuel` and `stores` as in
`offsetsLoop`. -/
def offsetsLoopF32 (limit : Nat) :
    Nat → Nat → ℚ × ℚ → List (Nat × Int) → Option (List (Nat × Int))
  | 0, index, _, stores => if index < limit then none else some stores
  | fuel + 1, index, p, stores =>
    if index < limit then
      if rSqF32 (nextPointF32 p) > 1 / 4 then
        offsetsLoopF32 limit fuel index (nextPointF32 p) stores
      else
        offsetsLoopF32 limit fuel (u32 (u32 (index + 1) + 1)) (nextPointF32 p)
          (stores ++ [(index, (offsetPairF32 (nextPointF32 p)).1),
            (u32 (index + 1), (offsetPairF32 (nextPointF32 p)).2)])
    else some stores

/-- Lines 642-665 of `createNeighborOffsetTexture(sampleCount)` in `float` arithmetic:
the stores into `offsets`, starting from `u = v = 0.5f` with the bound
`sampleCount * 2` computed in `uint32_t`. -/
def createNeighborOffsetTextureF32 (sampleCount fuel : Nat) : Option (List (Nat × Int)) :=
  offsetsLoopF32 (u32 (sampleCount * 2)) fuel 0 (1 / 2, 1 / 2) []

/-- The accepted points (`rSq > 0.25f` false) among the `m` points generated after `p`
in `float` arithmetic, in the order of generation. -/
def acceptedPointsF32 : Nat → ℚ × ℚ → List (ℚ × ℚ)
  | 0, _ => []
  | m + 1, p =>
    if rSqF32 (nextPointF32 p) > 1 / 4 then acceptedPointsF32 m (nextPointF32 p)
    else nextPointF32 p :: acceptedPointsF32 m (nextPointF32 p)

/-- The components of the offset pairs of `ps` in `float` arithmetic, pair after pair. -/
def componentsF32 (ps : List (ℚ × ℚ)) : List Int :=
  ps.flatMap fun p => [(offsetPairF32 p).1, (offsetPairF32 p).2]

/-- One step of a coordinate, counted in units of `2 ^ (-24)`: `U'` follows `U` when the
constant `C` is added and 1 is subtracted on reaching 1, the sum being rounded to an
even count (off by at most one) when it reaches 1. -/
def GridStep (C U U' : ℤ) : Prop :=
  0 ≤ U' ∧ U' < 16777216 ∧ (U + C < 16777216 → U' = U + C) ∧
    (16777216 ≤ U + C → U + C - 16777216 - 1 ≤ U' ∧ U' ≤ U + C - 16777216 + 1)

/-- A coordinate, in units of `2 ^ (-24)`, between 0.147 and 0.853. -/
def Central (U : ℤ) : Prop := 2466251 ≤ U ∧ U ≤ 14310965

/-- Both coordinates are multiples of `2 ^ (-24)` in `[0, 1)`. -/
def OnGrid (p : ℚ × ℚ) : Prop :=
  ∃ U V : ℤ, (0 ≤ U ∧ U < 16777216) ∧ (0 ≤ V ∧ V < 16777216) ∧
    p = ((U : ℚ) / 16777216, (V : ℚ) / 16777216)

/-! ## Theorems -/

theorem runningTotal_zero (r : List ℚ) (a : Nat) : runningTotal r a 0 = r.getD a 0 := by
  simp [runningTotal, List.range_succ]

theorem runningTotal_succ (r : List ℚ) (a t : Nat) :
    runningTotal r a (t + 1) = runningTotal r a t + r.getD (a + (t + 1)) 0 := by
  simp [runningTotal, List.range_succ, add_assoc]

theorem runningTotal_head (r : List ℚ) (a t : Nat) :
    runningTotal r a (t + 1) = r.getD a 0 + runningTotal r (a + 1) t := by
  induction t with
  | zero => simp [runningTotal, List.range_succ]
  | succ t ih =>
    rw [runningTotal_succ, ih, runningTotal_succ, add_assoc]
    congr 2
    congr 1
    omega

theorem runningTotal_congr (r r' : List ℚ) (a t : Nat)
    (h : ∀ u, u ≤ t → r'[a + u]? = r[a + u]?) : runningTotal r' a t = runningTotal r a t := by
  induction t with
  | zero =>
    have := h 0 (le_refl _)
    simp [runningTotal_zero, List.getD_eq_getElem?_getD] at *
    rw [this]
  | succ t ih =>
    rw [runningTotal_succ, runningTotal_succ, ih (fun u hu => h u (by omega))]
    have := h (t + 1) (le_refl _)
    simp only [List.getD_eq_getElem?_getD]
    rw [this]

theorem prefixStep_some {bo j : Nat} {r r' : List ℚ} (h : prefixStep bo j r = some r') :
    j < r.length ∧
      r' = r.set j (r.getD j 0 + (if bo < j then r.getD (j - 1) 0 else 0)) := by
  unfold prefixStep at h
  cases hj : r[j]? with
  | none => simp [hj] at h
  | some cur =>
    have hlt : j < r.length := by
      by_contra hc
      have : r[j]? = none := List.getElem?_eq_none (by omega)
      simp [this] at hj
    refine ⟨hlt, ?_⟩
    simp only [hj] at h
    have hcur : r.getD j 0 = cur := by simp [List.getD_eq_getElem?_getD, hj]
    by_cases hb : bo < j
    · simp only [hb, if_true] at h ⊢
      cases hp : r[j - 1]? with
      | none => simp [hp] at h
      | some prev =>
        simp only [hp] at h
        have hprev : r.getD (j - 1) 0 = prev := by simp [List.getD_eq_getElem?_getD, hp]
        rw [hcur, hprev]
        exact (Option.some.inj h).symm
    · simp only [hb, if_false] at h ⊢
      rw [hcur]
      exact (Option.some.inj h).symm

theorem innerLoop_spec (bo : Nat) :
    ∀ (k j : Nat) (r r' : List ℚ), bo ≤ j → innerLoop bo k j r = some r' →
      r'.length = r.length ∧ (0 < k → j + k ≤ r.length) ∧
      (∀ m, m < j ∨ j + k ≤ m → r'[m]? = r[m]?) ∧
      (∀ t, t < k → r'.getD (j + t) 0
          = (if bo < j then r.getD (j - 1) 0 else 0) + runningTotal r j t) := by
  intro k
  induction k with
  | zero =>
    intro j r r' _ h
    simp [innerLoop] at h
    subst h
    simp
  | succ k ih =>
    intro j r r' hbo h
    simp only [innerLoop] at h
    cases hs : prefixStep bo j r with
    | none => simp [hs] at h
    | some r1 =>
      simp only [hs] at h
      obtain ⟨hlt, hr1⟩ := prefixStep_some hs
      obtain ⟨hlen, hbound, hout, hin⟩ := ih (j + 1) r1 r' (by omega) h
      have hlen1 : r1.length = r.length := by rw [hr1]; simp
      have hr1out : ∀ m, m ≠ j → r1[m]? = r[m]? := by
        intro m hm
        rw [hr1]
        exact List.getElem?_set_ne (Ne.symm hm)
      have hr1j : r1.getD j 0 = r.getD j 0 + (if bo < j then r.getD (j - 1) 0 else 0) := by
        rw [hr1]
        simp [List.getD_eq_getElem?_getD, List.getElem?_set, hlt]
      refine ⟨by rw [hlen, hlen1], ?_, ?_, ?_⟩
      · intro _
        by_cases hk : 0 < k
        · have := hbound hk
          omega
        · omega
      · intro m hm
        rw [hout m (by omega), hr1out m (by omega)]
      · intro t ht
        cases t with
        | zero =>
          have h1 : r'[j]? = r1[j]? := hout j (by omega)
          have h2 : r'.getD j 0 = r1.getD j 0 := by
            simp only [List.getD_eq_getElem?_getD, h1]
          simp only [Nat.add_zero]
          rw [h2, hr1j, runningTotal_zero, add_comm]
        | succ t =>
          have h3 := hin t (by omega)
          have h4 : j + 1 + t = j + (t + 1) := by omega
          rw [h4] at h3
          rw [h3, runningTotal_head]
          have h5 : runningTotal r1 (j + 1) t = runningTotal r (j + 1) t :=
            runningTotal_congr r r1 (j + 1) t (fun u _ => hr1out _ (by omega))
          have h6 : bo < j + 1 := by omega
          simp only [h6, if_true, Nat.add_sub_cancel, h5, hr1j]
          ring

theorem slice_congr (a b : List ℚ) (off n : Nat)
    (h : ∀ m, m < off + n → a[m]? = b[m]?) :
    (a.drop off).take n = (b.drop off).take n := by
  apply List.ext_getElem?
  intro m
  by_cases hm : m < n
  · simp only [List.getElem?_take, hm, if_true, List.getElem?_drop]
    exact h _ (by omega)
  · simp [List.getElem?_take, hm]

theorem outerLoop_spec (sz : Nat) :
    ∀ (n i : Nat) (r : List ℚ) (ups : List Upload) (res : List ℚ) (ups' : List Upload),
      outerLoop sz n i r ups = some (res, ups') →
      res.length = r.length ∧ (0 < n → 0 < sz → (i + n) * sz ≤ r.length) ∧
      (∀ m, m < i * sz ∨ (i + n) * sz ≤ m → res[m]? = r[m]?) ∧
      (∀ b t, i ≤ b → b < i + n → t < sz →
          res.getD (b * sz + t) 0 = runningTotal r (b * sz) t) ∧
      ups' = ups ++ (List.range n).map
          (fun d => ⟨(i + d) * sz, (res.drop ((i + d) * sz)).take sz⟩) := by
  intro n
  induction n with
  | zero =>
    intro i r ups res ups' h
    simp [outerLoop] at h
    obtain ⟨h1, h2⟩ := h
    subst h1 h2
    refine ⟨rfl, by omega, fun _ _ => rfl, fun b t h1 h2 _ => by omega, by simp⟩
  | succ n ih =>
    intro i r ups res ups' h
    simp only [outerLoop] at h
    cases hi : innerLoop (i * sz) sz (i * sz) r with
    | none => simp [hi] at h
    | some r1 =>
      simp only [hi] at h
      obtain ⟨hlen1, hb1, hout1, hin1⟩ := innerLoop_spec (i * sz) sz (i * sz) r r1 (le_refl _) hi
      obtain ⟨hlen, hb, hout, hin, hups⟩ := ih (i + 1) r1 _ res ups' h
      have e1 : (i + 1) * sz = i * sz + sz := by ring
      have e2 : (i + 1 + n) * sz = (i + (n + 1)) * sz := by ring_nf
      have hmono : (i + 1) * sz ≤ (i + (n + 1)) * sz := Nat.mul_le_mul_right _ (by omega)
      refine ⟨by rw [hlen, hlen1], ?_, ?_, ?_, ?_⟩
      · intro _ hsz
        by_cases hn : 0 < n
        · have := hb hn hsz
          rw [e2, hlen1] at this
          exact this
        · have hn0 : n = 0 := by omega
          subst hn0
          have := hb1 hsz
          simpa [e1] using this
      · intro m hm
        rw [hout m (by rcases hm with hm | hm
                       · left; rw [e1]; omega
                       · right; rw [e2]; exact hm),
            hout1 m (by rcases hm with hm | hm
                        · left; exact hm
                        · right; rw [← e1]; omega)]
      · intro b t hb1' hb2 ht
        by_cases hbi : b = i
        · subst hbi
          have h1 : res[b * sz + t]? = r1[b * sz + t]? := hout _ (by left; rw [e1]; omega)
          have h2 : res.getD (b * sz + t) 0 = r1.getD (b * sz + t) 0 := by
            simp only [List.getD_eq_getElem?_getD, h1]
          rw [h2, hin1 t ht]
          simp
        · have hb3 : i + 1 ≤ b := by omega
          rw [hin b t hb3 (by omega) ht]
          apply runningTotal_congr
          intro u _
          apply hout1
          right
          have : (i + 1) * sz ≤ b * sz := Nat.mul_le_mul_right _ hb3
          rw [e1] at this
          omega
      · rw [hups, List.range_succ_eq_map, List.map_cons, List.map_map, List.append_assoc]
        congr 1
        simp only [List.singleton_append, Nat.add_zero]
        congr 1
        · congr 1
          apply slice_congr
          intro m hm
          exact (hout m (by left; rw [e1]; exact hm)).symm
        · apply List.map_congr_left
          intro d _
          simp only [Function.comp]
          have : i + 1 + d = i + (d + 1) := by omega
          rw [this]

theorem hostPrefixSum_spec {dim : Int × Int} {nx ny : Int} {r res : List ℚ}
    {ups : List Upload} (h : hostPrefixSum dim nx ny r = some (res, ups)) :
    ∃ bs, blockSize dim nx ny = some bs ∧ res.length = r.length ∧
      (∀ b t, b < (nx * ny).toNat → t < (bs.1 * bs.2).toNat →
        b * (bs.1 * bs.2).toNat + t < r.length ∧
        res[b * (bs.1 * bs.2).toNat + t]?
          = some (runningTotal r (b * (bs.1 * bs.2).toNat) t)) ∧
      (∀ m, (nx * ny).toNat * (bs.1 * bs.2).toNat ≤ m → res[m]? = r[m]?) ∧
      ups = (List.range (nx * ny).toNat).map (fun d =>
        ⟨d * (bs.1 * bs.2).toNat,
          (res.drop (d * (bs.1 * bs.2).toNat)).take (bs.1 * bs.2).toNat⟩) := by
  unfold hostPrefixSum at h
  cases hbs : blockSize dim nx ny with
  | none => simp [hbs] at h
  | some bs =>
    simp only [hbs] at h
    refine ⟨bs, rfl, ?_⟩
    by_cases hnb : nx * ny ≤ 0
    · simp only [hnb, if_true, Option.some.injEq, Prod.mk.injEq] at h
      obtain ⟨h1, h2⟩ := h
      subst h1 h2
      have h0 : (nx * ny).toNat = 0 := Int.toNat_eq_zero.mpr hnb
      rw [h0]
      exact ⟨rfl, fun b t hb _ => by omega, fun _ _ => rfl, by simp⟩
    · simp only [hnb, if_false] at h
      by_cases hsz : bs.1 * bs.2 < 0
      · simp [hsz] at h
      · simp only [hsz, if_false] at h
        obtain ⟨hlen, hb, hout, hin, hups⟩ := outerLoop_spec _ _ _ _ _ _ _ h
        simp only [Nat.zero_add, Nat.zero_mul, List.nil_append] at hb hout hin hups
        refine ⟨hlen, ?_, ?_, hups⟩
        · intro b t hbn ht
          have hle : (b + 1) * (bs.1 * bs.2).toNat ≤ (nx * ny).toNat * (bs.1 * bs.2).toNat :=
            Nat.mul_le_mul_right _ (by omega)
          have hlt : b * (bs.1 * bs.2).toNat + t < r.length := by
            have := hb (by omega) (by omega)
            have e : (b + 1) * (bs.1 * bs.2).toNat
                = b * (bs.1 * bs.2).toNat + (bs.1 * bs.2).toNat := by ring
            omega
          refine ⟨hlt, ?_⟩
          have := hin b t (Nat.zero_le _) hbn ht
          rw [← this, List.getD_eq_getElem?_getD,
            List.getElem?_eq_getElem (by rw [hlen]; exact hlt)]
          rfl
        · intro m hm
          exact hout m (Or.inr hm)

theorem innerLoop_total (bo : Nat) :
    ∀ (k j : Nat) (r : List ℚ), j + k ≤ r.length → ∃ r', innerLoop bo k j r = some r' := by
  intro k
  induction k with
  | zero => intro j r _; exact ⟨r, rfl⟩
  | succ k ih =>
    intro j r h
    have hj : j < r.length := by omega
    have hstep : ∃ r1, prefixStep bo j r = some r1 ∧ r1.length = r.length := by
      unfold prefixStep
      rw [List.getElem?_eq_getElem hj]
      by_cases hb : bo < j
      · have hj1 : j - 1 < r.length := by omega
        simp only [hb, if_true]
        rw [List.getElem?_eq_getElem hj1]
        exact ⟨_, rfl, by simp⟩
      · simp only [hb, if_false]
        exact ⟨_, rfl, by simp⟩
    obtain ⟨r1, h1, hl⟩ := hstep
    obtain ⟨r', hr'⟩ := ih (j + 1) r1 (by omega)
    exact ⟨r', by simp only [innerLoop, h1, hr']⟩

theorem outerLoop_total (sz : Nat) :
    ∀ (n i : Nat) (r : List ℚ) (ups : List Upload), (i + n) * sz ≤ r.length →
      ∃ out, outerLoop sz n i r ups = some out := by
  intro n
  induction n with
  | zero => intro i r ups _; exact ⟨_, rfl⟩
  | succ n ih =>
    intro i r ups h
    have e : (i + (n + 1)) * sz = i * sz + sz + n * sz := by ring
    obtain ⟨r1, h1⟩ := innerLoop_total (i * sz) sz (i * sz) r (by omega)
    have hl := (innerLoop_spec _ _ _ _ _ (le_refl _) h1).1
    obtain ⟨out, ho⟩ := ih (i + 1) r1 (ups ++ [⟨i * sz, (r1.drop (i * sz)).take sz⟩])
      (by rw [hl]; have : (i + 1 + n) * sz = (i + (n + 1)) * sz := by ring
          omega)
    exact ⟨out, by simp only [outerLoop, h1, ho]⟩

theorem hostPrefixSum_total {dim : Int × Int} {nx ny : Int} {bs : Int × Int} (r : List ℚ)
    (hbs : blockSize dim nx ny = some bs) (hsz : 0 ≤ bs.1 * bs.2)
    (hlen : (nx * ny).toNat * (bs.1 * bs.2).toNat ≤ r.length) :
    ∃ out, hostPrefixSum dim nx ny r = some out := by
  unfold hostPrefixSum
  simp only [hbs]
  by_cases hnb : nx * ny ≤ 0
  · exact ⟨(r, []), by simp only [hnb, if_true]⟩
  · have hsz' : ¬ bs.1 * bs.2 < 0 := by omega
    simp only [hnb, hsz', if_false]
    exact outerLoop_total _ _ _ _ _ (by simpa using hlen)

theorem hostPrefixSum_default_grid_head (r : List ℚ) (a b : ℚ) (h0 : r[0]? = some a)
    (h1 : r[1]? = some b) (hlen : 64 * 4096 ≤ r.length) :
    ∃ res ups, hostPrefixSum (512, 512) 8 8 r = some (res, ups) ∧
      res[0]? = some a ∧ res[1]? = some (a + b) ∧
      (ups[0]?.map fun u => (u.blockOffset, u.data.take 2)) = some (0, [a, a + b]) := by
  have hbs : blockSize (512, 512) 8 8 = some (64, 64) := by decide
  have e64 : ((64 : Int) * 64).toNat = 4096 := by decide
  have e88 : ((8 : Int) * 8).toNat = 64 := by decide
  obtain ⟨⟨res, ups⟩, h⟩ := hostPrefixSum_total r hbs (by decide) (by rw [e64, e88]; exact hlen)
  obtain ⟨bs, hbs', hlen', hin, -, hups⟩ := hostPrefixSum_spec h
  rw [hbs] at hbs'
  cases hbs'
  have g0 := (hin 0 0 (by decide) (by decide)).2
  have g1 := (hin 0 1 (by decide) (by decide)).2
  simp only [Nat.zero_mul, Nat.zero_add] at g0 g1
  have e0 : runningTotal r 0 0 = a := by
    simp [runningTotal, List.range_succ, h0]
  have e1 : runningTotal r 0 1 = a + b := by
    simp [runningTotal, List.range_succ, h0, h1]
  rw [e0] at g0
  rw [e1] at g1
  refine ⟨res, ups, h, g0, g1, ?_⟩
  rw [hups]
  simp only [e64, e88]
  rw [List.getElem?_map, List.getElem?_range (by decide)]
  simp only [Option.map_some', Nat.zero_mul, List.drop_zero, List.take_take]
  have : List.take 2 res = [a, a + b] := by
    apply List.ext_getElem?
    intro m
    rcases m with _ | _ | m
    · simpa [List.getElem?_take] using g0
    · simpa [List.getElem?_take] using g1
    · simp [List.getElem?_take]
  simp [this]

/-- C1 (evaluation at a failing input).  With the default 8 x 8 block grid and the
512 x 512 importance map, on a read-back vector of `2 * 1024 * 1024` ones the loop
returns, and the first two elements of block 0 are `1` and `2`: the running totals
that include the element itself, not the exclusive sums `0` and `1`.  The region
copy issued for block 0 starts with the same values. -/
theorem hostPrefixSum_first_element_kept :
    ∃ res ups, hostPrefixSum (512, 512) 8 8 (List.replicate (2 * 1024 * 1024) 1) = some (res, ups) ∧
      res[0]? = some 1 ∧ res[1]? = some 2 ∧
      (ups[0]?.map fun u => (u.blockOffset, u.data.take 2)) = some (0, [1, 2]) := by
  have h := hostPrefixSum_default_grid_head (List.replicate (2 * 1024 * 1024) 1) 1 1
    (by rw [List.getElem?_replicate, if_pos (by decide)])
    (by rw [List.getElem?_replicate, if_pos (by decide)])
    (by rw [List.length_replicate]; decide)
  have e : (1 : ℚ) + 1 = 2 := by norm_num
  rw [e] at h
  exact h

/-- C2.  The host prefix-sum loop has no cross-block leakage: when two read-back
vectors agree on every texel of block `i`, the two runs of the loop leave identical
values in block `i` (and issue the identical region copy for it), whatever the
vectors hold in the other blocks. -/
theorem hostPrefixSum_no_cross_block_leakage (dim : Int × Int) (nx ny : Int) (bs : Int × Int)
    (r₁ r₂ res₁ res₂ : List ℚ) (ups₁ ups₂ : List Upload) (i : Nat)
    (hbs : blockSize dim nx ny = some bs)
    (h₁ : hostPrefixSum dim nx ny r₁ = some (res₁, ups₁))
    (h₂ : hostPrefixSum dim nx ny r₂ = some (res₂, ups₂))
    (hi : i < (nx * ny).toNat)
    (hagree : ∀ t, t < (bs.1 * bs.2).toNat →
      r₁[i * (bs.1 * bs.2).toNat + t]? = r₂[i * (bs.1 * bs.2).toNat + t]?) :
    (∀ t, t < (bs.1 * bs.2).toNat →
      res₁[i * (bs.1 * bs.2).toNat + t]? = res₂[i * (bs.1 * bs.2).toNat + t]?) ∧
    ups₁[i]? = ups₂[i]? := by
  obtain ⟨b1, hb1, hl1, hin1, -, hu1⟩ := hostPrefixSum_spec h₁
  obtain ⟨b2, hb2, hl2, hin2, -, hu2⟩ := hostPrefixSum_spec h₂
  rw [hbs] at hb1 hb2
  cases hb1
  cases hb2
  have key : ∀ t, t < (bs.1 * bs.2).toNat →
      res₁[i * (bs.1 * bs.2).toNat + t]? = res₂[i * (bs.1 * bs.2).toNat + t]? := by
    intro t ht
    rw [(hin1 i t hi ht).2, (hin2 i t hi ht).2]
    congr 1
    apply runningTotal_congr
    intro u hu
    exact hagree u (by omega)
  refine ⟨key, ?_⟩
  rw [hu1, hu2, List.getElem?_map, List.getElem?_map, List.getElem?_range hi]
  simp only [Option.map_some', Option.some.injEq, Upload.mk.injEq, true_and]
  apply List.ext_getElem?
  intro m
  by_cases hm : m < (bs.1 * bs.2).toNat
  · simp only [List.getElem?_take, hm, if_true, List.getElem?_drop]
    exact key m hm
  · simp [List.getElem?_take, hm]

theorem hostPrefixSum_no_cross_block_leakage_witness :
    (∀ t, t < ((2 : Int) * 2).toNat →
      ([1, 3, 6, 10, 5, 11, 18, 26] : List ℚ)[1 * ((2 : Int) * 2).toNat + t]?
        = ([9, 18, 27, 36, 5, 11, 18, 26] : List ℚ)[1 * ((2 : Int) * 2).toNat + t]?) ∧
    ([⟨0, [1, 3, 6, 10]⟩, ⟨4, [5, 11, 18, 26]⟩] : List Upload)[1]?
      = ([⟨0, [9, 18, 27, 36]⟩, ⟨4, [5, 11, 18, 26]⟩] : List Upload)[1]? :=
  hostPrefixSum_no_cross_block_leakage (4, 2) 2 1 (2, 2)
    [1, 2, 3, 4, 5, 6, 7, 8] [9, 9, 9, 9, 5, 6, 7, 8]
    [1, 3, 6, 10, 5, 11, 18, 26] [9, 18, 27, 36, 5, 11, 18, 26]
    [⟨0, [1, 3, 6, 10]⟩, ⟨4, [5, 11, 18, 26]⟩] [⟨0, [9, 18, 27, 36]⟩, ⟨4, [5, 11, 18, 26]⟩] 1
    (by decide)
    (by
      have hb : blockSize (4, 2) 2 1 = some (2, 2) := by decide
      simp [hostPrefixSum, hb, outerLoop, innerLoop, prefixStep]
      norm_num)
    (by
      have hb : blockSize (4, 2) 2 1 = some (2, 2) := by decide
      simp [hostPrefixSum, hb, outerLoop, innerLoop, prefixStep]
      norm_num)
    (by decide)
    (by
      intro t ht
      have e : ((2 : Int) * 2).toNat = 4 := by decide
      rw [e] at ht ⊢
      interval_cases t <;> rfl)

theorem Extends.extendsRefl (s : State) : Extends s s [] :=
  ⟨rfl, rfl, rfl, rfl, [], by simp, rfl⟩

theorem Extends.extendsTrans {s₁ s₂ s₃ : State} {d₁ d₂ : List (Stage × Option Nat)}
    (h₁ : Extends s₁ s₂ d₁) (h₂ : Extends s₂ s₃ d₂) : Extends s₁ s₃ (d₁ ++ d₂) := by
  obtain ⟨a1, a2, a3, a4, e1, a5, a6⟩ := h₁
  obtain ⟨b1, b2, b3, b4, e2, b5, b6⟩ := h₂
  refine ⟨b1.trans a1, b2.trans a2, b3.trans a3, b4.trans a4, e1 ++ e2, ?_, ?_⟩
  · rw [b5, a5, List.append_assoc]
  · rw [← a6, ← b6]
    simp [stageDispatches, List.filterMap_append]

theorem Extends.extendsEmit (s : State) (es : List Event) : Extends s (s.emit es) (stageDispatches es) :=
  ⟨rfl, rfl, rfl, rfl, es, rfl, rfl⟩

theorem passStages_congr {s s' : State} {d : List (Stage × Option Nat)} (h : Extends s s' d)
    (i : Nat) : passStages s' i = passStages s i := by
  obtain ⟨a1, a2, a3, -, -⟩ := h
  simp only [passStages, a1, a2, a3]

theorem buildPrior_extends {s s' : State} {i : Nat} (h : buildPrior s i = some s') :
    Extends s s' [(Stage.buildPrior, some i)] := by
  unfold buildPrior at h
  split at h
  · exact absurd h (by simp)
  · split at h
    · split at h
      · exact absurd h (by simp)
      · split at h
        · exact absurd h (by simp)
        · cases h
          exact Extends.extendsEmit _ _
    · exact absurd h (by simp)

theorem initialSampling_extends {s s' : State} {i : Nat} (h : initialSampling s i = some s') :
    Extends s s' [(Stage.initialSampling, some i)] := by
  unfold initialSampling at h
  split at h
  · exact absurd h (by simp)
  · split at h
    · cases h
      exact Extends.extendsEmit _ _
    · exact absurd h (by simp)

theorem temporalResampling_extends {s s' : State} {i : Nat}
    (h : temporalResampling s i = some s') :
    Extends s s' [(Stage.temporalResampling, some i)] := by
  unfold temporalResampling at h
  split at h
  · exact absurd h (by simp)
  · split at h
    · cases h
      exact Extends.extendsEmit _ _
    · exact absurd h (by simp)

theorem spatialResampling_extends {s s' : State} {i : Nat}
    (h : spatialResampling s i = some s') :
    Extends s s' [(Stage.spatialResampling, some i)] := by
  unfold spatialResampling at h
  split at h
  · exact absurd h (by simp)
  · split at h
    · simp only at h
      split at h
      · exact absurd h (by simp)
      · cases h
        exact ⟨rfl, rfl, rfl, rfl, _, rfl, rfl⟩
    · exact absurd h (by simp)

theorem passBody_extends {s s' : State} {i : Nat} (h : passBody s i = some s') :
    Extends s s' (passStages s i) := by
  unfold passBody at h
  simp only [Option.bind_eq_some] at h
  obtain ⟨s1, h1, s2, h2, s3, h3, h4⟩ := h
  have e1 : Extends s s1
      (if s.mOptions.usePriorDistribution && s.useOurs then [(Stage.buildPrior, some i)]
        else []) := by
    by_cases hc : (s.mOptions.usePriorDistribution && s.useOurs) = true
    · rw [if_pos hc] at h1 ⊢
      exact buildPrior_extends h1
    · rw [if_neg hc] at h1 ⊢
      cases h1
      exact Extends.extendsRefl _
  have e2 := initialSampling_extends h2
  have e12 := e1.extendsTrans e2
  have e3 : Extends s2 s3
      (if s.mOptions.useTemporalResampling && s.mFrameIndex != 0
        then [(Stage.temporalResampling, some i)] else []) := by
    rw [e12.1, e12.2.1] at h3
    by_cases hc : (s.mOptions.useTemporalResampling && s.mFrameIndex != 0) = true
    · rw [if_pos hc] at h3 ⊢
      exact temporalResampling_extends h3
    · rw [if_neg hc] at h3 ⊢
      cases h3
      exact Extends.extendsRefl _
  have e123 := e12.extendsTrans e3
  have e4 : Extends s3 s'
      (if s.mOptions.useSpatialResampling then [(Stage.spatialResampling, some i)] else []) := by
    rw [e123.1] at h4
    by_cases hc : s.mOptions.useSpatialResampling = true
    · rw [if_pos hc] at h4 ⊢
      exact spatialResampling_extends h4
    · rw [if_neg hc] at h4 ⊢
      cases h4
      exact Extends.extendsRefl _
  exact e123.extendsTrans e4

theorem passLoop_extends :
    ∀ (n i : Nat) (s s' : State), passLoop n i s = some s' →
      Extends s s' ((List.range n).flatMap fun d => passStages s (i + d)) := by
  intro n
  induction n with
  | zero =>
    intro i s s' h
    simp only [passLoop, Option.some.injEq] at h
    subst h
    simpa using Extends.extendsRefl s
  | succ n ih =>
    intro i s s' h
    simp only [passLoop, Option.bind_eq_some] at h
    obtain ⟨s1, h1, h2⟩ := h
    have e1 := passBody_extends h1
    have e2 := ih (i + 1) s1 s' h2
    have e := e1.extendsTrans e2
    have : (passStages s i ++ (List.range n).flatMap fun d => passStages s1 (i + 1 + d))
        = (List.range (n + 1)).flatMap fun d => passStages s (i + d) := by
      rw [List.range_succ_eq_map, List.flatMap_cons, List.flatMap_map]
      simp only [Nat.add_zero]
      congr 1
      apply List.flatMap_congr
      intro d _
      rw [passStages_congr e1]
      congr 1
      omega
    rw [← this]
    exact e

theorem rebuildImportance_extends {s s' : State} {env : Nat → ℚ}
    (h : rebuildImportance s env = some s') : Extends s s' [] := by
  unfold rebuildImportance at h
  split at h
  · split at h
    · split at h
      · exact absurd h (by simp)
      · rename_i s1 h1
        have e1 : Extends s s1 [] := by
          unfold writeToEnvBuffer at h1
          split at h1
          · cases h1
            exact Extends.extendsRefl _
          · split at h1
            · exact absurd h1 (by simp)
            · cases h1
              exact Extends.extendsEmit _ _
        split at h
        · exact absurd h (by simp)
        · split at h
          · exact absurd h (by simp)
          · cases h
            refine e1.extendsTrans ⟨rfl, rfl, rfl, rfl, _, rfl, ?_⟩
            simp [stageDispatches, List.filterMap_map, Function.comp_def, Event.stage]
    · cases h
      exact Extends.extendsRefl _
  · cases h
    exact Extends.extendsRefl _

theorem clearCounters_extends {s s' : State} (h : clearCounters s = some s') :
    Extends s s' [] := by
  unfold clearCounters at h
  split at h
  · cases h
    exact Extends.extendsEmit _ _
  · exact absurd h (by simp)

theorem traceReceiver_extends {s s' : State} (h : traceReceiver s = some s') :
    Extends s s' [(Stage.traceReceiver, none)] := by
  unfold traceReceiver at h
  split at h
  · exact absurd h (by simp)
  · cases h
    exact Extends.extendsEmit _ _

theorem resolve_extends {s s' : State} (h : resolve s = some s') :
    Extends s s' [(Stage.resolve, none)] := by
  unfold resolve at h
  split at h
  · exact absurd h (by simp)
  · split at h
    · exact absurd h (by simp)
    · cases h
      exact Extends.extendsEmit _ _

theorem update_extends {s s' : State} {env : Nat → ℚ} (h : update s env = some s') :
    Extends s s' ((Stage.traceReceiver, none) ::
      ((List.range s.numPasses.toNat).flatMap (passStages s) ++ [(Stage.resolve, none)])) := by
  unfold update at h
  simp only [Option.bind_eq_some] at h
  obtain ⟨s1, h1, s2, h2, s3, h3, s4, h4, h5⟩ := h
  have e1 := rebuildImportance_extends h1
  have e2 := clearCounters_extends h2
  have e3 := traceReceiver_extends h3
  have e123 := (e1.extendsTrans e2).extendsTrans e3
  have e4 := passLoop_extends _ _ _ _ h4
  have e5 := resolve_extends h5
  have e := (e123.extendsTrans e4).extendsTrans e5
  have hn : s3.numPasses = s.numPasses := e123.2.2.2.1
  have hp : (fun d => passStages s3 (0 + d)) = passStages s := by
    funext d
    rw [passStages_congr e123, Nat.zero_add]
  rw [hn, hp] at e
  simpa using e

theorem max_capacity_of_needs {p : Option Buffer} {n : Nat} (h : needsBuffer p n = true) :
    max (capacity p) n = n := by
  cases p with
  | none => simp [capacity]
  | some b =>
    simp only [needsBuffer, decide_eq_true_eq] at h
    simp only [capacity]
    omega

theorem max_capacity_of_not_needs {p : Option Buffer} {n : Nat} (h : ¬ needsBuffer p n = true) :
    max (capacity p) n = capacity p := by
  cases p with
  | none => simp [needsBuffer] at h
  | some b =>
    simp only [needsBuffer, decide_eq_true_eq] at h
    simp only [capacity]
    omega

theorem SameFrame.frameTrans {s₁ s₂ s₃ : State} (h₁ : SameFrame s₁ s₂) (h₂ : SameFrame s₂ s₃) :
    SameFrame s₁ s₃ :=
  ⟨h₂.1.trans h₁.1, h₂.2.1.trans h₁.2.1, h₂.2.2.1.trans h₁.2.2.1,
    h₂.2.2.2.1.trans h₁.2.2.2.1, h₂.2.2.2.2.trans h₁.2.2.2.2⟩

theorem ensureOutputReservoirs_spec (ec : Nat) (i : Fin 4) (s : State) :
    SameFrame s (ensureOutputReservoirs ec i s) ∧
    (∀ j, capacity ((ensureOutputReservoirs ec i s).mpOutputReservoirs j)
      = if j = i then max (capacity (s.mpOutputReservoirs j)) ec
        else capacity (s.mpOutputReservoirs j)) ∧
    (ensureOutputReservoirs ec i s).mpTemporalReservoirs = s.mpTemporalReservoirs ∧
    (ensureOutputReservoirs ec i s).mpSolutionTiles = s.mpSolutionTiles ∧
    (ensureOutputReservoirs ec i s).mpCurrentReceiverInfo = s.mpCurrentReceiverInfo := by
  unfold ensureOutputReservoirs
  by_cases h : needsBuffer (s.mpOutputReservoirs i) ec = true
  · rw [if_pos h]
    refine ⟨⟨rfl, rfl, rfl, rfl, rfl⟩, ?_, rfl, rfl, rfl⟩
    intro j
    by_cases hj : j = i
    · subst hj
      rw [if_pos rfl, max_capacity_of_needs h]
      simp [createStructuredBuffer, capacity]
    · simp [createStructuredBuffer, hj]
  · rw [if_neg h]
    refine ⟨⟨rfl, rfl, rfl, rfl, rfl⟩, ?_, rfl, rfl, rfl⟩
    intro j
    by_cases hj : j = i
    · subst hj
      simp [max_capacity_of_not_needs h]
    · simp [hj]

theorem ensureTemporalReservoirs_spec (ec : Nat) (i : Fin 4) (s : State) :
    SameFrame s (ensureTemporalReservoirs ec i s) ∧
    (∀ j, capacity ((ensureTemporalReservoirs ec i s).mpTemporalReservoirs j)
      = if j = i then max (capacity (s.mpTemporalReservoirs j)) ec
        else capacity (s.mpTemporalReservoirs j)) ∧
    (ensureTemporalReservoirs ec i s).mpOutputReservoirs = s.mpOutputReservoirs ∧
    (ensureTemporalReservoirs ec i s).mpSolutionTiles = s.mpSolutionTiles ∧
    (ensureTemporalReservoirs ec i s).mpCurrentReceiverInfo = s.mpCurrentReceiverInfo := by
  unfold ensureTemporalReservoirs
  by_cases h : needsBuffer (s.mpTemporalReservoirs i) ec = true
  · rw [if_pos h]
    refine ⟨⟨rfl, rfl, rfl, rfl, rfl⟩, ?_, rfl, rfl, rfl⟩
    intro j
    by_cases hj : j = i
    · subst hj
      rw [if_pos rfl, max_capacity_of_needs h]
      simp [createStructuredBuffer, capacity]
    · simp [createStructuredBuffer, hj]
  · rw [if_neg h]
    refine ⟨⟨rfl, rfl, rfl, rfl, rfl⟩, ?_, rfl, rfl, rfl⟩
    intro j
    by_cases hj : j = i
    · subst hj
      simp [max_capacity_of_not_needs h]
    · simp [hj]

theorem ensureSolutionTiles_spec (ec : Nat) (i : Fin 4) (s : State) :
    SameFrame s (ensureSolutionTiles ec i s) ∧
    (∀ j, capacity ((ensureSolutionTiles ec i s).mpSolutionTiles j)
      = if j = i then max (capacity (s.mpSolutionTiles j)) (u32 (ec * 4))
        else capacity (s.mpSolutionTiles j)) ∧
    (ensureSolutionTiles ec i s).mpOutputReservoirs = s.mpOutputReservoirs ∧
    (ensureSolutionTiles ec i s).mpTemporalReservoirs = s.mpTemporalReservoirs ∧
    (ensureSolutionTiles ec i s).mpCurrentReceiverInfo = s.mpCurrentReceiverInfo := by
  unfold ensureSolutionTiles
  by_cases h : needsBuffer (s.mpSolutionTiles i) (u32 (ec * 4)) = true
  · rw [if_pos h]
    refine ⟨⟨rfl, rfl, rfl, rfl, rfl⟩, ?_, rfl, rfl, rfl⟩
    intro j
    by_cases hj : j = i
    · subst hj
      rw [if_pos rfl, max_capacity_of_needs h]
      simp [createStructuredBuffer, capacity]
    · simp [createStructuredBuffer, hj]
  · rw [if_neg h]
    refine ⟨⟨rfl, rfl, rfl, rfl, rfl⟩, ?_, rfl, rfl, rfl⟩
    intro j
    by_cases hj : j = i
    · subst hj
      simp [max_capacity_of_not_needs h]
    · simp [hj]

theorem preparePass_spec (ec : Nat) (s : State) (i : Fin 4) :
    SameFrame s (preparePass ec s i) ∧
    (∀ j, capacity ((preparePass ec s i).mpOutputReservoirs j)
      = if j = i then max (capacity (s.mpOutputReservoirs j)) ec
        else capacity (s.mpOutputReservoirs j)) ∧
    (∀ j, capacity ((preparePass ec s i).mpTemporalReservoirs j)
      = if j = i then max (capacity (s.mpTemporalReservoirs j)) ec
        else capacity (s.mpTemporalReservoirs j)) ∧
    (∀ j, capacity ((preparePass ec s i).mpSolutionTiles j)
      = if j = i then max (capacity (s.mpSolutionTiles j)) (u32 (ec * 4))
        else capacity (s.mpSolutionTiles j)) ∧
    (preparePass ec s i).mpCurrentReceiverInfo = s.mpCurrentReceiverInfo := by
  obtain ⟨a1, a2, a3, a4, a5⟩ := ensureOutputReservoirs_spec ec i s
  obtain ⟨b1, b2, b3, b4, b5⟩ := ensureTemporalReservoirs_spec ec i (ensureOutputReservoirs ec i s)
  obtain ⟨c1, c2, c3, c4, c5⟩ := ensureSolutionTiles_spec ec i
    (ensureTemporalReservoirs ec i (ensureOutputReservoirs ec i s))
  unfold preparePass
  refine ⟨(a1.frameTrans b1).frameTrans c1, ?_, ?_, ?_, ?_⟩
  · intro j
    rw [c3, b3, a2]
  · intro j
    rw [c4, b2, a3]
  · intro j
    rw [c2, b4, a4]
  · rw [c5, b5, a5]

theorem prepareShared_spec (ec : Nat) (s : State) :
    SameFrame s (prepareShared ec s) ∧
    (prepareShared ec s).mpOutputReservoirs = s.mpOutputReservoirs ∧
    (prepareShared ec s).mpTemporalReservoirs = s.mpTemporalReservoirs ∧
    (prepareShared ec s).mpSolutionTiles = s.mpSolutionTiles ∧
    capacity (prepareShared ec s).mpCurrentReceiverInfo
      = max (capacity s.mpCurrentReceiverInfo) ec := by
  have h1 : ∀ t : State, SameFrame t (ensureDebugOutputTexture t) ∧
      (ensureDebugOutputTexture t).mpOutputReservoirs = t.mpOutputReservoirs ∧
      (ensureDebugOutputTexture t).mpTemporalReservoirs = t.mpTemporalReservoirs ∧
      (ensureDebugOutputTexture t).mpSolutionTiles = t.mpSolutionTiles ∧
      (ensureDebugOutputTexture t).mpCurrentReceiverInfo = t.mpCurrentReceiverInfo := by
    intro t
    unfold ensureDebugOutputTexture
    split_ifs <;> exact ⟨⟨rfl, rfl, rfl, rfl, rfl⟩, rfl, rfl, rfl, rfl⟩
  have h2 : ∀ t : State, SameFrame t (ensureFinalThp t) ∧
      (ensureFinalThp t).mpOutputReservoirs = t.mpOutputReservoirs ∧
      (ensureFinalThp t).mpTemporalReservoirs = t.mpTemporalReservoirs ∧
      (ensureFinalThp t).mpSolutionTiles = t.mpSolutionTiles ∧
      (ensureFinalThp t).mpCurrentReceiverInfo = t.mpCurrentReceiverInfo := by
    intro t
    unfold ensureFinalThp
    split_ifs <;> exact ⟨⟨rfl, rfl, rfl, rfl, rfl⟩, rfl, rfl, rfl, rfl⟩
  have h3 : ∀ t : State, SameFrame t (ensureCurrentReceiverInfo ec t) ∧
      (ensureCurrentReceiverInfo ec t).mpOutputReservoirs = t.mpOutputReservoirs ∧
      (ensureCurrentReceiverInfo ec t).mpTemporalReservoirs = t.mpTemporalReservoirs ∧
      (ensureCurrentReceiverInfo ec t).mpSolutionTiles = t.mpSolutionTiles ∧
      capacity (ensureCurrentReceiverInfo ec t).mpCurrentReceiverInfo
        = max (capacity t.mpCurrentReceiverInfo) ec := by
    intro t
    unfold ensureCurrentReceiverInfo
    by_cases h : needsBuffer t.mpCurrentReceiverInfo ec = true
    · rw [if_pos h, max_capacity_of_needs h]
      exact ⟨⟨rfl, rfl, rfl, rfl, rfl⟩, rfl, rfl, rfl, rfl⟩
    · rw [if_neg h, max_capacity_of_not_needs h]
      exact ⟨⟨rfl, rfl, rfl, rfl, rfl⟩, rfl, rfl, rfl, rfl⟩
  have h4 : ∀ t : State, SameFrame t (ensureCounters ec t) ∧
      (ensureCounters ec t).mpOutputReservoirs = t.mpOutputReservoirs ∧
      (ensureCounters ec t).mpTemporalReservoirs = t.mpTemporalReservoirs ∧
      (ensureCounters ec t).mpSolutionTiles = t.mpSolutionTiles ∧
      (ensureCounters ec t).mpCurrentReceiverInfo = t.mpCurrentReceiverInfo := by
    intro t
    unfold ensureCounters
    simp only [createStructuredBuffer]
    split_ifs <;> exact ⟨⟨rfl, rfl, rfl, rfl, rfl⟩, rfl, rfl, rfl, rfl⟩
  have h5 : ∀ t : State, SameFrame t (ensureEnvMapBlockBuffer t) ∧
      (ensureEnvMapBlockBuffer t).mpOutputReservoirs = t.mpOutputReservoirs ∧
      (ensureEnvMapBlockBuffer t).mpTemporalReservoirs = t.mpTemporalReservoirs ∧
      (ensureEnvMapBlockBuffer t).mpSolutionTiles = t.mpSolutionTiles ∧
      (ensureEnvMapBlockBuffer t).mpCurrentReceiverInfo = t.mpCurrentReceiverInfo := by
    intro t
    unfold ensureEnvMapBlockBuffer
    split_ifs <;> exact ⟨⟨rfl, rfl, rfl, rfl, rfl⟩, rfl, rfl, rfl, rfl⟩
  obtain ⟨a1, a2, a3, a4, a5⟩ := h1 s
  obtain ⟨b1, b2, b3, b4, b5⟩ := h2 (ensureDebugOutputTexture s)
  obtain ⟨c1, c2, c3, c4, c5⟩ := h3 (ensureFinalThp (ensureDebugOutputTexture s))
  obtain ⟨d1, d2, d3, d4, d5⟩ := h4
    (ensureCurrentReceiverInfo ec (ensureFinalThp (ensureDebugOutputTexture s)))
  obtain ⟨e1, e2, e3, e4, e5⟩ := h5 (ensureCounters ec
    (ensureCurrentReceiverInfo ec (ensureFinalThp (ensureDebugOutputTexture s))))
  unfold prepareShared
  refine ⟨(((a1.frameTrans b1).frameTrans c1).frameTrans d1).frameTrans e1, ?_, ?_, ?_, ?_⟩
  · rw [e2, d2, c2, b2, a2]
  · rw [e3, d3, c3, b3, a3]
  · rw [e4, d4, c4, b4, a4]
  · rw [e5, d5, c5, b5, a5]

theorem prepareResources_spec (s : State) (frameDim screenTiles : Nat × Nat)
    (hr : s.mpReflectTypes.isSome = true) :
    ∃ s', prepareResources s frameDim screenTiles = some s' ∧ SameFrame s s' ∧
      (∀ j, capacity (s'.mpOutputReservoirs j)
        = max (capacity (s.mpOutputReservoirs j)) (elementCountOf screenTiles)) ∧
      (∀ j, capacity (s'.mpTemporalReservoirs j)
        = max (capacity (s.mpTemporalReservoirs j)) (elementCountOf screenTiles)) ∧
      (∀ j, capacity (s'.mpSolutionTiles j)
        = max (capacity (s.mpSolutionTiles j)) (u32 (elementCountOf screenTiles * 4))) ∧
      capacity s'.mpCurrentReceiverInfo
        = max (capacity s.mpCurrentReceiverInfo) (elementCountOf screenTiles) := by
  unfold prepareResources
  cases hp : s.mpReflectTypes with
  | none => simp [hp] at hr
  | some p =>
    simp only
    have hl : List.finRange 4 = [0, 1, 2, 3] := by decide
    rw [hl]
    simp only [List.foldl]
    generalize elementCountOf screenTiles = ec
    obtain ⟨a1, a2, a3, a4, a5⟩ := preparePass_spec ec s 0
    obtain ⟨b1, b2, b3, b4, b5⟩ := preparePass_spec ec (preparePass ec s 0) 1
    obtain ⟨c1, c2, c3, c4, c5⟩ := preparePass_spec ec (preparePass ec (preparePass ec s 0) 1) 2
    obtain ⟨d1, d2, d3, d4, d5⟩ :=
      preparePass_spec ec (preparePass ec (preparePass ec (preparePass ec s 0) 1) 2) 3
    obtain ⟨e1, e2, e3, e4, e5⟩ := prepareShared_spec ec
      (preparePass ec (preparePass ec (preparePass ec (preparePass ec s 0) 1) 2) 3)
    refine ⟨_, rfl, (((a1.frameTrans b1).frameTrans c1).frameTrans d1).frameTrans e1, ?_, ?_, ?_, ?_⟩
    · intro j
      rw [e2, d2, c2, b2, a2]
      fin_cases j <;> simp
    · intro j
      rw [e3, d3, c3, b3, a3]
      fin_cases j <;> simp
    · intro j
      rw [e4, d4, c4, b4, a4]
      fin_cases j <;> simp
    · rw [e5, d5, c5, b5, a5]

theorem SameBuffers.buffersTrans {s₁ s₂ s₃ : State} (h₁ : SameBuffers s₁ s₂) (h₂ : SameBuffers s₂ s₃) :
    SameBuffers s₁ s₃ :=
  ⟨h₂.1.trans h₁.1, h₂.2.1.trans h₁.2.1, h₂.2.2.1.trans h₁.2.2.1, h₂.2.2.2.trans h₁.2.2.2⟩

theorem updatePrograms_spec (s : State) :
    (updatePrograms s).mFrameDim = s.mFrameDim ∧ (updatePrograms s).mParams = s.mParams ∧
    (updatePrograms s).mOptions = s.mOptions ∧ SameBuffers s (updatePrograms s) ∧
    (s.mRecompile = true →
      (updatePrograms s).mFrameIndex = 0 ∧ (updatePrograms s).mpReflectTypes.isSome = true) ∧
    (s.mRecompile = false → updatePrograms s = s) := by
  have k1 : ∀ t : State, (ensureReflectTypes t).mFrameIndex = t.mFrameIndex ∧
      (ensureReflectTypes t).mFrameDim = t.mFrameDim ∧
      (ensureReflectTypes t).mParams = t.mParams ∧
      (ensureReflectTypes t).mOptions = t.mOptions ∧
      SameBuffers t (ensureReflectTypes t) ∧
      (ensureReflectTypes t).mpReflectTypes.isSome = true := by
    intro t
    unfold ensureReflectTypes
    by_cases h : t.mpReflectTypes.isNone = true
    · rw [if_pos h]
      exact ⟨rfl, rfl, rfl, rfl, ⟨rfl, rfl, rfl, rfl⟩, rfl⟩
    · rw [if_neg h]
      refine ⟨rfl, rfl, rfl, rfl, ⟨rfl, rfl, rfl, rfl⟩, ?_⟩
      cases hp : t.mpReflectTypes with
      | none => simp [hp] at h
      | some p => rfl
  have k2 : ∀ t : State, SameFrame t (ensureTraceReceiverPass t) ∧
      SameBuffers t (ensureTraceReceiverPass t) := by
    intro t
    unfold ensureTraceReceiverPass
    split_ifs <;> exact ⟨⟨rfl, rfl, rfl, rfl, rfl⟩, rfl, rfl, rfl, rfl⟩
  have k3 : ∀ t : State, SameFrame t (ensureBuildPriorPass t) ∧
      SameBuffers t (ensureBuildPriorPass t) := by
    intro t
    unfold ensureBuildPriorPass
    split_ifs <;> exact ⟨⟨rfl, rfl, rfl, rfl, rfl⟩, rfl, rfl, rfl, rfl⟩
  have k4 : ∀ t : State, SameFrame t (ensureInitialSamplingPass t) ∧
      SameBuffers t (ensureInitialSamplingPass t) := by
    intro t
    unfold ensureInitialSamplingPass
    split_ifs <;> exact ⟨⟨rfl, rfl, rfl, rfl, rfl⟩, rfl, rfl, rfl, rfl⟩
  have k5 : ∀ t : State, SameFrame t (ensureTemporalResamplingPass t) ∧
      SameBuffers t (ensureTemporalResamplingPass t) := by
    intro t
    unfold ensureTemporalResamplingPass
    split_ifs <;> exact ⟨⟨rfl, rfl, rfl, rfl, rfl⟩, rfl, rfl, rfl, rfl⟩
  have k6 : ∀ t : State, SameFrame t (ensureSpatialResamplingPass t) ∧
      SameBuffers t (ensureSpatialResamplingPass t) := by
    intro t
    unfold ensureSpatialResamplingPass
    split_ifs <;> exact ⟨⟨rfl, rfl, rfl, rfl, rfl⟩, rfl, rfl, rfl, rfl⟩
  have k7 : ∀ t : State, SameFrame t (ensureResolvePass t) ∧
      SameBuffers t (ensureResolvePass t) := by
    intro t
    unfold ensureResolvePass
    split_ifs <;> exact ⟨⟨rfl, rfl, rfl, rfl, rfl⟩, rfl, rfl, rfl, rfl⟩
  have k8 : ∀ t : State, SameFrame t (ensureWriteToEnvBuffer t) ∧
      SameBuffers t (ensureWriteToEnvBuffer t) := by
    intro t
    unfold ensureWriteToEnvBuffer
    split_ifs <;> exact ⟨⟨rfl, rfl, rfl, rfl, rfl⟩, rfl, rfl, rfl, rfl⟩
  by_cases hr : s.mRecompile = true
  · have hu : updatePrograms s = { ensureWriteToEnvBuffer (ensureResolvePass
        (ensureSpatialResamplingPass (ensureTemporalResamplingPass (ensureInitialSamplingPass
          (ensureBuildPriorPass (ensureTraceReceiverPass
            (ensureReflectTypes { s with mFrameIndex := 0 }))))))) with mRecompile := false } := by
      unfold updatePrograms
      simp [hr]
    obtain ⟨a1, a2, a3, a4, a5, a6⟩ := k1 { s with mFrameIndex := 0 }
    generalize ensureReflectTypes { s with mFrameIndex := 0 } = t1 at *
    obtain ⟨f2, b2⟩ := k2 t1
    generalize ensureTraceReceiverPass t1 = t2 at *
    obtain ⟨f3, b3⟩ := k3 t2
    generalize ensureBuildPriorPass t2 = t3 at *
    obtain ⟨f4, b4⟩ := k4 t3
    generalize ensureInitialSamplingPass t3 = t4 at *
    obtain ⟨f5, b5⟩ := k5 t4
    generalize ensureTemporalResamplingPass t4 = t5 at *
    obtain ⟨f6, b6⟩ := k6 t5
    generalize ensureSpatialResamplingPass t5 = t6 at *
    obtain ⟨f7, b7⟩ := k7 t6
    generalize ensureResolvePass t6 = t7 at *
    obtain ⟨f8, b8⟩ := k8 t7
    generalize ensureWriteToEnvBuffer t7 = t8 at *
    have f := (((((f2.frameTrans f3).frameTrans f4).frameTrans f5).frameTrans f6).frameTrans f7).frameTrans f8
    have b := (((((b2.buffersTrans b3).buffersTrans b4).buffersTrans b5).buffersTrans b6).buffersTrans b7).buffersTrans b8
    rw [hu]
    obtain ⟨g1, g2, g3, g4, g5⟩ := f
    refine ⟨g2.trans a2, g3.trans a3, g4.trans a4, ?_, ?_, ?_⟩
    · exact SameBuffers.buffersTrans a5 b
    · intro _
      refine ⟨g1.trans a1, ?_⟩
      show t8.mpReflectTypes.isSome = true
      rw [g5]
      exact a6
    · intro h
      rw [hr] at h
      exact absurd h (by simp)
  · have hu : updatePrograms s = s := by
      unfold updatePrograms
      simp [hr]
    rw [hu]
    exact ⟨rfl, rfl, rfl, ⟨rfl, rfl, rfl, rfl⟩, fun h => absurd h hr, fun _ => rfl⟩

theorem prepareResources_isSome {s s' : State} {frameDim screenTiles : Nat × Nat}
    (h : prepareResources s frameDim screenTiles = some s') : s.mpReflectTypes.isSome = true := by
  unfold prepareResources at h
  cases hp : s.mpReflectTypes with
  | none => simp [hp] at h
  | some p => rfl

theorem beginFrame_spec {s s' : State} {frameDim screenTiles : Nat × Nat} {needRecompile : Bool}
    (h : beginFrame s frameDim screenTiles needRecompile = some s') :
    s'.mFrameDim = frameDim ∧ s'.mParams = s.mParams ∧ s'.mOptions = s.mOptions ∧
    ((s.mRecompile || needRecompile) = true → s'.mFrameIndex = 0) ∧
    ((s.mRecompile || needRecompile) = false → s'.mFrameIndex = s.mFrameIndex) ∧
    (∀ j, capacity (s'.mpOutputReservoirs j)
      = max (capacity (s.mpOutputReservoirs j)) (elementCountOf screenTiles)) ∧
    (∀ j, capacity (s'.mpTemporalReservoirs j)
      = max (capacity (s.mpTemporalReservoirs j)) (elementCountOf screenTiles)) ∧
    (∀ j, capacity (s'.mpSolutionTiles j)
      = max (capacity (s.mpSolutionTiles j)) (u32 (elementCountOf screenTiles * 4))) ∧
    capacity s'.mpCurrentReceiverInfo
      = max (capacity s.mpCurrentReceiverInfo) (elementCountOf screenTiles) := by
  unfold beginFrame at h
  simp only at h
  have hl : ∀ t : State, (prepareLighting t).mFrameDim = t.mFrameDim ∧
      (prepareLighting t).mParams = t.mParams ∧ (prepareLighting t).mOptions = t.mOptions ∧
      (prepareLighting t).mFrameIndex = t.mFrameIndex ∧
      (prepareLighting t).mRecompile = t.mRecompile ∧ SameBuffers t (prepareLighting t) := by
    intro t
    unfold prepareLighting
    split_ifs <;> exact ⟨rfl, rfl, rfl, rfl, rfl, rfl, rfl, rfl, rfl⟩
  obtain ⟨l1, l2, l3, l4, l5, l6⟩ := hl
    { s with mRecompile := s.mRecompile || needRecompile, mFrameDim := frameDim }
  generalize prepareLighting
    { s with mRecompile := s.mRecompile || needRecompile, mFrameDim := frameDim } = t at *
  obtain ⟨u1, u2, u3, u4, u5, u6⟩ := updatePrograms_spec t
  generalize updatePrograms t = v at *
  obtain ⟨w, hw, ⟨p1, p2, p3, p4, -⟩, q1, q2, q3, q4⟩ :=
    prepareResources_spec v v.mFrameDim screenTiles (prepareResources_isSome h)
  rw [hw] at h
  cases h
  simp only at l1 l2 l3 l4 l5 l6
  obtain ⟨m1, m2, m3, m4⟩ := l6
  obtain ⟨n1, n2, n3, n4⟩ := u4
  simp only at m1 m2 m3 m4
  refine ⟨by rw [p2, u1, l1], by rw [p3, u2, l2], by rw [p4, u3, l3], ?_, ?_, ?_, ?_, ?_, ?_⟩
  · intro hr
    rw [p1]
    exact (u5 (l5.trans hr)).1
  · intro hr
    rw [p1, u6 (l5.trans hr), l4]
  · intro j
    rw [q1, n1, m1]
  · intro j
    rw [q2, n2, m2]
  · intro j
    rw [q3, n3, m3]
  · rw [q4, n4, m4]

theorem beginFrame_total (s : State) (frameDim screenTiles : Nat × Nat) (needRecompile : Bool)
    (hk : (s.mRecompile || needRecompile || s.mpReflectTypes.isSome) = true) :
    ∃ s', beginFrame s frameDim screenTiles needRecompile = some s' := by
  unfold beginFrame
  simp only
  have hl : ∀ t : State, (prepareLighting t).mRecompile = t.mRecompile ∧
      (prepareLighting t).mpReflectTypes = t.mpReflectTypes := by
    intro t
    unfold prepareLighting
    split_ifs <;> exact ⟨rfl, rfl⟩
  obtain ⟨l1, l2⟩ := hl
    { s with mRecompile := s.mRecompile || needRecompile, mFrameDim := frameDim }
  generalize prepareLighting
    { s with mRecompile := s.mRecompile || needRecompile, mFrameDim := frameDim } = t at *
  simp only at l1 l2
  obtain ⟨-, -, -, -, u5, u6⟩ := updatePrograms_spec t
  have hs : (updatePrograms t).mpReflectTypes.isSome = true := by
    by_cases hr : t.mRecompile = true
    · exact (u5 hr).2
    · have hr' : t.mRecompile = false := by simpa using hr
      rw [u6 hr', l2]
      rw [l1] at hr'
      rw [hr'] at hk
      simpa using hk
  obtain ⟨w, hw, -⟩ := prepareResources_spec (updatePrograms t) (updatePrograms t).mFrameDim
    screenTiles hs
  exact ⟨w, hw⟩

theorem count_temporal_passStages (s : State) (d i : Nat) :
    (passStages s d).count (Stage.temporalResampling, some i)
      = if (s.mOptions.useTemporalResampling = true ∧ s.mFrameIndex ≠ 0) ∧ d = i then 1 else 0 := by
  unfold passStages
  by_cases h1 : s.mOptions.usePriorDistribution && s.useOurs <;>
  by_cases h2 : s.mOptions.useTemporalResampling = true <;>
  by_cases h3 : s.mFrameIndex = 0 <;>
  by_cases h4 : s.mOptions.useSpatialResampling = true <;>
  by_cases h5 : d = i <;>
  simp [h1, h2, h3, h4, h5, List.count_cons]

theorem count_temporal_range (s : State) (i : Nat) :
    ∀ n, ((List.range n).flatMap (passStages s)).count (Stage.temporalResampling, some i)
      = if (s.mOptions.useTemporalResampling = true ∧ s.mFrameIndex ≠ 0) ∧ i < n then 1 else 0 := by
  intro n
  induction n with
  | zero => simp
  | succ n ih =>
    rw [List.range_succ, List.flatMap_append, List.count_append, ih]
    simp only [List.flatMap_cons, List.flatMap_nil, List.append_nil, count_temporal_passStages]
    by_cases hc : s.mOptions.useTemporalResampling = true ∧ s.mFrameIndex ≠ 0
    · by_cases h1 : i < n
      · have h2 : n ≠ i := by omega
        have h3 : i < n + 1 := by omega
        simp [hc, h1, h2, h3]
      · by_cases h2 : n = i
        · have h3 : i < n + 1 := by omega
          simp [hc, h1, h2, h3]
        · have h3 : ¬ i < n + 1 := by omega
          simp [hc, h1, h2, h3]
    · simp [hc]

/-- The number of temporal-stage executions for an active pass in one call of
`update`. -/
theorem temporal_count {s s' : State} {env : Nat → ℚ} {i : Nat}
    (h : update s env = some s') (hi : (i : Int) < s.numPasses) :
    ∃ es, s'.log = s.log ++ es ∧
      temporalDispatches es i
        = (if s.mOptions.useTemporalResampling = true ∧ s.mFrameIndex ≠ 0 then 1 else 0) := by
  obtain ⟨-, -, -, -, es, h1, h2⟩ := update_extends h
  refine ⟨es, h1, ?_⟩
  unfold temporalDispatches
  rw [h2, List.count_cons, List.count_append, count_temporal_range]
  have hi' : i < s.numPasses.toNat := by omega
  by_cases hc : s.mOptions.useTemporalResampling = true ∧ s.mFrameIndex ≠ 0
  · simp [hc, hi', List.count_cons]
  · simp [hc, List.count_cons]

/-- After a `beginFrame` that finds the recompile flag set (the first frame, and the
first frame after `setOptions` changed the options) the frame index is 0. -/
theorem beginFrame_reset_frameIndex (s s' : State) (frameDim screenTiles : Nat × Nat)
    (needRecompile : Bool) (hr : (s.mRecompile || needRecompile) = true)
    (h : beginFrame s frameDim screenTiles needRecompile = some s') : s'.mFrameIndex = 0 :=
  (beginFrame_spec h).2.2.2.1 hr

/-- C4 (as specified, refuted).  With `usePriorDistribution` set and `useOurs` cleared,
`update` executes receiver trace, initial sampling of pass 0 and resolve: the prior
build that the specified sequence contains is not executed. -/
theorem update_stage_sequence_not_as_specified :
    ∃ s' es, update useOursOffState (fun _ => 0) = some s' ∧
      s'.log = useOursOffState.log ++ es ∧
      stageDispatches es = [(Stage.traceReceiver, none), (Stage.initialSampling, some 0),
        (Stage.resolve, none)] ∧
      (Stage.traceReceiver, none) ::
        ((List.range useOursOffState.numPasses.toNat).flatMap
          (passStagesAsSpecified useOursOffState) ++ [(Stage.resolve, none)])
        = [(Stage.traceReceiver, none), (Stage.buildPrior, some 0),
          (Stage.initialSampling, some 0), (Stage.resolve, none)] := by
  have h : update useOursOffState (fun _ => 0)
      = some ((update useOursOffState (fun _ => 0)).getD useOursOffState) := rfl
  obtain ⟨-, -, -, -, es, h1, h2⟩ := update_extends h
  exact ⟨_, es, h, h1, h2.trans (by decide), by decide⟩

/-- C4 (amended).  The stage executions of one call of `update` that returns are exactly:
the receiver trace; then for `i = 0, ..., numPasses - 1` in ascending order the prior
build of `i` if `usePriorDistribution` and `useOurs` are both set, the initial
sampling of `i`, the temporal resampling of `i` if `useTemporalResampling` is set and
the frame index is not 0, the spatial resampling of `i` if `useSpatialResampling` is
set; then resolve, last. -/
theorem update_stage_sequence (s s' : State) (env : Nat → ℚ) (h : update s env = some s') :
    ∃ es, s'.log = s.log ++ es ∧
      stageDispatches es = (Stage.traceReceiver, none) ::
        ((List.range s.numPasses.toNat).flatMap (passStages s) ++ [(Stage.resolve, none)]) := by
  obtain ⟨-, -, -, -, es, h1, h2⟩ := update_extends h
  exact ⟨es, h1, h2⟩

theorem update_stage_sequence_witness :
    update secondFrameState (fun _ => 0)
        = some ((update secondFrameState (fun _ => 0)).getD secondFrameState) ∧
      ∃ es, ((update secondFrameState (fun _ => 0)).getD secondFrameState).log
          = secondFrameState.log ++ es ∧
        stageDispatches es = (Stage.traceReceiver, none) ::
          ((List.range secondFrameState.numPasses.toNat).flatMap (passStages secondFrameState)
            ++ [(Stage.resolve, none)]) :=
  ⟨rfl, update_stage_sequence secondFrameState _ (fun _ => 0) rfl⟩

/-- C5.  `endFrame` exchanges the temporal and the output reservoir slot of every pass
index 0..3, leaves the frame index one greater modulo `2 ^ 32`, and issues no request
to the device or the render context, so no buffer content is touched; the solution
tiles and the receiver-info buffer stay where they are. -/
theorem endFrame_swaps_and_increments (s : State) :
    (∀ i : Fin 4, (endFrame s).mpTemporalReservoirs i = s.mpOutputReservoirs i ∧
      (endFrame s).mpOutputReservoirs i = s.mpTemporalReservoirs i) ∧
    (endFrame s).mFrameIndex = (s.mFrameIndex + 1) % 2 ^ 32 ∧
    (endFrame s).log = s.log ∧
    (endFrame s).mpSolutionTiles = s.mpSolutionTiles ∧
    (endFrame s).mpCurrentReceiverInfo = s.mpCurrentReceiverInfo :=
  ⟨fun _ => ⟨rfl, rfl⟩, rfl, rfl, rfl, rfl⟩

/-- C10.  `setOptions` with an options value identical to the stored one returns the
state unchanged: stored options, recompile flag, frame index, kernel objects, buffers
and the request log are all as before. -/
theorem setOptions_identical_noop (s : State) (options : Options) (h : options = s.mOptions) :
    setOptions s options = s := by
  unfold setOptions
  rw [if_neg (not_not.mpr h)]

theorem setOptions_identical_noop_witness :
    Options.default = (State.init Options.default true true).mOptions ∧
      setOptions (State.init Options.default true true) Options.default
        = State.init Options.default true true :=
  ⟨rfl, setOptions_identical_noop (State.init Options.default true true) Options.default rfl⟩

/-- C6 (as stated, refuted).  For the tile grid 2048 x 2048 the element count
`2048 * 2048 * 256 = 2 ^ 30` does not overflow, but `elementCount * 4` wraps to 0 in
`uint32_t`: starting without buffers, `prepareResources` leaves pass 0 with a
solution-tile buffer of capacity 0, not `max 0 (4 * elementCount) = 2 ^ 32`. -/
theorem prepareResources_solutionTiles_wraps :
    2048 * 2048 * 256 < 2 ^ 32 ∧
    ∃ s', prepareResources (updatePrograms (State.init Options.default false false))
        (32768, 32768) (2048, 2048) = some s' ∧
      capacity (s'.mpOutputReservoirs 0) = 2048 * 2048 * 256 ∧
      capacity (s'.mpSolutionTiles 0) = 0 ∧
      max (capacity ((updatePrograms (State.init Options.default false false)).mpSolutionTiles 0))
        (4 * (2048 * 2048 * 256)) = 2 ^ 32 :=
  ⟨by decide, _, rfl, by decide, by decide, by decide⟩

/-- C6 (amended).  When the reflection kernel exists and `4 * tiles.x * tiles.y * 256`
does not overflow 32 bits, `prepareResources` returns and leaves every pass's output
reservoir buffer, every pass's temporal reservoir buffer and the receiver-info buffer
with capacity `max(previous capacity, elementCount)` and every pass's solution-tile
buffer with capacity `max(previous capacity, 4 * elementCount)`, a null buffer counting
as capacity 0; so every capacity is at least what is required and none shrinks. -/
theorem prepareResources_grow_only (s : State) (frameDim screenTiles : Nat × Nat)
    (hr : s.mpReflectTypes.isSome = true)
    (hno : 4 * (screenTiles.1 * screenTiles.2 * 256) < 2 ^ 32) :
    ∃ s', prepareResources s frameDim screenTiles = some s' ∧
      ∀ j : Fin 4,
        capacity (s'.mpOutputReservoirs j)
          = max (capacity (s.mpOutputReservoirs j)) (screenTiles.1 * screenTiles.2 * 256) ∧
        capacity (s'.mpTemporalReservoirs j)
          = max (capacity (s.mpTemporalReservoirs j)) (screenTiles.1 * screenTiles.2 * 256) ∧
        capacity s'.mpCurrentReceiverInfo
          = max (capacity s.mpCurrentReceiverInfo) (screenTiles.1 * screenTiles.2 * 256) ∧
        capacity (s'.mpSolutionTiles j)
          = max (capacity (s.mpSolutionTiles j)) (4 * (screenTiles.1 * screenTiles.2 * 256)) := by
  obtain ⟨s', h, -, q1, q2, q3, q4⟩ := prepareResources_spec s frameDim screenTiles hr
  have e1 : elementCountOf screenTiles = screenTiles.1 * screenTiles.2 * 256 := by
    unfold elementCountOf u32 kScreenTileDim
    simp only [Nat.mod_mul_mod]
    rw [Nat.mul_assoc, Nat.mod_eq_of_lt (by omega)]
  have e2 : u32 (elementCountOf screenTiles * 4) = 4 * (screenTiles.1 * screenTiles.2 * 256) := by
    rw [e1]
    unfold u32
    rw [Nat.mod_eq_of_lt (by omega)]
    omega
  refine ⟨s', h, fun j => ⟨?_, ?_, ?_, ?_⟩⟩
  · rw [q1, e1]
  · rw [q2, e1]
  · rw [q4, e1]
  · rw [q3, e2]

theorem prepareResources_grow_only_witness :
    (updatePrograms (State.init Options.default false false)).mpReflectTypes.isSome = true ∧
    4 * (((120, 68) : Nat × Nat).1 * ((120, 68) : Nat × Nat).2 * 256) < 2 ^ 32 ∧
    ∃ s', prepareResources (updatePrograms (State.init Options.default false false))
        (1920, 1080) (120, 68) = some s' ∧
      ∀ j : Fin 4,
        capacity (s'.mpOutputReservoirs j)
          = max (capacity ((updatePrograms
              (State.init Options.default false false)).mpOutputReservoirs j)) (120 * 68 * 256) ∧
        capacity (s'.mpTemporalReservoirs j)
          = max (capacity ((updatePrograms
              (State.init Options.default false false)).mpTemporalReservoirs j)) (120 * 68 * 256) ∧
        capacity s'.mpCurrentReceiverInfo
          = max (capacity (updatePrograms
              (State.init Options.default false false)).mpCurrentReceiverInfo) (120 * 68 * 256) ∧
        capacity (s'.mpSolutionTiles j)
          = max (capacity ((updatePrograms
              (State.init Options.default false false)).mpSolutionTiles j))
            (4 * (120 * 68 * 256)) :=
  ⟨rfl, by decide,
    prepareResources_grow_only (updatePrograms (State.init Options.default false false))
      (1920, 1080) (120, 68) rfl (by decide)⟩

theorem threads_fit_of_capacity (t : State) (w h : Nat) (hw1 : 1 ≤ w) (hw2 : w ≤ 1920)
    (hh1 : 1 ≤ h) (hh2 : h ≤ 1080) (hd : t.mFrameDim = (w, h))
    (hp : t.mParams.screenTiles = ((w + 15) / 16, (h + 15) / 16))
    (hc : ∀ j : Fin 4,
      elementCountOf ((w + 15) / 16, (h + 15) / 16) ≤ capacity (t.mpOutputReservoirs j) ∧
      elementCountOf ((w + 15) / 16, (h + 15) / 16) ≤ capacity (t.mpTemporalReservoirs j) ∧
      elementCountOf ((w + 15) / 16, (h + 15) / 16) ≤ capacity t.mpCurrentReceiverInfo) :
    frameThreads t = (w, h, 1) ∧
    resamplingThreads t = ((w + 15) / 16 * 16, (h + 15) / 16 * 16, 1) ∧
    dispatchThreadsFit t := by
  have hx : (w + 15) / 16 ≤ 120 := by omega
  have hy : (h + 15) / 16 ≤ 68 := by omega
  have hwx : w ≤ (w + 15) / 16 * 16 := by omega
  have hhy : h ≤ (h + 15) / 16 * 16 := by omega
  have hxy : (w + 15) / 16 * ((h + 15) / 16) ≤ 120 * 68 := Nat.mul_le_mul hx hy
  have e1 : elementCountOf ((w + 15) / 16, (h + 15) / 16)
      = (w + 15) / 16 * 16 * ((h + 15) / 16 * 16) := by
    unfold elementCountOf u32 kScreenTileDim
    simp only [Nat.mod_mul_mod]
    rw [Nat.mul_assoc, Nat.mod_eq_of_lt (by omega)]
    ring
  have e2 : frameThreads t = (w, h, 1) := by
    unfold frameThreads
    rw [hd]
  have e3 : resamplingThreads t = ((w + 15) / 16 * 16, (h + 15) / 16 * 16, 1) := by
    unfold resamplingThreads u32 kScreenTileDim
    rw [hp]
    simp only
    rw [Nat.mod_eq_of_lt (by omega), Nat.mod_eq_of_lt (by omega)]
  have e4 : w * h ≤ (w + 15) / 16 * 16 * ((h + 15) / 16 * 16) := Nat.mul_le_mul hwx hhy
  refine ⟨e2, e3, ?_⟩
  intro j
  obtain ⟨c1, c2, c3⟩ := hc j
  rw [e1] at c1 c2 c3
  rw [e2, e3]
  simp only
  exact ⟨e4.trans c1, e4.trans c2, e4.trans c3, c1, c2, c3⟩

/-- C7.  For a frame of `w x h` pixels, `1 ≤ w ≤ 1920`, `1 ≤ h ≤ 1080`, and the tile grid
`(ceil(w/16), ceil(h/16))` handed both to `beginFrame` and to `setReSTIRParams` (in
either order), `beginFrame` returns, receiver trace and resolve are executed over
`w x h` threads, the three resampling stages over `tiles.x * 16` by `tiles.y * 16`
threads, and neither product exceeds the element capacity of any pass's output or
temporal reservoir buffer or of the receiver-info buffer. -/
theorem beginFrame_capacity_covers_threads (s : State) (w h : Nat) (needRecompile : Bool)
    (useFixedSeed : Int) (fixedSeed lodBias specularRoughnessThreshold frameCount seed : Nat)
    (hw1 : 1 ≤ w) (hw2 : w ≤ 1920) (hh1 : 1 ≤ h) (hh2 : h ≤ 1080)
    (hk : (s.mRecompile || needRecompile || s.mpReflectTypes.isSome) = true) :
    (∃ s₁, beginFrame s (w, h) ((w + 15) / 16, (h + 15) / 16) needRecompile = some s₁ ∧
      frameThreads (setReSTIRParams s₁ useFixedSeed fixedSeed lodBias specularRoughnessThreshold
        (w, h) ((w + 15) / 16, (h + 15) / 16) frameCount seed) = (w, h, 1) ∧
      resamplingThreads (setReSTIRParams s₁ useFixedSeed fixedSeed lodBias
        specularRoughnessThreshold (w, h) ((w + 15) / 16, (h + 15) / 16) frameCount seed)
        = ((w + 15) / 16 * 16, (h + 15) / 16 * 16, 1) ∧
      dispatchThreadsFit (setReSTIRParams s₁ useFixedSeed fixedSeed lodBias
        specularRoughnessThreshold (w, h) ((w + 15) / 16, (h + 15) / 16) frameCount seed)) ∧
    (∃ s₂, beginFrame (setReSTIRParams s useFixedSeed fixedSeed lodBias
        specularRoughnessThreshold (w, h) ((w + 15) / 16, (h + 15) / 16) frameCount seed)
        (w, h) ((w + 15) / 16, (h + 15) / 16) needRecompile = some s₂ ∧
      frameThreads s₂ = (w, h, 1) ∧
      resamplingThreads s₂ = ((w + 15) / 16 * 16, (h + 15) / 16 * 16, 1) ∧
      dispatchThreadsFit s₂) := by
  constructor
  · obtain ⟨s₁, h1⟩ := beginFrame_total s (w, h) ((w + 15) / 16, (h + 15) / 16) needRecompile hk
    obtain ⟨a1, -, -, -, -, a6, a7, -, a9⟩ := beginFrame_spec h1
    refine ⟨s₁, h1, ?_⟩
    apply threads_fit_of_capacity _ w h hw1 hw2 hh1 hh2
    · exact a1
    · rfl
    · intro j
      refine ⟨?_, ?_, ?_⟩
      · show _ ≤ capacity (s₁.mpOutputReservoirs j)
        rw [a6]
        exact le_max_right _ _
      · show _ ≤ capacity (s₁.mpTemporalReservoirs j)
        rw [a7]
        exact le_max_right _ _
      · show _ ≤ capacity s₁.mpCurrentReceiverInfo
        rw [a9]
        exact le_max_right _ _
  · obtain ⟨s₂, h2⟩ := beginFrame_total (setReSTIRParams s useFixedSeed fixedSeed lodBias
      specularRoughnessThreshold (w, h) ((w + 15) / 16, (h + 15) / 16) frameCount seed)
      (w, h) ((w + 15) / 16, (h + 15) / 16) needRecompile hk
    obtain ⟨a1, a2, -, -, -, a6, a7, -, a9⟩ := beginFrame_spec h2
    refine ⟨s₂, h2, ?_⟩
    apply threads_fit_of_capacity _ w h hw1 hw2 hh1 hh2
    · exact a1
    · rw [a2]
      rfl
    · intro j
      refine ⟨?_, ?_, ?_⟩
      · rw [a6]
        exact le_max_right _ _
      · rw [a7]
        exact le_max_right _ _
      · rw [a9]
        exact le_max_right _ _

theorem beginFrame_capacity_covers_threads_witness :
    (1 ≤ 1920 ∧ 1920 ≤ 1920 ∧ 1 ≤ 1080 ∧ 1080 ≤ 1080) ∧
    ((State.init Options.default false false).mRecompile || false ||
      (State.init Options.default false false).mpReflectTypes.isSome) = true ∧
    ((∃ s₁, beginFrame (State.init Options.default false false) (1920, 1080)
        ((1920 + 15) / 16, (1080 + 15) / 16) false = some s₁ ∧
      frameThreads (setReSTIRParams s₁ 0 0 0 0 (1920, 1080)
        ((1920 + 15) / 16, (1080 + 15) / 16) 0 0) = (1920, 1080, 1) ∧
      resamplingThreads (setReSTIRParams s₁ 0 0 0 0 (1920, 1080)
        ((1920 + 15) / 16, (1080 + 15) / 16) 0 0)
        = ((1920 + 15) / 16 * 16, (1080 + 15) / 16 * 16, 1) ∧
      dispatchThreadsFit (setReSTIRParams s₁ 0 0 0 0 (1920, 1080)
        ((1920 + 15) / 16, (1080 + 15) / 16) 0 0)) ∧
    (∃ s₂, beginFrame (setReSTIRParams (State.init Options.default false false) 0 0 0 0
        (1920, 1080) ((1920 + 15) / 16, (1080 + 15) / 16) 0 0)
        (1920, 1080) ((1920 + 15) / 16, (1080 + 15) / 16) false = some s₂ ∧
      frameThreads s₂ = (1920, 1080, 1) ∧
      resamplingThreads s₂ = ((1920 + 15) / 16 * 16, (1080 + 15) / 16 * 16, 1) ∧
      dispatchThreadsFit s₂)) :=
  ⟨by decide, rfl,
    beginFrame_capacity_covers_threads (State.init Options.default false false) 1920 1080 false
      0 0 0 0 0 0 (by decide) (by decide) (by decide) (by decide) rfl⟩

theorem truncate_abs_le (x : ℚ) : |((truncate x : Int) : ℚ)| ≤ |x| := by
  have hden : (0 : ℚ) < x.den := by exact_mod_cast x.den_pos
  have h1 : |((truncate x : Int) : ℚ)| = ((x.num.natAbs / x.den : Nat) : ℚ) := by
    rw [← Int.cast_abs, Int.abs_eq_natAbs]
    unfold truncate
    rw [Int.natAbs_tdiv]
    simp only [Int.natAbs_ofNat, Int.cast_natCast]
    rfl
  have h2 : |x| = (x.num.natAbs : ℚ) / x.den := by
    conv_lhs => rw [← Rat.num_div_den x]
    rw [abs_div, abs_of_pos hden, ← Int.cast_abs, Int.abs_eq_natAbs, Int.cast_natCast]
  rw [h1, h2]
  exact Nat.cast_div_le

theorem truncate_sq_le (x : ℚ) : ((truncate x : Int) : ℚ) ^ 2 ≤ x ^ 2 :=
  sq_le_sq.mpr (truncate_abs_le x)

theorem accepted_offsets_bound (p : ℚ × ℚ) (h : ¬ rSq p > 1 / 4) :
    truncate ((p.1 - 1 / 2) * 254) * truncate ((p.1 - 1 / 2) * 254)
      + truncate ((p.2 - 1 / 2) * 254) * truncate ((p.2 - 1 / 2) * 254) ≤ 127 * 127 := by
  have h1 := truncate_sq_le ((p.1 - 1 / 2) * 254)
  have h2 := truncate_sq_le ((p.2 - 1 / 2) * 254)
  have h3 : rSq p ≤ 1 / 4 := not_lt.mp h
  unfold rSq at h3
  have h4 : ((truncate ((p.1 - 1 / 2) * 254) * truncate ((p.1 - 1 / 2) * 254)
      + truncate ((p.2 - 1 / 2) * 254) * truncate ((p.2 - 1 / 2) * 254) : Int) : ℚ)
      ≤ ((127 * 127 : Int) : ℚ) := by
    push_cast
    nlinarith
  exact_mod_cast h4

theorem toInt8_of_bound (t s : Int) (h : t * t + s * s ≤ 127 * 127) :
    (t + 128) % 256 - 128 = t ∧ -127 ≤ t ∧ t ≤ 127 := by
  have h1 : t * t ≤ 127 * 127 := by nlinarith [mul_self_nonneg s]
  have h2 : t ≤ 127 := by nlinarith
  have h3 : -127 ≤ t := by nlinarith
  refine ⟨?_, h3, h2⟩
  omega

theorem offsetPair_accepted (p : ℚ × ℚ) (h : ¬ rSq p > 1 / 4) :
    offsetPair p = (truncate ((p.1 - 1 / 2) * 254), truncate ((p.2 - 1 / 2) * 254)) ∧
    (offsetPair p).1 * (offsetPair p).1 + (offsetPair p).2 * (offsetPair p).2 ≤ 127 * 127 ∧
    -128 ≤ (offsetPair p).1 ∧ (offsetPair p).1 ≤ 127 ∧
    -128 ≤ (offsetPair p).2 ∧ (offsetPair p).2 ≤ 127 := by
  have hb := accepted_offsets_bound p h
  obtain ⟨a1, a2, a3⟩ := toInt8_of_bound _ _ hb
  obtain ⟨b1, b2, b3⟩ := toInt8_of_bound _ _ (by rw [add_comm]; exact hb)
  have e : offsetPair p
      = (truncate ((p.1 - 1 / 2) * 254), truncate ((p.2 - 1 / 2) * 254)) := by
    unfold offsetPair toInt8
    rw [a1, b1]
  rw [e]
  exact ⟨rfl, hb, by omega, a3, by omega, b3⟩

theorem components_length (ps : List (ℚ × ℚ)) : (components ps).length = 2 * ps.length := by
  induction ps with
  | nil => rfl
  | cons p ps ih =>
    simp only [components, List.flatMap_cons, List.length_append, List.length_cons,
      List.length_nil] at ih ⊢
    omega

theorem components_getElem? (ps : List (ℚ × ℚ)) :
    ∀ k, 2 * k + 1 < (components ps).length →
      ∃ p, p ∈ ps ∧ (components ps)[2 * k]? = some (offsetPair p).1 ∧
        (components ps)[2 * k + 1]? = some (offsetPair p).2 := by
  induction ps with
  | nil =>
    intro k hk
    simp [components] at hk
  | cons p ps ih =>
    intro k hk
    have hc : components (p :: ps) = (offsetPair p).1 :: (offsetPair p).2 :: components ps := by
      simp [components]
    cases k with
    | zero => exact ⟨p, List.mem_cons_self _ _, by rw [hc]; simp, by rw [hc]; simp⟩
    | succ k =>
      rw [hc] at hk ⊢
      simp only [List.length_cons] at hk
      obtain ⟨q, hq, h1, h2⟩ := ih k (by omega)
      refine ⟨q, List.mem_cons_of_mem _ hq, ?_, ?_⟩
      · have : 2 * (k + 1) = 2 * k + 1 + 1 := by ring
        rw [this, List.getElem?_cons_succ, List.getElem?_cons_succ]
        exact h1
      · have : 2 * (k + 1) + 1 = 2 * k + 1 + 1 + 1 := by ring
        rw [this, List.getElem?_cons_succ, List.getElem?_cons_succ]
        exact h2

theorem acceptedPoints_mem :
    ∀ (m : Nat) (p q : ℚ × ℚ), q ∈ acceptedPoints m p →
      ¬ rSq q > 1 / 4 ∧ ∃ j, 1 ≤ j ∧ j ≤ m ∧ q = nextPoint^[j] p := by
  intro m
  induction m with
  | zero =>
    intro p q hq
    simp [acceptedPoints] at hq
  | succ m ih =>
    intro p q hq
    unfold acceptedPoints at hq
    by_cases hr : rSq (nextPoint p) > 1 / 4
    · rw [if_pos hr] at hq
      obtain ⟨h1, j, hj1, hj2, hj3⟩ := ih _ _ hq
      exact ⟨h1, j + 1, by omega, by omega, by rw [hj3, Function.iterate_succ_apply]⟩
    · rw [if_neg hr] at hq
      rcases List.mem_cons.mp hq with hq | hq
      · subst hq
        exact ⟨hr, 1, le_refl _, by omega, rfl⟩
      · obtain ⟨h1, j, hj1, hj2, hj3⟩ := ih _ _ hq
        exact ⟨h1, j + 1, by omega, by omega, by rw [hj3, Function.iterate_succ_apply]⟩

theorem offsetsLoop_spec (limit : Nat) (hl : limit % 2 = 0) (hl2 : limit < 2 ^ 32) :
    ∀ (fuel index : Nat) (p : ℚ × ℚ) (stores out : List (Nat × Int)), index % 2 = 0 →
      offsetsLoop limit fuel index p stores = some out →
      ∃ m, m ≤ fuel ∧
        out = stores ++ List.enumFrom index (components (acceptedPoints m p)) ∧
        index + 2 * (acceptedPoints m p).length = max index limit := by
  intro fuel
  induction fuel with
  | zero =>
    intro index p stores out _ h
    unfold offsetsLoop at h
    by_cases hi : index < limit
    · rw [if_pos hi] at h
      exact absurd h (by simp)
    · rw [if_neg hi] at h
      cases h
      exact ⟨0, le_refl _, by simp [acceptedPoints, components], by
        simp only [acceptedPoints, List.length_nil]
        omega⟩
  | succ fuel ih =>
    intro index p stores out hpar h
    unfold offsetsLoop at h
    by_cases hi : index < limit
    · rw [if_pos hi] at h
      by_cases hr : rSq (nextPoint p) > 1 / 4
      · rw [if_pos hr] at h
        obtain ⟨m, hm, h1, h2⟩ := ih index (nextPoint p) stores out hpar h
        refine ⟨m + 1, by omega, ?_, ?_⟩
        · rw [h1]
          simp only [acceptedPoints, if_pos hr]
        · simp only [acceptedPoints, if_pos hr]
          exact h2
      · rw [if_neg hr] at h
        have e1 : u32 (index + 1) = index + 1 := by
          unfold u32
          exact Nat.mod_eq_of_lt (by omega)
        have e2 : u32 (index + 1 + 1) = index + 2 := by
          unfold u32
          exact Nat.mod_eq_of_lt (by omega)
        rw [e1, e2] at h
        obtain ⟨m, hm, h1, h2⟩ := ih (index + 2) (nextPoint p) _ out (by omega) h
        refine ⟨m + 1, by omega, ?_, ?_⟩
        · rw [h1]
          simp only [acceptedPoints, if_neg hr, components, List.flatMap_cons, List.enumFrom,
            List.append_assoc, List.cons_append, List.nil_append]
        · simp only [acceptedPoints, if_neg hr, List.length_cons]
          omega
    · rw [if_neg hi] at h
      cases h
      exact ⟨0, Nat.zero_le _, by simp [acceptedPoints, components], by
        simp only [acceptedPoints, List.length_nil]
        omega⟩

theorem createNeighborOffsetTexture_spec {sampleCount fuel : Nat} {stores : List (Nat × Int)}
    (h : createNeighborOffsetTexture sampleCount fuel = some stores) :
    ∃ m, m ≤ fuel ∧ stores = List.enum (components (acceptedPoints m (1 / 2, 1 / 2))) ∧
      2 * (acceptedPoints m (1 / 2, 1 / 2)).length = u32 (sampleCount * 2) := by
  unfold createNeighborOffsetTexture at h
  have hl : u32 (sampleCount * 2) % 2 = 0 := by
    unfold u32
    omega
  have hl2 : u32 (sampleCount * 2) < 2 ^ 32 := Nat.mod_lt _ (by decide)
  obtain ⟨m, hm, h1, h2⟩ := offsetsLoop_spec _ hl hl2 fuel 0 _ [] stores rfl h
  refine ⟨m, hm, ?_, ?_⟩
  · rw [h1]
    rfl
  · simpa using h2

/-- C8.  Whatever the sample count, every pair `(dx, dy)` the generating loop of
`createNeighborOffsetTexture` stores (at positions `2k`, `2k + 1` of `offsets`) is the
pair of truncations toward zero of `(u - 0.5) * 254` and `(v - 0.5) * 254` for a point
`(u, v)` of the recurrence with `rSq ≤ 0.25`; it satisfies
`dx * dx + dy * dy ≤ 127 * 127`, and both components lie in the signed 8-bit range, so
the narrowing to `int8_t` keeps their value. -/
theorem neighborOffsets_within_disk (sampleCount fuel : Nat) (stores : List (Nat × Int))
    (k : Nat) (h : createNeighborOffsetTexture sampleCount fuel = some stores)
    (hk : 2 * k + 1 < stores.length) :
    ∃ j dx dy, 1 ≤ j ∧ rSq (point j) ≤ 1 / 4 ∧
      dx = truncate (((point j).1 - 1 / 2) * 254) ∧
      dy = truncate (((point j).2 - 1 / 2) * 254) ∧
      stores[2 * k]? = some (2 * k, dx) ∧ stores[2 * k + 1]? = some (2 * k + 1, dy) ∧
      dx * dx + dy * dy ≤ 127 * 127 ∧ -128 ≤ dx ∧ dx ≤ 127 ∧ -128 ≤ dy ∧ dy ≤ 127 := by
  obtain ⟨m, -, hs, -⟩ := createNeighborOffsetTexture_spec h
  have hlen : stores.length = (components (acceptedPoints m (1 / 2, 1 / 2))).length := by
    rw [hs, List.enum_length]
  obtain ⟨p, hp, h1, h2⟩ := components_getElem? (acceptedPoints m (1 / 2, 1 / 2)) k (by omega)
  obtain ⟨hacc, j, hj1, -, hj3⟩ := acceptedPoints_mem _ _ _ hp
  obtain ⟨e, b1, b2, b3, b4, b5⟩ := offsetPair_accepted p hacc
  have hpj : p = point j := hj3
  refine ⟨j, (offsetPair p).1, (offsetPair p).2, hj1, ?_, ?_, ?_, ?_, ?_, b1, b2, b3, b4, b5⟩
  · rw [← hpj]
    exact not_lt.mp hacc
  · rw [← hpj, e]
  · rw [← hpj, e]
  · rw [hs, List.getElem?_enum, h1]
    simp
  · rw [hs, List.getElem?_enum, h2]
    simp

theorem neighborOffsets_within_disk_witness :
    createNeighborOffsetTexture 2 3 = some [(0, -62), (1, -109), (2, 67), (3, -73)] ∧
    2 * 1 + 1 < ([(0, -62), (1, -109), (2, 67), (3, -73)] : List (Nat × Int)).length ∧
    ∃ j dx dy, 1 ≤ j ∧ rSq (point j) ≤ 1 / 4 ∧
      dx = truncate (((point j).1 - 1 / 2) * 254) ∧
      dy = truncate (((point j).2 - 1 / 2) * 254) ∧
      ([(0, -62), (1, -109), (2, 67), (3, -73)] : List (Nat × Int))[2 * 1]? = some (2 * 1, dx) ∧
      ([(0, -62), (1, -109), (2, 67), (3, -73)] : List (Nat × Int))[2 * 1 + 1]?
        = some (2 * 1 + 1, dy) ∧
      dx * dx + dy * dy ≤ 127 * 127 ∧ -128 ≤ dx ∧ dx ≤ 127 ∧ -128 ≤ dy ∧ dy ≤ 127 :=
  have h : createNeighborOffsetTexture 2 3 = some [(0, -62), (1, -109), (2, 67), (3, -73)] := by
    simp [createNeighborOffsetTexture, offsetsLoop, nextPoint, rSq, phi2, offsetPair, toInt8,
      truncate, u32]
    norm_num
    decide
  ⟨h, by decide, neighborOffsets_within_disk 2 3 _ 1 h (by decide)⟩

/-- C18.  The in-place loop `result[j] += (j > blockOffset) ? result[j - 1] : 0` leaves in
element `t` of block `b` the running total of the block's original values at positions
`blockStart .. blockStart + t` inclusive: the first element of the block keeps its
original value and the last element holds the total of the block. -/
theorem hostPrefixSum_running_totals (dim : Int × Int) (nx ny : Int) (bs : Int × Int)
    (r res : List ℚ) (ups : List Upload) (b t : Nat)
    (hbs : blockSize dim nx ny = some bs)
    (h : hostPrefixSum dim nx ny r = some (res, ups))
    (hb : b < (nx * ny).toNat) (ht : t < (bs.1 * bs.2).toNat) :
    res[b * (bs.1 * bs.2).toNat + t]? = some (runningTotal r (b * (bs.1 * bs.2).toNat) t) ∧
    res[b * (bs.1 * bs.2).toNat]? = r[b * (bs.1 * bs.2).toNat]? ∧
    res[b * (bs.1 * bs.2).toNat + ((bs.1 * bs.2).toNat - 1)]?
      = some (runningTotal r (b * (bs.1 * bs.2).toNat) ((bs.1 * bs.2).toNat - 1)) := by
  obtain ⟨bs', hbs', -, hin, -, -⟩ := hostPrefixSum_spec h
  rw [hbs] at hbs'
  cases hbs'
  refine ⟨(hin b t hb ht).2, ?_, (hin b _ hb (by omega)).2⟩
  obtain ⟨hlt, h0⟩ := hin b 0 hb (by omega)
  rw [Nat.add_zero] at hlt h0
  rw [h0, runningTotal_zero, List.getD_eq_getElem?_getD, List.getElem?_eq_getElem hlt]
  rfl

theorem hostPrefixSum_running_totals_witness :
    blockSize (4, 2) 2 1 = some (2, 2) ∧
    hostPrefixSum (4, 2) 2 1 [1, 2, 3, 4, 5, 6, 7, 8]
      = some ([1, 3, 6, 10, 5, 11, 18, 26], [⟨0, [1, 3, 6, 10]⟩, ⟨4, [5, 11, 18, 26]⟩]) ∧
    ([1, 3, 6, 10, 5, 11, 18, 26] : List ℚ)[1 * ((2 : Int) * 2).toNat + 2]?
      = some (runningTotal [1, 2, 3, 4, 5, 6, 7, 8] (1 * ((2 : Int) * 2).toNat) 2) ∧
    ([1, 3, 6, 10, 5, 11, 18, 26] : List ℚ)[1 * ((2 : Int) * 2).toNat]?
      = ([1, 2, 3, 4, 5, 6, 7, 8] : List ℚ)[1 * ((2 : Int) * 2).toNat]? ∧
    ([1, 3, 6, 10, 5, 11, 18, 26] : List ℚ)[1 * ((2 : Int) * 2).toNat
        + (((2 : Int) * 2).toNat - 1)]?
      = some (runningTotal [1, 2, 3, 4, 5, 6, 7, 8] (1 * ((2 : Int) * 2).toNat)
          (((2 : Int) * 2).toNat - 1)) :=
  have hb : blockSize (4, 2) 2 1 = some (2, 2) := by decide
  have h : hostPrefixSum (4, 2) 2 1 [1, 2, 3, 4, 5, 6, 7, 8]
      = some ([1, 3, 6, 10, 5, 11, 18, 26], [⟨0, [1, 3, 6, 10]⟩, ⟨4, [5, 11, 18, 26]⟩]) := by
    simp [hostPrefixSum, hb, outerLoop, innerLoop, prefixStep]
    norm_num
  ⟨hb, h, hostPrefixSum_running_totals (4, 2) 2 1 (2, 2) _ _ _ 1 2 hb h (by decide) (by decide)⟩

theorem ceil_blocks_axis (n : Int) (h1 : 1 ≤ n) (h2 : n ≤ 32) :
    cdiv (512 + n - 1) n = some (Int.tdiv (512 + n - 1) n) ∧ 0 < Int.tdiv (512 + n - 1) n ∧
      512 ≤ n * Int.tdiv (512 + n - 1) n ∧ n * Int.tdiv (512 + n - 1) n ≤ 543 ∧
      n * (Int.tdiv (512 + n - 1) n - 1) < 512 := by
  interval_cases n <;> decide

/-- C19.  For every block grid with `1 ≤ envMapNumBlockX ≤ 32`, `1 ≤ envMapNumBlockY ≤ 32`
and the 512 x 512 importance map: the block size is computed without a division by zero
and is the per-axis ceiling of `512 / blocks`; `numBlocks * blockSize.x * blockSize.y`
lies between `512 * 512` and `2 * 1024 * 1024`, the element count of the importance
buffer; and on every vector of at least `numBlocks * blockSize.x * blockSize.y` elements
(even exactly that many) the loop returns, so that no index it reads or writes reaches
that bound, and it leaves every element from that bound on untouched. -/
theorem hostPrefixSum_in_bounds (nx ny : Int) (hx1 : 1 ≤ nx) (hx2 : nx ≤ 32) (hy1 : 1 ≤ ny)
    (hy2 : ny ≤ 32) :
    ∃ bs, blockSize (512, 512) nx ny = some bs ∧
      (nx * (bs.1 - 1) < 512 ∧ 512 ≤ nx * bs.1) ∧ (ny * (bs.2 - 1) < 512 ∧ 512 ≤ ny * bs.2) ∧
      512 * 512 ≤ (nx * ny).toNat * (bs.1 * bs.2).toNat ∧
      (nx * ny).toNat * (bs.1 * bs.2).toNat ≤ 2 * 1024 * 1024 ∧
      ∀ r : List ℚ, (nx * ny).toNat * (bs.1 * bs.2).toNat ≤ r.length →
        ∃ res ups, hostPrefixSum (512, 512) nx ny r = some (res, ups) ∧
          res.length = r.length ∧
          ∀ m, (nx * ny).toNat * (bs.1 * bs.2).toNat ≤ m → res[m]? = r[m]? := by
  obtain ⟨a1, a2, a3, a4, a5⟩ := ceil_blocks_axis nx hx1 hx2
  obtain ⟨b1, b2, b3, b4, b5⟩ := ceil_blocks_axis ny hy1 hy2
  have hbs : blockSize (512, 512) nx ny
      = some (Int.tdiv (512 + nx - 1) nx, Int.tdiv (512 + ny - 1) ny) := by
    unfold blockSize
    simp only [a1, b1]
  generalize Int.tdiv (512 + nx - 1) nx = bx at *
  generalize Int.tdiv (512 + ny - 1) ny = by' at *
  have hsz : 0 ≤ bx * by' := le_of_lt (mul_pos a2 b2)
  have hnb : 0 ≤ nx * ny := le_of_lt (mul_pos (by omega) (by omega))
  have hprod : (((nx * ny).toNat * (bx * by').toNat : Nat) : Int) = (nx * bx) * (ny * by') := by
    push_cast
    rw [Int.toNat_of_nonneg hnb, Int.toNat_of_nonneg hsz]
    ring
  have hlo : (512 * 512 : Int) ≤ (nx * bx) * (ny * by') := by nlinarith
  have hhi : (nx * bx) * (ny * by') ≤ (2 * 1024 * 1024 : Int) := by nlinarith
  refine ⟨_, hbs, ⟨a5, a3⟩, ⟨b5, b3⟩, ?_, ?_, ?_⟩
  · have : ((512 * 512 : Nat) : Int) ≤ (((nx * ny).toNat * (bx * by').toNat : Nat) : Int) := by
      rw [hprod]
      exact_mod_cast hlo
    exact_mod_cast this
  · have : (((nx * ny).toNat * (bx * by').toNat : Nat) : Int) ≤ ((2 * 1024 * 1024 : Nat) : Int) := by
      rw [hprod]
      exact_mod_cast hhi
    exact_mod_cast this
  · intro r hr
    obtain ⟨⟨res, ups⟩, h⟩ := hostPrefixSum_total r hbs hsz hr
    obtain ⟨bs', hbs', hlen, -, hout, -⟩ := hostPrefixSum_spec h
    rw [hbs] at hbs'
    cases hbs'
    exact ⟨res, ups, h, hlen, hout⟩

theorem hostPrefixSum_in_bounds_witness :
    ((1 : Int) ≤ 8 ∧ (8 : Int) ≤ 32 ∧ (1 : Int) ≤ 8 ∧ (8 : Int) ≤ 32) ∧
    ∃ bs, blockSize (512, 512) 8 8 = some bs ∧
      (8 * (bs.1 - 1) < 512 ∧ 512 ≤ 8 * bs.1) ∧ (8 * (bs.2 - 1) < 512 ∧ 512 ≤ 8 * bs.2) ∧
      512 * 512 ≤ ((8 : Int) * 8).toNat * (bs.1 * bs.2).toNat ∧
      ((8 : Int) * 8).toNat * (bs.1 * bs.2).toNat ≤ 2 * 1024 * 1024 ∧
      ∀ r : List ℚ, ((8 : Int) * 8).toNat * (bs.1 * bs.2).toNat ≤ r.length →
        ∃ res ups, hostPrefixSum (512, 512) 8 8 r = some (res, ups) ∧
          res.length = r.length ∧
          ∀ m, ((8 : Int) * 8).toNat * (bs.1 * bs.2).toNat ≤ m → res[m]? = r[m]? :=
  ⟨by decide, hostPrefixSum_in_bounds 8 8 (by decide) (by decide) (by decide) (by decide)⟩

/-- C11 (as stated, refuted).  In a state whose frame index is 1, `setOptions` with
options that differ from the stored ones leaves the frame index at 1. -/
theorem setOptions_keeps_frameIndex :
    Options.default ≠ secondFrameState.mOptions ∧ secondFrameState.mFrameIndex = 1 ∧
      (setOptions secondFrameState Options.default).mFrameIndex = 1 := by
  decide

/-- C11 (amended).  When the new options differ from the stored ones, after `setOptions`
the stored options equal the new value and the recompile flag is set; the frame index
is as before the call, and it is 0 after the `updatePrograms` of the next `beginFrame`,
which also keeps the new options. -/
theorem setOptions_changed (s : State) (options : Options) (h : options ≠ s.mOptions) :
    (setOptions s options).mOptions = options ∧ (setOptions s options).mRecompile = true ∧
    (setOptions s options).mFrameIndex = s.mFrameIndex ∧
    (updatePrograms (setOptions s options)).mFrameIndex = 0 ∧
    ∀ (frameDim screenTiles : Nat × Nat) (needRecompile : Bool) (s' : State),
      beginFrame (setOptions s options) frameDim screenTiles needRecompile = some s' →
      s'.mFrameIndex = 0 ∧ s'.mOptions = options := by
  have e : setOptions s options = { s with mOptions := options, mRecompile := true } := by
    unfold setOptions
    rw [if_pos h]
  rw [e]
  refine ⟨rfl, rfl, rfl, ((updatePrograms_spec _).2.2.2.2.1 rfl).1, ?_⟩
  intro frameDim screenTiles needRecompile s' hb
  obtain ⟨-, -, a3, a4, -⟩ := beginFrame_spec hb
  exact ⟨a4 rfl, a3⟩

theorem setOptions_changed_witness :
    Options.default ≠ secondFrameState.mOptions ∧
    (setOptions secondFrameState Options.default).mOptions = Options.default ∧
    (setOptions secondFrameState Options.default).mRecompile = true ∧
    (setOptions secondFrameState Options.default).mFrameIndex = secondFrameState.mFrameIndex ∧
    (updatePrograms (setOptions secondFrameState Options.default)).mFrameIndex = 0 ∧
    ∀ (frameDim screenTiles : Nat × Nat) (needRecompile : Bool) (s' : State),
      beginFrame (setOptions secondFrameState Options.default) frameDim screenTiles
        needRecompile = some s' →
      s'.mFrameIndex = 0 ∧ s'.mOptions = Options.default :=
  ⟨by decide, setOptions_changed secondFrameState Options.default (by decide)⟩

theorem spatialResampling_evolve {s s' : State} {p : Nat} (h : spatialResampling s p = some s') :
    ∃ (hp : p < 4) (pass : ComputePass) (target : Buffer),
      s.mpSpatialResamplingPass = some pass ∧ s.mpTemporalReservoirs ⟨p, hp⟩ = some target ∧
      s' = s.evolve s.prevEnvMapNumBlockX s.prevEnvMapNumBlockY
        (Function.update s.mpTemporalReservoirs ⟨p, hp⟩ (s.mpOutputReservoirs ⟨p, hp⟩))
        (Function.update s.mpOutputReservoirs ⟨p, hp⟩ (some target))
        [.clearUAV target 0,
          .spatialResampling pass p (s.mpOutputReservoirs ⟨p, hp⟩) target
            (resamplingThreads s)] := by
  unfold spatialResampling at h
  cases hk : s.mpSpatialResamplingPass with
  | none => simp [hk] at h
  | some pass =>
    simp only [hk] at h
    by_cases hp : p < 4
    · simp only [hp, dite_true, Function.update_same] at h
      cases ht : s.mpTemporalReservoirs ⟨p, hp⟩ with
      | none => simp [ht] at h
      | some target =>
        simp only [ht] at h
        refine ⟨hp, pass, target, by first | exact hk | rfl, ht, ?_⟩
        cases h
        simp [State.evolve, State.emit, resamplingThreads, hk, ht]
    · simp [hp] at h

/-- C15.  A call `spatialResampling(p)` that returns has exchanged `temporal[p]` and
`output[p]` (nothing in the function makes the exchange depend on the stages that ran
before), then cleared the new `output[p]` to 0, then executed the kernel with its input
bound to the buffer that was `output[p]` on entry and its write target bound to the
buffer that was `temporal[p]` on entry; the temporal and output slots of every other
pass are as on entry. -/
theorem spatialResampling_swaps_then_clears (s s' : State) (p : Nat)
    (h : spatialResampling s p = some s') :
    ∃ (hp : p < 4) (pass : ComputePass) (target : Buffer),
      s.mpSpatialResamplingPass = some pass ∧
      s.mpTemporalReservoirs ⟨p, hp⟩ = some target ∧
      s'.mpTemporalReservoirs ⟨p, hp⟩ = s.mpOutputReservoirs ⟨p, hp⟩ ∧
      s'.mpOutputReservoirs ⟨p, hp⟩ = some target ∧
      s'.log = s.log ++ [.clearUAV target 0,
        .spatialResampling pass p (s.mpOutputReservoirs ⟨p, hp⟩) target (resamplingThreads s)] ∧
      ∀ j : Fin 4, j ≠ ⟨p, hp⟩ →
        s'.mpTemporalReservoirs j = s.mpTemporalReservoirs j ∧
        s'.mpOutputReservoirs j = s.mpOutputReservoirs j := by
  obtain ⟨hp, pass, target, h1, h2, h3⟩ := spatialResampling_evolve h
  subst h3
  refine ⟨hp, pass, target, h1, h2, ?_, ?_, rfl, ?_⟩
  · simp [State.evolve]
  · simp [State.evolve]
  · intro j hj
    simp [State.evolve, Function.update_noteq hj]

theorem spatialResampling_swaps_then_clears_witness :
    spatialResampling secondFrameState 0
        = some ((spatialResampling secondFrameState 0).getD secondFrameState) ∧
    ∃ (hp : 0 < 4) (pass : ComputePass) (target : Buffer),
      secondFrameState.mpSpatialResamplingPass = some pass ∧
      secondFrameState.mpTemporalReservoirs ⟨0, hp⟩ = some target ∧
      ((spatialResampling secondFrameState 0).getD secondFrameState).mpTemporalReservoirs ⟨0, hp⟩
        = secondFrameState.mpOutputReservoirs ⟨0, hp⟩ ∧
      ((spatialResampling secondFrameState 0).getD secondFrameState).mpOutputReservoirs ⟨0, hp⟩
        = some target ∧
      ((spatialResampling secondFrameState 0).getD secondFrameState).log
        = secondFrameState.log ++ [.clearUAV target 0,
          .spatialResampling pass 0 (secondFrameState.mpOutputReservoirs ⟨0, hp⟩) target
            (resamplingThreads secondFrameState)] ∧
      ∀ j : Fin 4, j ≠ ⟨0, hp⟩ →
        ((spatialResampling secondFrameState 0).getD secondFrameState).mpTemporalReservoirs j
          = secondFrameState.mpTemporalReservoirs j ∧
        ((spatialResampling secondFrameState 0).getD secondFrameState).mpOutputReservoirs j
          = secondFrameState.mpOutputReservoirs j :=
  ⟨rfl, spatialResampling_swaps_then_clears secondFrameState _ 0 rfl⟩

theorem evolve_evolve (s : State) (px py px' py' : Int) (t o t' o' : Fin 4 → Option Buffer)
    (es es' : List Event) :
    (s.evolve px py t o es).evolve px' py' t' o' es' = s.evolve px' py' t' o' (es ++ es') := by
  simp [State.evolve, List.append_assoc]

theorem emit_eq_evolve (s : State) (es : List Event) :
    s.emit es = s.evolve s.prevEnvMapNumBlockX s.prevEnvMapNumBlockY s.mpTemporalReservoirs
      s.mpOutputReservoirs es := rfl

theorem buildPrior_evolve {s s' : State} {i : Nat} (h : buildPrior s i = some s') :
    ∃ (hp : i < 4) (pass : ComputePass) (tiles : Buffer) (threads : Nat × Nat × Nat),
      s.mpBuildPriorPass = some pass ∧
      s' = s.emit [.clearUAV tiles 0xFFFFFFFF,
        .buildPrior pass i s.mpCurrentReceiverInfo tiles threads] := by
  unfold buildPrior at h
  cases hk : s.mpBuildPriorPass with
  | none => simp [hk] at h
  | some pass =>
    rw [hk] at h
    simp only at h
    by_cases hp : i < 4
    · simp only [hp, dite_true] at h
      cases ht : s.mpSolutionTiles ⟨i, hp⟩ with
      | none => simp [ht] at h
      | some tiles =>
        simp only [ht] at h
        cases hb : buildPriorThreads s with
        | none => simp [hb] at h
        | some threads =>
          simp only [hb] at h
          exact ⟨hp, pass, tiles, threads, rfl, (Option.some.inj h).symm⟩
    · simp [hp] at h

theorem initialSampling_evolve {s s' : State} {i : Nat} (h : initialSampling s i = some s') :
    ∃ (hp : i < 4) (pass : ComputePass), s.mpInitialSamplingPass = some pass ∧
      s' = s.emit [.initialSampling pass i (s.mpOutputReservoirs ⟨i, hp⟩)
        s.mpCurrentReceiverInfo (s.mpSolutionTiles ⟨i, hp⟩) (resamplingThreads s)] := by
  unfold initialSampling at h
  cases hk : s.mpInitialSamplingPass with
  | none => simp [hk] at h
  | some pass =>
    rw [hk] at h
    simp only at h
    by_cases hp : i < 4
    · simp only [hp, dite_true] at h
      exact ⟨hp, pass, rfl, (Option.some.inj h).symm⟩
    · simp [hp] at h

theorem temporalResampling_evolve {s s' : State} {i : Nat}
    (h : temporalResampling s i = some s') :
    ∃ (hp : i < 4) (pass : ComputePass), s.mpTemporalResamplingPass = some pass ∧
      s' = s.emit [.temporalResampling pass i (s.mpTemporalReservoirs ⟨i, hp⟩)
        (s.mpOutputReservoirs ⟨i, hp⟩) (resamplingThreads s)] := by
  unfold temporalResampling at h
  cases hk : s.mpTemporalResamplingPass with
  | none => simp [hk] at h
  | some pass =>
    rw [hk] at h
    simp only at h
    by_cases hp : i < 4
    · simp only [hp, dite_true] at h
      exact ⟨hp, pass, rfl, (Option.some.inj h).symm⟩
    · simp [hp] at h

theorem lastWrite_foldl (i : Nat) (es : List Event) :
    ∀ acc : Option (Option Buffer),
      es.foldl (fun acc e =>
        match e.write with
        | some (k, b) => if k = i then some b else acc
        | none => acc) acc
      = match lastWrite es i with
        | some x => some x
        | none => acc := by
  induction es with
  | nil =>
    intro acc
    simp [lastWrite]
  | cons e es ih =>
    intro acc
    unfold lastWrite
    simp only [List.foldl_cons]
    rw [ih, ih]
    cases hl : lastWrite es i with
    | some x => rfl
    | none =>
      simp only
      cases hw : e.write with
      | none => rfl
      | some kb =>
        obtain ⟨k, b⟩ := kb
        by_cases hk : k = i
        · simp [hk]
        · simp [hk]

theorem lastWrite_append (a b : List Event) (i : Nat) :
    lastWrite (a ++ b) i = match lastWrite b i with
      | some x => some x
      | none => lastWrite a i := by
  unfold lastWrite
  rw [List.foldl_append]
  exact lastWrite_foldl i b _

theorem lastWrite_eq_none (es : List Event) (i : Nat)
    (h : ∀ e ∈ es, ∀ b, e.write ≠ some (i, b)) : lastWrite es i = none := by
  induction es with
  | nil => rfl
  | cons e es ih =>
    have h1 : lastWrite (e :: es) i = lastWrite ([e] ++ es) i := rfl
    rw [h1, lastWrite_append, ih (fun e' he' => h e' (List.mem_cons_of_mem _ he'))]
    simp only
    have h2 := h e (List.mem_cons_self _ _)
    unfold lastWrite
    simp only [List.foldl_cons, List.foldl_nil]
    cases hw : e.write with
    | none => rfl
    | some kb =>
      obtain ⟨k, b⟩ := kb
      by_cases hk : k = i
      · subst hk
        exact absurd hw (h2 b)
      · simp [hk]

theorem passEvent_write_index {s : State} {i : Nat} {e : Event} (h : PassEvent s i e)
    {k : Nat} {b : Option Buffer} (hw : e.write = some (k, b)) : k = i := by
  cases e <;> simp [Event.write] at hw <;> simp [PassEvent] at h
  · rw [← hw.1]; exact h.1
  · rw [← hw.1]; exact h.1
  · rw [← hw.1]; exact h.1

theorem temporalAfter_of_not_spatial (s : State) (lo hi : Nat)
    (h : ¬ s.mOptions.useSpatialResampling = true) :
    temporalAfter s lo hi = s.mpTemporalReservoirs ∧
    outputAfter s lo hi = s.mpOutputReservoirs := by
  constructor <;> funext j <;> simp [temporalAfter, outputAfter, h]

theorem after_single_spatial (s : State) (i : Nat) (hp : i < 4)
    (h : s.mOptions.useSpatialResampling = true) :
    temporalAfter s i (i + 1)
      = Function.update s.mpTemporalReservoirs ⟨i, hp⟩ (s.mpOutputReservoirs ⟨i, hp⟩) ∧
    outputAfter s i (i + 1)
      = Function.update s.mpOutputReservoirs ⟨i, hp⟩ (s.mpTemporalReservoirs ⟨i, hp⟩) := by
  constructor <;> funext j <;> by_cases hj : j = ⟨i, hp⟩
  · subst hj
    simp [temporalAfter, h]
  · have : ¬ (i ≤ j.val ∧ j.val < i + 1) := by
      intro hc
      apply hj
      apply Fin.ext
      show j.val = i
      omega
    simp [temporalAfter, this, Function.update_noteq hj]
  · subst hj
    simp [outputAfter, h]
  · have : ¬ (i ≤ j.val ∧ j.val < i + 1) := by
      intro hc
      apply hj
      apply Fin.ext
      show j.val = i
      omega
    simp [outputAfter, this, Function.update_noteq hj]

theorem passBody_evolve {s s' : State} {i : Nat} (h : passBody s i = some s') :
    ∃ (hp : i < 4) (es : List Event),
      s' = s.evolve s.prevEnvMapNumBlockX s.prevEnvMapNumBlockY (temporalAfter s i (i + 1))
        (outputAfter s i (i + 1)) es ∧
      (∀ e ∈ es, PassEvent s i e) ∧
      lastWrite es i = some (outputAfter s i (i + 1) ⟨i, hp⟩) := by
  unfold passBody at h
  simp only [Option.bind_eq_some] at h
  obtain ⟨s1, h1, s2, h2, s3, h3, h4⟩ := h
  -- prior build
  have e1 : ∃ es1, s1 = s.emit es1 ∧ (∀ e ∈ es1, PassEvent s i e) ∧
      (∀ e ∈ es1, e.write = none) := by
    by_cases hc : (s.mOptions.usePriorDistribution && s.useOurs) = true
    · rw [if_pos hc] at h1
      obtain ⟨-, pass, tiles, threads, -, hs⟩ := buildPrior_evolve h1
      refine ⟨_, hs, ?_, ?_⟩
      · intro e he
        simp only [List.mem_cons, List.mem_singleton, List.not_mem_nil, or_false] at he
        rcases he with rfl | rfl <;> simp [PassEvent]
      · intro e he
        simp only [List.mem_cons, List.mem_singleton, List.not_mem_nil, or_false] at he
        rcases he with rfl | rfl <;> rfl
    · rw [if_neg hc] at h1
      cases h1
      exact ⟨[], by simp [State.emit], by simp, by simp⟩
  obtain ⟨es1, rfl, p1, w1⟩ := e1
  -- initial sampling
  obtain ⟨hp, ipass, -, rfl⟩ := initialSampling_evolve h2
  -- temporal resampling
  have e3 : ∃ es3, s3 = s.emit (es1 ++ [Event.initialSampling ipass i
        (s.mpOutputReservoirs ⟨i, hp⟩) s.mpCurrentReceiverInfo (s.mpSolutionTiles ⟨i, hp⟩)
        (resamplingThreads s)] ++ es3) ∧ (∀ e ∈ es3, PassEvent s i e) ∧
      (es3 = [] ∨ ∃ tp, es3 = [Event.temporalResampling tp i (s.mpTemporalReservoirs ⟨i, hp⟩)
        (s.mpOutputReservoirs ⟨i, hp⟩) (resamplingThreads s)]) := by
    by_cases hc : (((s.emit es1).emit [Event.initialSampling ipass i
        ((s.emit es1).mpOutputReservoirs ⟨i, hp⟩) (s.emit es1).mpCurrentReceiverInfo
        ((s.emit es1).mpSolutionTiles ⟨i, hp⟩) (resamplingThreads (s.emit es1))]).mOptions.useTemporalResampling
        && ((s.emit es1).emit [Event.initialSampling ipass i
        ((s.emit es1).mpOutputReservoirs ⟨i, hp⟩) (s.emit es1).mpCurrentReceiverInfo
        ((s.emit es1).mpSolutionTiles ⟨i, hp⟩) (resamplingThreads (s.emit es1))]).mFrameIndex != 0)
        = true
    · rw [if_pos hc] at h3
      obtain ⟨_, tp, -, hs⟩ := temporalResampling_evolve h3
      refine ⟨_, ?_, ?_, Or.inr ⟨tp, rfl⟩⟩
      · rw [hs]
        simp [State.emit, resamplingThreads, List.append_assoc]
      · intro e he
        simp only [List.mem_singleton] at he
        subst he
        exact ⟨rfl, hp, rfl, rfl⟩
    · rw [if_neg hc] at h3
      cases h3
      refine ⟨[], ?_, by simp, Or.inl rfl⟩
      simp [State.emit, resamplingThreads, List.append_assoc]
  obtain ⟨es3, rfl, p3, f3⟩ := e3
  have pini : PassEvent s i (Event.initialSampling ipass i (s.mpOutputReservoirs ⟨i, hp⟩)
      s.mpCurrentReceiverInfo (s.mpSolutionTiles ⟨i, hp⟩) (resamplingThreads s)) :=
    ⟨rfl, hp, rfl⟩
  have w3 : lastWrite (es1 ++ [Event.initialSampling ipass i (s.mpOutputReservoirs ⟨i, hp⟩)
      s.mpCurrentReceiverInfo (s.mpSolutionTiles ⟨i, hp⟩) (resamplingThreads s)] ++ es3) i
      = some (s.mpOutputReservoirs ⟨i, hp⟩) := by
    rw [lastWrite_append]
    rcases f3 with rfl | ⟨tp, rfl⟩
    · rw [lastWrite_append]
      simp [lastWrite, Event.write]
    · simp [lastWrite, Event.write]
  -- spatial resampling
  by_cases hc : s.mOptions.useSpatialResampling = true
  · have hc' : (s.emit (es1 ++ [Event.initialSampling ipass i (s.mpOutputReservoirs ⟨i, hp⟩)
        s.mpCurrentReceiverInfo (s.mpSolutionTiles ⟨i, hp⟩) (resamplingThreads s)]
        ++ es3)).mOptions.useSpatialResampling = true := hc
    rw [if_pos hc'] at h4
    obtain ⟨hp', sp, target, -, ht, hs⟩ := spatialResampling_evolve h4
    have ht' : s.mpTemporalReservoirs ⟨i, hp⟩ = some target := ht
    obtain ⟨a1, a2⟩ := after_single_spatial s i hp hc
    refine ⟨hp, (es1 ++ [Event.initialSampling ipass i (s.mpOutputReservoirs ⟨i, hp⟩)
      s.mpCurrentReceiverInfo (s.mpSolutionTiles ⟨i, hp⟩) (resamplingThreads s)] ++ es3)
      ++ [Event.clearUAV target 0, Event.spatialResampling sp i
      (s.mpOutputReservoirs ⟨i, hp⟩) target (resamplingThreads s)], ?_, ?_, ?_⟩
    · rw [hs, a1, a2, ht']
      simp [State.evolve, State.emit, resamplingThreads, List.append_assoc]
    · intro e he
      simp only [List.mem_append, List.mem_cons, List.mem_singleton, List.not_mem_nil,
        or_false] at he
      rcases he with ((he | rfl) | he) | rfl | rfl
      · exact p1 e he
      · exact pini
      · exact p3 e he
      · simp [PassEvent]
      · exact ⟨rfl, hp, rfl, ht'⟩
    · rw [lastWrite_append, a2, ht']
      simp [lastWrite, Event.write]
  · have hc' : ¬ (s.emit (es1 ++ [Event.initialSampling ipass i (s.mpOutputReservoirs ⟨i, hp⟩)
        s.mpCurrentReceiverInfo (s.mpSolutionTiles ⟨i, hp⟩) (resamplingThreads s)]
        ++ es3)).mOptions.useSpatialResampling = true := hc
    rw [if_neg hc'] at h4
    cases h4
    obtain ⟨a1, a2⟩ := temporalAfter_of_not_spatial s i (i + 1) hc
    refine ⟨hp, es1 ++ [Event.initialSampling ipass i (s.mpOutputReservoirs ⟨i, hp⟩)
      s.mpCurrentReceiverInfo (s.mpSolutionTiles ⟨i, hp⟩) (resamplingThreads s)] ++ es3,
      ?_, ?_, ?_⟩
    · rw [a1, a2]
      rfl
    · intro e he
      simp only [List.mem_append, List.mem_singleton] at he
      rcases he with (he | rfl) | he
      · exact p1 e he
      · exact pini
      · exact p3 e he
    · rw [a2]
      exact w3

theorem passEvent_congr {s s₁ : State} {k : Nat} {e : Event}
    (h : ∀ hk : k < 4, s₁.mpOutputReservoirs ⟨k, hk⟩ = s.mpOutputReservoirs ⟨k, hk⟩ ∧
      s₁.mpTemporalReservoirs ⟨k, hk⟩ = s.mpTemporalReservoirs ⟨k, hk⟩)
    (he : PassEvent s₁ k e) : PassEvent s k e := by
  cases e <;> simp only [PassEvent] at he ⊢
  · exact he
  · obtain ⟨h1, hk, h2⟩ := he
    exact ⟨h1, hk, by rw [h2, (h hk).1]⟩
  · obtain ⟨h1, hk, h2, h3⟩ := he
    exact ⟨h1, hk, by rw [h2, (h hk).2], by rw [h3, (h hk).1]⟩
  · obtain ⟨h1, hk, h2, h3⟩ := he
    exact ⟨h1, hk, by rw [h2, (h hk).1], by rw [← (h hk).2, h3]⟩

theorem after_step (s s₁ : State) (i n : Nat) (ho : s₁.mOptions = s.mOptions)
    (ht : s₁.mpTemporalReservoirs = temporalAfter s i (i + 1))
    (hout : s₁.mpOutputReservoirs = outputAfter s i (i + 1)) :
    temporalAfter s₁ (i + 1) (i + 1 + n) = temporalAfter s i (i + (n + 1)) ∧
    outputAfter s₁ (i + 1) (i + 1 + n) = outputAfter s i (i + (n + 1)) := by
  constructor <;> funext j <;> simp only [temporalAfter, outputAfter, ho, ht, hout]
  · by_cases hc : s.mOptions.useSpatialResampling = true
    · by_cases h1 : i + 1 ≤ j.val ∧ j.val < i + 1 + n
      · have h2 : ¬ (i ≤ j.val ∧ j.val < i + 1) := by omega
        have h3 : i ≤ j.val ∧ j.val < i + (n + 1) := by omega
        simp [hc, h1, h2, h3]
      · by_cases h2 : i ≤ j.val ∧ j.val < i + 1
        · have h3 : i ≤ j.val ∧ j.val < i + (n + 1) := by omega
          simp [hc, h1, h2, h3]
        · have h3 : ¬ (i ≤ j.val ∧ j.val < i + (n + 1)) := by omega
          simp [hc, h1, h2, h3]
    · simp [hc]
  · by_cases hc : s.mOptions.useSpatialResampling = true
    · by_cases h1 : i + 1 ≤ j.val ∧ j.val < i + 1 + n
      · have h2 : ¬ (i ≤ j.val ∧ j.val < i + 1) := by omega
        have h3 : i ≤ j.val ∧ j.val < i + (n + 1) := by omega
        simp [hc, h1, h2, h3]
      · by_cases h2 : i ≤ j.val ∧ j.val < i + 1
        · have h3 : i ≤ j.val ∧ j.val < i + (n + 1) := by omega
          simp [hc, h1, h2, h3]
        · have h3 : ¬ (i ≤ j.val ∧ j.val < i + (n + 1)) := by omega
          simp [hc, h1, h2, h3]
    · simp [hc]

theorem after_outside (s : State) (lo hi : Nat) (j : Fin 4) (h : ¬ (lo ≤ j.val ∧ j.val < hi)) :
    temporalAfter s lo hi j = s.mpTemporalReservoirs j ∧
    outputAfter s lo hi j = s.mpOutputReservoirs j := by
  simp [temporalAfter, outputAfter, h]

theorem passLoop_evolve :
    ∀ (n i : Nat) (s s' : State), passLoop n i s = some s' →
      (n = 0 ∨ i + n ≤ 4) ∧
      ∃ es, s' = s.evolve s.prevEnvMapNumBlockX s.prevEnvMapNumBlockY
          (temporalAfter s i (i + n)) (outputAfter s i (i + n)) es ∧
        (∀ e ∈ es, ∃ k, i ≤ k ∧ k < i + n ∧ PassEvent s k e) ∧
        (∀ (k : Nat) (hk : k < 4), i ≤ k → k < i + n →
          lastWrite es k = some (outputAfter s i (i + n) ⟨k, hk⟩)) := by
  intro n
  induction n with
  | zero =>
    intro i s s' h
    simp only [passLoop, Option.some.injEq] at h
    subst h
    refine ⟨Or.inl rfl, [], ?_, by simp, fun k hk h1 h2 => by omega⟩
    have e1 : temporalAfter s i (i + 0) = s.mpTemporalReservoirs := by
      funext j
      exact (after_outside s i (i + 0) j (by omega)).1
    have e2 : outputAfter s i (i + 0) = s.mpOutputReservoirs := by
      funext j
      exact (after_outside s i (i + 0) j (by omega)).2
    rw [e1, e2]
    simp [State.evolve]
  | succ n ih =>
    intro i s s' h
    simp only [passLoop, Option.bind_eq_some] at h
    obtain ⟨s1, h1, h2⟩ := h
    obtain ⟨hp, es1, hs1, p1, w1⟩ := passBody_evolve h1
    obtain ⟨hb, es2, hs2, p2, w2⟩ := ih (i + 1) s1 s' h2
    have ho : s1.mOptions = s.mOptions := by rw [hs1]; rfl
    have ht : s1.mpTemporalReservoirs = temporalAfter s i (i + 1) := by rw [hs1]; rfl
    have hout : s1.mpOutputReservoirs = outputAfter s i (i + 1) := by rw [hs1]; rfl
    obtain ⟨a1, a2⟩ := after_step s s1 i n ho ht hout
    have hcong : ∀ k, i + 1 ≤ k → ∀ hk : k < 4,
        s1.mpOutputReservoirs ⟨k, hk⟩ = s.mpOutputReservoirs ⟨k, hk⟩ ∧
        s1.mpTemporalReservoirs ⟨k, hk⟩ = s.mpTemporalReservoirs ⟨k, hk⟩ := by
      intro k hk1 hk
      have := after_outside s i (i + 1) ⟨k, hk⟩ (by simp only; omega)
      rw [ht, hout]
      exact ⟨this.2, this.1⟩
    refine ⟨Or.inr (by omega), es1 ++ es2, ?_, ?_, ?_⟩
    · rw [hs2, a1, a2]
      have e3 : s1.prevEnvMapNumBlockX = s.prevEnvMapNumBlockX := by rw [hs1]; rfl
      have e4 : s1.prevEnvMapNumBlockY = s.prevEnvMapNumBlockY := by rw [hs1]; rfl
      rw [e3, e4, hs1, evolve_evolve]
    · intro e he
      rcases List.mem_append.mp he with he | he
      · exact ⟨i, le_refl _, by omega, p1 e he⟩
      · obtain ⟨k, k1, k2, k3⟩ := p2 e he
        exact ⟨k, by omega, by omega, passEvent_congr (hcong k k1) k3⟩
    · intro k hk k1 k2
      rw [lastWrite_append]
      by_cases hki : k = i
      · subst hki
        have hn : lastWrite es2 k = none := by
          apply lastWrite_eq_none
          intro e he b hw
          obtain ⟨k', k1', -, k3'⟩ := p2 e he
          have := passEvent_write_index k3' hw
          omega
        rw [hn]
        simp only
        rw [w1, ← a2]
        have := after_outside s1 (k + 1) (k + 1 + n) ⟨k, hk⟩ (by simp only; omega)
        rw [this.2, hout]
      · rw [w2 k hk (by omega) (by omega), a2]

theorem resolveBindings_spec (s : State) :
    ∀ (n i : Nat) (l : List (Option Buffer)), resolveBindings s n i = some l →
      l.length = n ∧ ∀ k, k < n → ∃ h : i + k < 4, l[k]? = some (s.mpOutputReservoirs ⟨i + k, h⟩) := by
  intro n
  induction n with
  | zero =>
    intro i l h
    simp only [resolveBindings, Option.some.injEq] at h
    subst h
    exact ⟨rfl, fun k hk => by omega⟩
  | succ n ih =>
    intro i l h
    unfold resolveBindings at h
    by_cases hi : i < 4
    · simp only [hi, dite_true] at h
      cases hr : resolveBindings s n (i + 1) with
      | none => simp [hr] at h
      | some rest =>
        simp only [hr, Option.some.injEq] at h
        subst h
        obtain ⟨hl, hk⟩ := ih (i + 1) rest hr
        refine ⟨by simp [hl], ?_⟩
        intro k hkn
        cases k with
        | zero => exact ⟨hi, by simp⟩
        | succ k =>
          obtain ⟨h', hg⟩ := hk k (by omega)
          have e : i + (k + 1) = i + 1 + k := by omega
          refine ⟨by omega, ?_⟩
          rw [List.getElem?_cons_succ, hg]
          simp only [e]
    · simp [hi] at h

theorem resolve_evolve {s s' : State} (h : resolve s = some s') :
    ∃ pass reservoirs, s.mpResolvePass = some pass ∧
      resolveBindings s s.numPasses.toNat 0 = some reservoirs ∧
      s' = s.emit [.resolve pass reservoirs (frameThreads s)] := by
  unfold resolve at h
  cases hk : s.mpResolvePass with
  | none => simp [hk] at h
  | some pass =>
    rw [hk] at h
    simp only at h
    cases hr : resolveBindings s s.numPasses.toNat 0 with
    | none => simp [hr] at h
    | some reservoirs =>
      simp only [hr] at h
      exact ⟨pass, reservoirs, rfl, rfl, (Option.some.inj h).symm⟩

theorem clearCounters_evolve {s s' : State} (h : clearCounters s = some s') :
    ∃ es, s' = s.emit es ∧ ∀ e ∈ es, e.isPreamble = true ∧ e.isRebuild = false := by
  unfold clearCounters at h
  split at h
  · cases h
    refine ⟨_, rfl, ?_⟩
    intro e he
    simp only [List.mem_cons, List.mem_singleton, List.not_mem_nil, or_false] at he
    rcases he with rfl | rfl | rfl | rfl <;> exact ⟨rfl, rfl⟩
  · exact absurd h (by simp)

theorem traceReceiver_evolve {s s' : State} (h : traceReceiver s = some s') :
    ∃ pass, s.mpTraceReceiverPass = some pass ∧
      s' = s.emit [.traceReceiver pass s.mpCurrentReceiverInfo (frameThreads s)] := by
  unfold traceReceiver at h
  cases hk : s.mpTraceReceiverPass with
  | none => simp [hk] at h
  | some pass =>
    rw [hk] at h
    exact ⟨pass, rfl, (Option.some.inj h).symm⟩

theorem rebuildImportance_evolve {s s' : State} {env : Nat → ℚ}
    (h : rebuildImportance s env = some s') :
    ∃ px py es, s' = s.evolve px py s.mpTemporalReservoirs s.mpOutputReservoirs es ∧
      (∀ e ∈ es, e.isPreamble = true) ∧
      (rebuildNeeded s → px = s.envMapNumBlockX ∧ py = s.envMapNumBlockY ∧
        rebuildDispatches es = 1) ∧
      (¬ rebuildNeeded s → px = s.prevEnvMapNumBlockX ∧ py = s.prevEnvMapNumBlockY ∧
        es = []) := by
  unfold rebuildImportance at h
  by_cases hg : s.prevEnvMapNumBlockX ≠ s.envMapNumBlockX ∨
      s.prevEnvMapNumBlockY ≠ s.envMapNumBlockY
  · rw [if_pos hg] at h
    by_cases hc : (s.mpWriteToEnvBuffer.isSome && s.sceneHasEnvMap) = true
    · rw [if_pos hc] at h
      have hneed : rebuildNeeded s := by
        simp only [Bool.and_eq_true] at hc
        exact ⟨hg, hc.1, hc.2⟩
      cases hk : s.mpWriteToEnvBuffer with
      | none => simp [hk] at hc
      | some pass =>
        cases hb : s.mpEnvMapBlockBuffer with
        | none => simp [writeToEnvBuffer, hk, hb] at h
        | some buf =>
          simp only [writeToEnvBuffer, hk, hb] at h
          have hb' : (s.emit [Event.clearUAV buf 0, Event.writeToEnvBuffer pass buf
              (toU32 s.importanceMapDim.1, toU32 s.importanceMapDim.2, 1)]).mpEnvMapBlockBuffer
              = some buf := hb
          simp only [hb'] at h
          split at h
          · exact absurd h (by simp)
          · rename_i ups _
            cases h
            refine ⟨s.envMapNumBlockX, s.envMapNumBlockY,
              [Event.clearUAV buf 0, Event.writeToEnvBuffer pass buf
                (toU32 s.importanceMapDim.1, toU32 s.importanceMapDim.2, 1)]
              ++ ups.map (fun u => Event.uploadBlock buf u.blockOffset u.data), ?_, ?_, ?_, ?_⟩
            · simp [State.evolve, State.emit, hk, hb, List.append_assoc]
            · intro e he
              simp only [List.mem_append, List.mem_cons, List.mem_singleton, List.not_mem_nil,
                or_false, List.mem_map] at he
              rcases he with (rfl | rfl) | ⟨u, -, rfl⟩ <;> rfl
            · intro _
              refine ⟨rfl, rfl, ?_⟩
              simp [rebuildDispatches, List.countP_append, List.countP_cons, Event.isRebuild,
                List.countP_eq_zero]
            · intro hn
              exact absurd hneed hn
    · rw [if_neg hc] at h
      cases h
      refine ⟨s.prevEnvMapNumBlockX, s.prevEnvMapNumBlockY, [], by simp [State.evolve],
        by simp, ?_, fun _ => ⟨rfl, rfl, rfl⟩⟩
      intro hn
      exfalso
      apply hc
      simp only [Bool.and_eq_true]
      exact ⟨hn.2.1, hn.2.2⟩
  · rw [if_neg hg] at h
    cases h
    refine ⟨s.prevEnvMapNumBlockX, s.prevEnvMapNumBlockY, [], by simp [State.evolve],
      by simp, ?_, fun _ => ⟨rfl, rfl, rfl⟩⟩
    intro hn
    exact absurd hn.1 hg

theorem update_evolve {s s' : State} {env : Nat → ℚ} (h : update s env = some s') :
    ∃ px py es₀ esP pass reservoirs,
      s' = s.evolve px py (temporalAfter s 0 s.numPasses.toNat)
        (outputAfter s 0 s.numPasses.toNat)
        (es₀ ++ esP ++ [.resolve pass reservoirs (frameThreads s)]) ∧
      (∀ e ∈ es₀, e.isPreamble = true) ∧
      (rebuildNeeded s → px = s.envMapNumBlockX ∧ py = s.envMapNumBlockY ∧
        rebuildDispatches es₀ = 1) ∧
      (¬ rebuildNeeded s → px = s.prevEnvMapNumBlockX ∧ py = s.prevEnvMapNumBlockY ∧
        rebuildDispatches es₀ = 0) ∧
      (∀ e ∈ esP, ∃ k, k < s.numPasses.toNat ∧ PassEvent s k e) ∧
      (∀ (k : Nat) (hk : k < 4), k < s.numPasses.toNat →
        lastWrite esP k = some (outputAfter s 0 s.numPasses.toNat ⟨k, hk⟩)) ∧
      s.numPasses.toNat ≤ 4 ∧ s.mpResolvePass = some pass ∧
      reservoirs.length = s.numPasses.toNat ∧
      (∀ k, k < s.numPasses.toNat → ∃ hk : k < 4,
        reservoirs[k]? = some (outputAfter s 0 s.numPasses.toNat ⟨k, hk⟩)) := by
  unfold update at h
  simp only [Option.bind_eq_some] at h
  obtain ⟨s1, h1, s2, h2, s3, h3, s4, h4, h5⟩ := h
  obtain ⟨px, py, es1, hs1, q1, r1, r2⟩ := rebuildImportance_evolve h1
  obtain ⟨es2, hs2, q2⟩ := clearCounters_evolve h2
  obtain ⟨tp, -, hs3⟩ := traceReceiver_evolve h3
  obtain ⟨hb, esP, hs4, p4, w4⟩ := passLoop_evolve _ _ _ _ h4
  obtain ⟨pass, reservoirs, hk5, hr5, hs5⟩ := resolve_evolve h5
  -- the state before the passes
  have e3 : s3 = s.evolve px py s.mpTemporalReservoirs s.mpOutputReservoirs
      (es1 ++ es2 ++ [Event.traceReceiver tp s.mpCurrentReceiverInfo (frameThreads s)]) := by
    rw [hs3, hs2, hs1]
    simp [State.evolve, State.emit, frameThreads, List.append_assoc]
  have n3 : s3.numPasses = s.numPasses := by rw [e3]; rfl
  have o3 : s3.mOptions = s.mOptions := by rw [e3]; rfl
  have t3 : s3.mpTemporalReservoirs = s.mpTemporalReservoirs := by rw [e3]; rfl
  have u3 : s3.mpOutputReservoirs = s.mpOutputReservoirs := by rw [e3]; rfl
  have tA : temporalAfter s3 0 (0 + s3.numPasses.toNat) = temporalAfter s 0 s.numPasses.toNat := by
    funext j
    simp only [temporalAfter, o3, t3, u3, n3, Nat.zero_add]
  have oA : outputAfter s3 0 (0 + s3.numPasses.toNat) = outputAfter s 0 s.numPasses.toNat := by
    funext j
    simp only [outputAfter, o3, t3, u3, n3, Nat.zero_add]
  rw [tA, oA] at hs4
  rw [oA] at w4
  rw [n3] at hb p4 w4
  have e4 : s4 = s.evolve px py (temporalAfter s 0 s.numPasses.toNat)
      (outputAfter s 0 s.numPasses.toNat)
      ((es1 ++ es2 ++ [Event.traceReceiver tp s.mpCurrentReceiverInfo (frameThreads s)])
        ++ esP) := by
    rw [hs4, e3]
    simp [State.evolve, List.append_assoc]
  have n4 : s4.numPasses = s.numPasses := by rw [e4]; rfl
  have u4 : s4.mpOutputReservoirs = outputAfter s 0 s.numPasses.toNat := by rw [e4]; rfl
  have k4 : s4.mpResolvePass = s.mpResolvePass := by rw [e4]; rfl
  rw [n4] at hr5
  obtain ⟨l5, g5⟩ := resolveBindings_spec s4 _ _ _ hr5
  refine ⟨px, py, es1 ++ es2 ++ [Event.traceReceiver tp s.mpCurrentReceiverInfo
    (frameThreads s)], esP, pass, reservoirs, ?_, ?_, ?_, ?_, ?_, ?_, ?_, ?_, l5, ?_⟩
  · rw [hs5, e4]
    simp [State.evolve, State.emit, frameThreads, List.append_assoc]
  · intro e he
    simp only [List.mem_append, List.mem_singleton] at he
    rcases he with (he | he) | rfl
    · exact q1 e he
    · exact (q2 e he).1
    · rfl
  · intro hn
    obtain ⟨a, b, c⟩ := r1 hn
    refine ⟨a, b, ?_⟩
    unfold rebuildDispatches at c ⊢
    rw [List.countP_append, List.countP_append, c]
    have : List.countP Event.isRebuild es2 = 0 := by
      rw [List.countP_eq_zero]
      intro e he
      simp [(q2 e he).2]
    rw [this]
    rfl
  · intro hn
    obtain ⟨a, b, c⟩ := r2 hn
    refine ⟨a, b, ?_⟩
    subst c
    unfold rebuildDispatches
    rw [List.countP_append, List.countP_append]
    have : List.countP Event.isRebuild es2 = 0 := by
      rw [List.countP_eq_zero]
      intro e he
      simp [(q2 e he).2]
    rw [this]
    rfl
  · intro e he
    obtain ⟨k, -, k2, k3⟩ := p4 e he
    refine ⟨k, by omega, passEvent_congr ?_ k3⟩
    intro hk
    rw [t3, u3]
    exact ⟨rfl, rfl⟩
  · intro k hk hkn
    exact w4 k hk (Nat.zero_le _) (by omega)
  · rcases hb with hb | hb
    · rw [hb]
      omega
    · omega
  · rw [← k4]
    exact hk5
  · intro k hk
    obtain ⟨hk4, hg⟩ := g5 k hk
    have hk4' : k < 4 := by omega
    refine ⟨hk4', ?_⟩
    rw [hg, u4]
    simp only [Nat.zero_add]

theorem passEvent_not_rebuild {s : State} {k : Nat} {e : Event} (h : PassEvent s k e) :
    e.isRebuild = false := by
  cases e <;> first | rfl | exact absurd h (by simp [PassEvent])

theorem update_rebuild {s s' : State} {env : Nat → ℚ} (h : update s env = some s') :
    ∃ es, s'.log = s.log ++ es ∧
      s'.envMapNumBlockX = s.envMapNumBlockX ∧ s'.envMapNumBlockY = s.envMapNumBlockY ∧
      (rebuildNeeded s → rebuildDispatches es = 1 ∧
        s'.prevEnvMapNumBlockX = s.envMapNumBlockX ∧
        s'.prevEnvMapNumBlockY = s.envMapNumBlockY) ∧
      (¬ rebuildNeeded s → rebuildDispatches es = 0 ∧
        s'.prevEnvMapNumBlockX = s.prevEnvMapNumBlockX ∧
        s'.prevEnvMapNumBlockY = s.prevEnvMapNumBlockY) := by
  obtain ⟨px, py, es₀, esP, pass, reservoirs, hs, -, r1, r2, p, -⟩ := update_evolve h
  have hP : List.countP Event.isRebuild esP = 0 := by
    rw [List.countP_eq_zero]
    intro e he
    obtain ⟨k, -, hk⟩ := p e he
    simp [passEvent_not_rebuild hk]
  have hc : rebuildDispatches (es₀ ++ esP ++ [Event.resolve pass reservoirs (frameThreads s)])
      = rebuildDispatches es₀ := by
    unfold rebuildDispatches
    rw [List.countP_append, List.countP_append, hP]
    rfl
  refine ⟨_, by rw [hs]; rfl, by rw [hs]; rfl, by rw [hs]; rfl, ?_, ?_⟩
  · intro hn
    obtain ⟨a, b, c⟩ := r1 hn
    exact ⟨hc.trans c, by rw [hs]; exact a, by rw [hs]; exact b⟩
  · intro hn
    obtain ⟨a, b, c⟩ := r2 hn
    exact ⟨hc.trans c, by rw [hs]; exact a, by rw [hs]; exact b⟩

theorem updates_no_rebuild :
    ∀ (envs : List (Nat → ℚ)) (s s' : State),
      s.prevEnvMapNumBlockX = s.envMapNumBlockX → s.prevEnvMapNumBlockY = s.envMapNumBlockY →
      updates envs s = some s' →
      ∃ es, s'.log = s.log ++ es ∧ rebuildDispatches es = 0 := by
  intro envs
  induction envs with
  | nil =>
    intro s s' _ _ h
    simp only [updates, Option.some.injEq] at h
    subst h
    exact ⟨[], by simp, rfl⟩
  | cons env envs ih =>
    intro s s' hx hy h
    simp only [updates, Option.bind_eq_some] at h
    obtain ⟨s1, h1, h2⟩ := h
    obtain ⟨es1, l1, x1, y1, -, r⟩ := update_rebuild h1
    have hn : ¬ rebuildNeeded s := by
      intro hc
      rcases hc.1 with hc | hc
      · exact hc hx
      · exact hc hy
    obtain ⟨c1, px1, py1⟩ := r hn
    obtain ⟨es2, l2, c2⟩ := ih s1 s' (by rw [px1, x1, hx]) (by rw [py1, y1, hy]) h2
    refine ⟨es1 ++ es2, by rw [l2, l1, List.append_assoc], ?_⟩
    unfold rebuildDispatches at c1 c2 ⊢
    rw [List.countP_append, c1, c2]

/-- C12 (as stated, refuted).  In a scene without environment map the configured grid
8 x 8 differs from the last-built grid 0 x 0, yet `update` issues no rebuild dispatch
and does not record the grid as last built. -/
theorem update_no_rebuild_without_envmap :
    secondFrameState.prevEnvMapNumBlockX ≠ secondFrameState.envMapNumBlockX ∧
    ∃ s' es, update secondFrameState (fun _ => 0) = some s' ∧
      s'.log = secondFrameState.log ++ es ∧ rebuildDispatches es = 0 ∧
      s'.prevEnvMapNumBlockX = 0 ∧ s'.envMapNumBlockX = 8 := by
  have h : update secondFrameState (fun _ => 0)
      = some ((update secondFrameState (fun _ => 0)).getD secondFrameState) := rfl
  obtain ⟨es, l, x, -, -, r⟩ := update_rebuild h
  have hn : ¬ rebuildNeeded secondFrameState := by
    unfold rebuildNeeded
    decide
  obtain ⟨c, px, -⟩ := r hn
  exact ⟨by decide, _, es, h, l, c, px, x⟩

/-- C12 (amended).  In one call of `update` that returns, the importance-field rebuild is
dispatched exactly once when the configured block grid differs from the last-built
grid and moreover the `writeToEnvBuffer` kernel exists and the scene has an environment
map; the grid is then recorded as last built, and no rebuild is dispatched in any run
of `update` calls that follows.  Otherwise no rebuild is dispatched and the last-built
grid stays as it was.  When the grid is unchanged at the start, neither this call nor
any run of calls that follows dispatches a rebuild.  `update` never changes the
configured grid. -/
theorem update_rebuild_when_grid_changed (s s' s'' : State) (env : Nat → ℚ)
    (envs : List (Nat → ℚ)) (h : update s env = some s') (h' : updates envs s' = some s'') :
    ∃ es es', s'.log = s.log ++ es ∧ s''.log = s'.log ++ es' ∧
      s'.envMapNumBlockX = s.envMapNumBlockX ∧ s'.envMapNumBlockY = s.envMapNumBlockY ∧
      (rebuildNeeded s → rebuildDispatches es = 1 ∧
        s'.prevEnvMapNumBlockX = s.envMapNumBlockX ∧
        s'.prevEnvMapNumBlockY = s.envMapNumBlockY ∧ rebuildDispatches es' = 0) ∧
      (¬ rebuildNeeded s → rebuildDispatches es = 0 ∧
        s'.prevEnvMapNumBlockX = s.prevEnvMapNumBlockX ∧
        s'.prevEnvMapNumBlockY = s.prevEnvMapNumBlockY) ∧
      (s.prevEnvMapNumBlockX = s.envMapNumBlockX ∧
        s.prevEnvMapNumBlockY = s.envMapNumBlockY →
        rebuildDispatches es = 0 ∧ rebuildDispatches es' = 0) := by
  obtain ⟨es, l, x, y, r1, r2⟩ := update_rebuild h
  have hex : ∃ es', s''.log = s'.log ++ es' ∧
      (s'.prevEnvMapNumBlockX = s'.envMapNumBlockX →
        s'.prevEnvMapNumBlockY = s'.envMapNumBlockY → rebuildDispatches es' = 0) := by
    by_cases hc : s'.prevEnvMapNumBlockX = s'.envMapNumBlockX ∧
        s'.prevEnvMapNumBlockY = s'.envMapNumBlockY
    · obtain ⟨es', l', c'⟩ := updates_no_rebuild envs s' s'' hc.1 hc.2 h'
      exact ⟨es', l', fun _ _ => c'⟩
    · have hlog : ∀ (envs : List (Nat → ℚ)) (a b : State), updates envs a = some b →
          ∃ es', b.log = a.log ++ es' := by
        intro envs
        induction envs with
        | nil =>
          intro a b hab
          simp only [updates, Option.some.injEq] at hab
          subst hab
          exact ⟨[], by simp⟩
        | cons e envs ih =>
          intro a b hab
          simp only [updates, Option.bind_eq_some] at hab
          obtain ⟨c, hc1, hc2⟩ := hab
          obtain ⟨e1, l1, -⟩ := update_rebuild hc1
          obtain ⟨e2, l2⟩ := ih c b hc2
          exact ⟨e1 ++ e2, by rw [l2, l1, List.append_assoc]⟩
      obtain ⟨es', l'⟩ := hlog envs s' s'' h'
      exact ⟨es', l', fun a b => absurd ⟨a, b⟩ hc⟩
  obtain ⟨es', l', c'⟩ := hex
  refine ⟨es, es', l, l', x, y, ?_, r2, ?_⟩
  · intro hn
    obtain ⟨a, b, c⟩ := r1 hn
    exact ⟨a, b, c, c' (by rw [b, x]) (by rw [c, y])⟩
  · intro hg
    have hn : ¬ rebuildNeeded s := by
      intro hc
      rcases hc.1 with hc | hc
      · exact hc hg.1
      · exact hc hg.2
    obtain ⟨a, b, c⟩ := r2 hn
    exact ⟨a, c' (by rw [b, x, hg.1]) (by rw [c, y, hg.2])⟩

/-- C16.  `resolve` binds exactly `numPasses` reservoir inputs, slot `k` being the buffer
in the output role of pass `k` at that moment, in ascending pass order, and no slot
beyond; within `update` that buffer is the write target of the last resampling stage
(initial, temporal or spatial) that was dispatched for pass `k` in this call. -/
theorem resolve_binds_outputs_in_order (s s' : State) (env : Nat → ℚ)
    (h : update s env = some s') :
    (∀ r r' : State, resolve r = some r' →
      ∃ pass reservoirs, r' = r.emit [.resolve pass reservoirs (frameThreads r)] ∧
        reservoirs.length = r.numPasses.toNat ∧
        ∀ k, k < r.numPasses.toNat → ∃ hk : k < 4,
          reservoirs[k]? = some (r.mpOutputReservoirs ⟨k, hk⟩)) ∧
    ∃ es pass reservoirs,
      s'.log = s.log ++ es ++ [.resolve pass reservoirs (frameThreads s)] ∧
      reservoirs.length = s.numPasses.toNat ∧
      ∀ k, k < s.numPasses.toNat → ∃ hk : k < 4,
        reservoirs[k]? = some (s'.mpOutputReservoirs ⟨k, hk⟩) ∧
        lastWrite es k = some (s'.mpOutputReservoirs ⟨k, hk⟩) := by
  constructor
  · intro r r' hr
    obtain ⟨pass, reservoirs, -, hb, hs⟩ := resolve_evolve hr
    obtain ⟨hl, hk⟩ := resolveBindings_spec r _ _ _ hb
    refine ⟨pass, reservoirs, hs, hl, fun k hlt => ?_⟩
    obtain ⟨h4, hv⟩ := hk k hlt
    have h4' : k < 4 := by omega
    refine ⟨h4', ?_⟩
    rw [hv]
    simp
  · obtain ⟨px, py, es₀, esP, pass, reservoirs, hs, -, -, -, -, hw, -, -, hl, hr⟩ :=
      update_evolve h
    refine ⟨es₀ ++ esP, pass, reservoirs, ?_, hl, fun k hlt => ?_⟩
    · rw [hs]
      simp [State.evolve]
    · obtain ⟨hk, hv⟩ := hr k hlt
      refine ⟨hk, ?_, ?_⟩
      · rw [hv, hs]
        rfl
      · rw [lastWrite_append, hw k hk hlt, hs]
        rfl

theorem resolve_binds_outputs_in_order_witness :
    update secondFrameState (fun _ => 0) = some secondFrameUpdated ∧
    (∀ r r' : State, resolve r = some r' →
      ∃ pass reservoirs, r' = r.emit [.resolve pass reservoirs (frameThreads r)] ∧
        reservoirs.length = r.numPasses.toNat ∧
        ∀ k, k < r.numPasses.toNat → ∃ hk : k < 4,
          reservoirs[k]? = some (r.mpOutputReservoirs ⟨k, hk⟩)) ∧
    ∃ es pass reservoirs,
      secondFrameUpdated.log
        = secondFrameState.log ++ es ++ [.resolve pass reservoirs (frameThreads secondFrameState)] ∧
      reservoirs.length = secondFrameState.numPasses.toNat ∧
      ∀ k, k < secondFrameState.numPasses.toNat → ∃ hk : k < 4,
        reservoirs[k]? = some (secondFrameUpdated.mpOutputReservoirs ⟨k, hk⟩) ∧
        lastWrite es k = some (secondFrameUpdated.mpOutputReservoirs ⟨k, hk⟩) :=
  ⟨rfl, resolve_binds_outputs_in_order secondFrameState _ (fun _ => 0) rfl⟩

theorem runSteps_rel {R : State → State → Prop} (hrefl : ∀ s, R s s)
    (htrans : ∀ a b c, R a b → R b c → R a c) :
    ∀ (fs : List (State → State)), (∀ f ∈ fs, ∀ s, R s (f s)) → ∀ s, R s (runSteps fs s) := by
  intro fs
  induction fs with
  | nil => intro _ s; exact hrefl s
  | cons f fs ih =>
    intro h s
    exact htrans _ _ _ (h f (List.mem_cons_self _ _) s)
      (ih (fun g hg => h g (List.mem_cons_of_mem _ hg)) (f s))

theorem runSteps_inv {I : State → Prop} (fs : List (State → State))
    (h : ∀ f ∈ fs, ∀ s, I s → I (f s)) (s : State) (hs : I s) : I (runSteps fs s) :=
  runSteps_rel (R := fun a b => I a → I b) (fun _ h => h) (fun _ _ _ h₁ h₂ h => h₂ (h₁ h))
    fs h s hs

theorem updatePrograms_eq_steps (s : State) (hr : s.mRecompile = true) :
    updatePrograms s = runSteps kernelSteps s := by
  unfold updatePrograms
  rw [if_neg (by simp [hr])]
  rfl

theorem prepareResources_eq_steps (s : State) (frameDim screenTiles : Nat × Nat)
    (hr : s.mpReflectTypes.isSome = true) :
    prepareResources s frameDim screenTiles
      = some (runSteps (bufferSteps (elementCountOf screenTiles)) s) := by
  unfold prepareResources
  cases hp : s.mpReflectTypes with
  | none => simp [hp] at hr
  | some p =>
    have hl : List.finRange 4 = [0, 1, 2, 3] := by decide
    simp only [hl]
    rfl

theorem SameKernels.kernelsRefl (s : State) : SameKernels s s :=
  ⟨rfl, rfl, rfl, List.prefix_refl _, rfl⟩

theorem SameKernels.kernelsTrans {a b c : State} (h₁ : SameKernels a b) (h₂ : SameKernels b c) :
    SameKernels a c :=
  ⟨h₂.1.trans h₁.1, h₂.2.1.trans h₁.2.1, h₂.2.2.1.trans h₁.2.2.1,
    h₁.2.2.2.1.trans h₂.2.2.2.1, h₂.2.2.2.2.trans h₁.2.2.2.2⟩

theorem SameKernels.creations {s s' : State} (h : SameKernels s s') :
    ∃ es, s'.log = s.log ++ es ∧ kernelCreations es = 0 := by
  obtain ⟨es, he⟩ := h.2.2.2.1
  refine ⟨es, he.symm, ?_⟩
  have hc := h.2.2.2.2
  rw [← he] at hc
  unfold kernelCreations at hc ⊢
  rw [List.countP_append] at hc
  omega

theorem BufferStep.stepRefl (s : State) : BufferStep s s :=
  ⟨SameKernels.kernelsRefl s, le_refl _, fun h => h, fun _ h => h, fun _ h => h⟩

theorem BufferStep.stepTrans {a b c : State} (h₁ : BufferStep a b) (h₂ : BufferStep b c) :
    BufferStep a c :=
  ⟨h₁.1.kernelsTrans h₂.1, le_trans h₁.2.1 h₂.2.1, fun h => h₂.2.2.1 (h₁.2.2.1 h),
    fun j h => h₂.2.2.2.1 j (h₁.2.2.2.1 j h), fun j h => h₂.2.2.2.2 j (h₁.2.2.2.2 j h)⟩

/-- A step that leaves the kernels, the options, the flag and both reservoir arrays
alone, does not decrease the allocation counter and logs no kernel creation. -/
theorem bufferStep_of_same {s s' : State} (hk : SameKernels s s') (hn : s.nextId ≤ s'.nextId)
    (ho : s'.mpOutputReservoirs = s.mpOutputReservoirs)
    (ht : s'.mpTemporalReservoirs = s.mpTemporalReservoirs) : BufferStep s s' := by
  refine ⟨hk, hn, ?_, ?_, ?_⟩
  · intro hd i
    obtain ⟨d1, d2, d3⟩ := hd i
    rw [ho, ht]
    exact ⟨fun b hb => lt_of_lt_of_le (d1 b hb) hn, fun b hb => lt_of_lt_of_le (d2 b hb) hn, d3⟩
  · intro j h
    rw [ho]
    exact h
  · intro j h
    rw [ht]
    exact h

theorem sameKernels_create (s : State) (ec : Nat) :
    SameKernels s (createStructuredBuffer s ec).2 :=
  ⟨rfl, rfl, rfl, List.prefix_append _ _, by
    simp [createStructuredBuffer, kernelCreations, List.countP_append, Event.isCreatePass]⟩

theorem ensureOutputReservoirs_step (ec : Nat) (i : Fin 4) (s : State) :
    BufferStep s (ensureOutputReservoirs ec i s) ∧
    ((ensureOutputReservoirs ec i s).mpOutputReservoirs i).isSome = true := by
  unfold ensureOutputReservoirs
  by_cases h : needsBuffer (s.mpOutputReservoirs i) ec = true
  · rw [if_pos h]
    refine ⟨⟨sameKernels_create s ec, Nat.le_succ _, ?_, ?_, ?_⟩, ?_⟩
    · intro hd j
      obtain ⟨d1, d2, d3⟩ := hd j
      by_cases hj : j = i
      · subst hj
        simp only [createStructuredBuffer, Function.update_same, Option.some.injEq]
        refine ⟨?_, ?_, ?_⟩
        · intro b hb
          subst hb
          exact Nat.lt_succ_self _
        · intro b hb
          exact Nat.lt_succ_of_lt (d2 b hb)
        · intro b b' hb hb'
          subst hb
          exact Nat.ne_of_gt (d2 b' hb')
      · simp only [createStructuredBuffer, Function.update_noteq hj]
        exact ⟨fun b hb => Nat.lt_succ_of_lt (d1 b hb),
          fun b hb => Nat.lt_succ_of_lt (d2 b hb), d3⟩
    · intro j hs
      by_cases hj : j = i
      · subst hj
        simp [createStructuredBuffer]
      · simpa [createStructuredBuffer, Function.update_noteq hj] using hs
    · intro j hs
      exact hs
    · simp [createStructuredBuffer]
  · rw [if_neg h]
    refine ⟨BufferStep.stepRefl s, ?_⟩
    cases ho : s.mpOutputReservoirs i with
    | none => simp [needsBuffer, ho] at h
    | some b => rfl

theorem ensureTemporalReservoirs_step (ec : Nat) (i : Fin 4) (s : State) :
    BufferStep s (ensureTemporalReservoirs ec i s) ∧
    ((ensureTemporalReservoirs ec i s).mpTemporalReservoirs i).isSome = true := by
  unfold ensureTemporalReservoirs
  by_cases h : needsBuffer (s.mpTemporalReservoirs i) ec = true
  · rw [if_pos h]
    refine ⟨⟨sameKernels_create s ec, Nat.le_succ _, ?_, ?_, ?_⟩, ?_⟩
    · intro hd j
      obtain ⟨d1, d2, d3⟩ := hd j
      by_cases hj : j = i
      · subst hj
        simp only [createStructuredBuffer, Function.update_same, Option.some.injEq]
        refine ⟨?_, ?_, ?_⟩
        · intro b hb
          exact Nat.lt_succ_of_lt (d1 b hb)
        · intro b hb
          subst hb
          exact Nat.lt_succ_self _
        · intro b b' hb hb'
          subst hb'
          exact Nat.ne_of_lt (d1 b hb)
      · simp only [createStructuredBuffer, Function.update_noteq hj]
        exact ⟨fun b hb => Nat.lt_succ_of_lt (d1 b hb),
          fun b hb => Nat.lt_succ_of_lt (d2 b hb), d3⟩
    · intro j hs
      exact hs
    · intro j hs
      by_cases hj : j = i
      · subst hj
        simp [createStructuredBuffer]
      · simpa [createStructuredBuffer, Function.update_noteq hj] using hs
    · simp [createStructuredBuffer]
  · rw [if_neg h]
    refine ⟨BufferStep.stepRefl s, ?_⟩
    cases ho : s.mpTemporalReservoirs i with
    | none => simp [needsBuffer, ho] at h
    | some b => rfl

theorem sameKernels_texture (s : State) (w h : Nat) :
    SameKernels s (createTexture2D s w h).2 :=
  ⟨rfl, rfl, rfl, List.prefix_append _ _, by
    simp [createTexture2D, kernelCreations, List.countP_append, Event.isCreatePass]⟩

theorem ensureSolutionTiles_step (ec : Nat) (i : Fin 4) (s : State) :
    BufferStep s (ensureSolutionTiles ec i s) := by
  unfold ensureSolutionTiles
  split_ifs
  · exact bufferStep_of_same (sameKernels_create s _) (Nat.le_succ _) rfl rfl
  · exact BufferStep.stepRefl s

theorem ensureDebugOutputTexture_step (s : State) : BufferStep s (ensureDebugOutputTexture s) := by
  unfold ensureDebugOutputTexture
  split_ifs
  · exact bufferStep_of_same (sameKernels_texture s _ _) (Nat.le_succ _) rfl rfl
  · exact BufferStep.stepRefl s

theorem ensureFinalThp_step (s : State) : BufferStep s (ensureFinalThp s) := by
  unfold ensureFinalThp
  split_ifs
  · exact bufferStep_of_same (sameKernels_texture s _ _) (Nat.le_succ _) rfl rfl
  · exact BufferStep.stepRefl s

theorem ensureCurrentReceiverInfo_step (ec : Nat) (s : State) :
    BufferStep s (ensureCurrentReceiverInfo ec s) := by
  unfold ensureCurrentReceiverInfo
  split_ifs
  · exact bufferStep_of_same (sameKernels_create s _) (Nat.le_succ _) rfl rfl
  · exact BufferStep.stepRefl s

theorem ensureEnvMapBlockBuffer_step (s : State) : BufferStep s (ensureEnvMapBlockBuffer s) := by
  unfold ensureEnvMapBlockBuffer
  split_ifs
  · exact bufferStep_of_same (sameKernels_create s _) (Nat.le_succ _) rfl rfl
  · exact BufferStep.stepRefl s

theorem ensureCounters_step (ec : Nat) (s : State) : BufferStep s (ensureCounters ec s) := by
  have c1 : ∀ t : State, BufferStep t (if needsBuffer t.mpPriorCounters 10 then
      { (createStructuredBuffer t ec).2 with
        mpPriorCounters := some (createStructuredBuffer t ec).1 } else t) := by
    intro t
    split_ifs
    · exact bufferStep_of_same (sameKernels_create t _) (Nat.le_succ _) rfl rfl
    · exact BufferStep.stepRefl t
  have c2 : ∀ t : State, BufferStep t (if needsBuffer t.mpInitialCounters 10 then
      { (createStructuredBuffer t ec).2 with
        mpInitialCounters := some (createStructuredBuffer t ec).1 } else t) := by
    intro t
    split_ifs
    · exact bufferStep_of_same (sameKernels_create t _) (Nat.le_succ _) rfl rfl
    · exact BufferStep.stepRefl t
  have c3 : ∀ t : State, BufferStep t (if needsBuffer t.mpTemporalCounters 10 then
      { (createStructuredBuffer t ec).2 with
        mpTemporalCounters := some (createStructuredBuffer t ec).1 } else t) := by
    intro t
    split_ifs
    · exact bufferStep_of_same (sameKernels_create t _) (Nat.le_succ _) rfl rfl
    · exact BufferStep.stepRefl t
  have c4 : ∀ t : State, BufferStep t (if needsBuffer t.mpSpatialCounters 10 then
      { (createStructuredBuffer t ec).2 with
        mpSpatialCounters := some (createStructuredBuffer t ec).1 } else t) := by
    intro t
    split_ifs
    · exact bufferStep_of_same (sameKernels_create t _) (Nat.le_succ _) rfl rfl
    · exact BufferStep.stepRefl t
  exact (((c1 s).stepTrans (c2 _)).stepTrans (c3 _)).stepTrans (c4 _)

theorem bufferSteps_step (ec : Nat) : ∀ f ∈ bufferSteps ec, ∀ s, BufferStep s (f s) := by
  intro f hf s
  simp only [bufferSteps, List.mem_cons, List.mem_singleton, List.not_mem_nil, or_false] at hf
  rcases hf with rfl | rfl | rfl | rfl | rfl | rfl | rfl | rfl | rfl | rfl | rfl | rfl | rfl |
    rfl | rfl | rfl | rfl
  · exact (ensureOutputReservoirs_step ec 0 s).1
  · exact (ensureTemporalReservoirs_step ec 0 s).1
  · exact ensureSolutionTiles_step ec 0 s
  · exact (ensureOutputReservoirs_step ec 1 s).1
  · exact (ensureTemporalReservoirs_step ec 1 s).1
  · exact ensureSolutionTiles_step ec 1 s
  · exact (ensureOutputReservoirs_step ec 2 s).1
  · exact (ensureTemporalReservoirs_step ec 2 s).1
  · exact ensureSolutionTiles_step ec 2 s
  · exact (ensureOutputReservoirs_step ec 3 s).1
  · exact (ensureTemporalReservoirs_step ec 3 s).1
  · exact ensureSolutionTiles_step ec 3 s
  · exact ensureDebugOutputTexture_step s
  · exact ensureFinalThp_step s
  · exact ensureCurrentReceiverInfo_step ec s
  · exact ensureCounters_step ec s
  · exact ensureEnvMapBlockBuffer_step s

theorem runSteps_append (pre post : List (State → State)) (s : State) :
    runSteps (pre ++ post) s = runSteps post (runSteps pre s) := by
  unfold runSteps
  rw [List.foldl_append]

theorem prepareResources_step {s s' : State} {frameDim screenTiles : Nat × Nat}
    (h : prepareResources s frameDim screenTiles = some s') :
    BufferStep s s' ∧ reservoirsAllocated s' := by
  rw [prepareResources_eq_steps s frameDim screenTiles (prepareResources_isSome h)] at h
  simp only [Option.some.injEq] at h
  subst h
  generalize elementCountOf screenTiles = ec
  refine ⟨runSteps_rel BufferStep.stepRefl (fun _ _ _ => BufferStep.stepTrans) _
    (bufferSteps_step ec) s, ?_⟩
  have key : ∀ (pre post : List (State → State)) (f : State → State) (P : State → Prop),
      (∀ t, P (f t)) → (∀ g ∈ post, ∀ t, BufferStep t (g t)) →
      (∀ a b, BufferStep a b → P a → P b) → P (runSteps (pre ++ f :: post) s) := by
    intro pre post f P hf hpost hP
    rw [runSteps_append]
    show P (runSteps post (f (runSteps pre s)))
    exact hP _ _ (runSteps_rel BufferStep.stepRefl (fun _ _ _ => BufferStep.stepTrans) post
      hpost _) (hf _)
  have sub : ∀ (pre post : List (State → State)) (f : State → State),
      bufferSteps ec = pre ++ f :: post → ∀ g ∈ post, ∀ t, BufferStep t (g t) := by
    intro pre post f he g hg
    exact bufferSteps_step ec g (by rw [he]; simp [hg])
  intro j
  constructor
  · fin_cases j
    · exact key [] _ (ensureOutputReservoirs ec 0)
        (fun t => (t.mpOutputReservoirs 0).isSome = true)
        (fun t => (ensureOutputReservoirs_step ec 0 t).2) (sub [] _ _ rfl)
        (fun a b hab => hab.2.2.2.1 0)
    · exact key (List.take 3 (bufferSteps ec)) _ (ensureOutputReservoirs ec 1)
        (fun t => (t.mpOutputReservoirs 1).isSome = true)
        (fun t => (ensureOutputReservoirs_step ec 1 t).2)
        (sub (List.take 3 (bufferSteps ec)) _ _ rfl) (fun a b hab => hab.2.2.2.1 1)
    · exact key (List.take 6 (bufferSteps ec)) _ (ensureOutputReservoirs ec 2)
        (fun t => (t.mpOutputReservoirs 2).isSome = true)
        (fun t => (ensureOutputReservoirs_step ec 2 t).2)
        (sub (List.take 6 (bufferSteps ec)) _ _ rfl) (fun a b hab => hab.2.2.2.1 2)
    · exact key (List.take 9 (bufferSteps ec)) _ (ensureOutputReservoirs ec 3)
        (fun t => (t.mpOutputReservoirs 3).isSome = true)
        (fun t => (ensureOutputReservoirs_step ec 3 t).2)
        (sub (List.take 9 (bufferSteps ec)) _ _ rfl) (fun a b hab => hab.2.2.2.1 3)
  · fin_cases j
    · exact key (List.take 1 (bufferSteps ec)) _ (ensureTemporalReservoirs ec 0)
        (fun t => (t.mpTemporalReservoirs 0).isSome = true)
        (fun t => (ensureTemporalReservoirs_step ec 0 t).2)
        (sub (List.take 1 (bufferSteps ec)) _ _ rfl) (fun a b hab => hab.2.2.2.2 0)
    · exact key (List.take 4 (bufferSteps ec)) _ (ensureTemporalReservoirs ec 1)
        (fun t => (t.mpTemporalReservoirs 1).isSome = true)
        (fun t => (ensureTemporalReservoirs_step ec 1 t).2)
        (sub (List.take 4 (bufferSteps ec)) _ _ rfl) (fun a b hab => hab.2.2.2.2 1)
    · exact key (List.take 7 (bufferSteps ec)) _ (ensureTemporalReservoirs ec 2)
        (fun t => (t.mpTemporalReservoirs 2).isSome = true)
        (fun t => (ensureTemporalReservoirs_step ec 2 t).2)
        (sub (List.take 7 (bufferSteps ec)) _ _ rfl) (fun a b hab => hab.2.2.2.2 2)
    · exact key (List.take 10 (bufferSteps ec)) _ (ensureTemporalReservoirs ec 3)
        (fun t => (t.mpTemporalReservoirs 3).isSome = true)
        (fun t => (ensureTemporalReservoirs_step ec 3 t).2)
        (sub (List.take 10 (bufferSteps ec)) _ _ rfl) (fun a b hab => hab.2.2.2.2 3)

theorem KernelStep.kstepRefl (s : State) : KernelStep s s := by
  simp [KernelStep]

theorem KernelStep.kstepTrans {a b c : State} (h₁ : KernelStep a b) (h₂ : KernelStep b c) :
    KernelStep a c := by
  obtain ⟨a1, a2, a3, a4, a5, a6, a7, a8, a9, a10, a11, a12⟩ := h₁
  obtain ⟨b1, b2, b3, b4, b5, b6, b7, b8, b9, b10, b11, b12⟩ := h₂
  exact ⟨le_trans a1 b1, b2.trans a2, b3.trans a3, b4.trans a4, fun h => b5 (a5 h),
    fun h => b6 (a6 h), fun h => b7 (a7 h), fun h => b8 (a8 h), fun h => b9 (a9 h),
    fun h => b10 (a10 h), fun h => b11 (a11 h), fun h => b12 (a12 h)⟩

theorem kernelSteps_step : ∀ f ∈ kernelSteps, ∀ s, KernelStep s (f s) := by
  intro f hf s
  simp only [kernelSteps, List.mem_cons, List.mem_singleton, List.not_mem_nil, or_false] at hf
  rcases hf with rfl | rfl | rfl | rfl | rfl | rfl | rfl | rfl | rfl | rfl
  · simp [KernelStep]
  · unfold ensureReflectTypes
    split_ifs <;> simp [KernelStep, createPass]
  · unfold ensureTraceReceiverPass
    split_ifs <;> simp [KernelStep, createPass]
  · unfold ensureBuildPriorPass
    split_ifs <;> simp [KernelStep, createPass]
  · unfold ensureInitialSamplingPass
    split_ifs <;> simp [KernelStep, createPass]
  · unfold ensureTemporalResamplingPass
    split_ifs <;> simp [KernelStep, createPass]
  · unfold ensureSpatialResamplingPass
    split_ifs <;> simp [KernelStep, createPass]
  · unfold ensureResolvePass
    split_ifs <;> simp [KernelStep, createPass]
  · unfold ensureWriteToEnvBuffer
    split_ifs <;> simp [KernelStep, createPass]
  · simp [KernelStep]

theorem isSome_of_not_isNone {α : Type} (o : Option α) (h : ¬ o.isNone = true) :
    o.isSome = true := by
  cases o with
  | none => simp at h
  | some _ => rfl

theorem updatePrograms_step (s : State) :
    KernelStep s (updatePrograms s) ∧ (updatePrograms s).mRecompile = false ∧
    (s.mRecompile = true → kernelsBuilt (updatePrograms s)) := by
  by_cases hr : s.mRecompile = true
  · rw [updatePrograms_eq_steps s hr]
    have all := runSteps_rel KernelStep.kstepRefl (fun _ _ _ => KernelStep.kstepTrans)
    refine ⟨all _ kernelSteps_step s, ?_, fun _ => ?_⟩
    · rfl
    · have key : ∀ (pre post : List (State → State)) (f : State → State) (P : State → Prop),
          kernelSteps = pre ++ f :: post →
          (∀ t, P (f t)) → (∀ a b, KernelStep a b → P a → P b) → P (runSteps kernelSteps s) := by
        intro pre post f P he hf hP
        rw [he, runSteps_append]
        show P (runSteps post (f (runSteps pre s)))
        refine hP _ _ (all post (fun g hg => kernelSteps_step g ?_) _) (hf _)
        rw [he]
        simp [hg]
      refine ⟨?_, ?_, ?_, ?_, ?_, ?_, ?_, ?_⟩
      · refine key (List.take 1 kernelSteps) _ ensureReflectTypes
          (fun t => t.mpReflectTypes.isSome = true) rfl ?_ (fun a b h => h.2.2.2.2.1)
        intro t
        unfold ensureReflectTypes
        split_ifs with h
        · rfl
        · exact isSome_of_not_isNone _ h
      · refine key (List.take 2 kernelSteps) _ ensureTraceReceiverPass
          (fun t => t.mpTraceReceiverPass.isSome = true) rfl ?_ (fun a b h => h.2.2.2.2.2.1)
        intro t
        unfold ensureTraceReceiverPass
        split_ifs with h
        · rfl
        · exact isSome_of_not_isNone _ h
      · refine key (List.take 3 kernelSteps) _ ensureBuildPriorPass
          (fun t => t.mpBuildPriorPass.isSome = true) rfl ?_ (fun a b h => h.2.2.2.2.2.2.1)
        intro t
        unfold ensureBuildPriorPass
        split_ifs with h
        · rfl
        · exact isSome_of_not_isNone _ h
      · refine key (List.take 4 kernelSteps) _ ensureInitialSamplingPass
          (fun t => t.mpInitialSamplingPass.isSome = true) rfl ?_
          (fun a b h => h.2.2.2.2.2.2.2.1)
        intro t
        unfold ensureInitialSamplingPass
        split_ifs with h
        · rfl
        · exact isSome_of_not_isNone _ h
      · refine key (List.take 7 kernelSteps) _ ensureResolvePass
          (fun t => t.mpResolvePass.isSome = true) rfl ?_
          (fun a b h => h.2.2.2.2.2.2.2.2.2.2.1)
        intro t
        unfold ensureResolvePass
        split_ifs with h
        · rfl
        · exact isSome_of_not_isNone _ h
      · refine key (List.take 8 kernelSteps) _ ensureWriteToEnvBuffer
          (fun t => t.mpWriteToEnvBuffer.isSome = true) rfl ?_
          (fun a b h => h.2.2.2.2.2.2.2.2.2.2.2)
        intro t
        unfold ensureWriteToEnvBuffer
        split_ifs with h
        · rfl
        · exact isSome_of_not_isNone _ h
      · refine key (List.take 5 kernelSteps) _ ensureTemporalResamplingPass
          (fun t => t.mOptions.useTemporalResampling = true →
            t.mpTemporalResamplingPass.isSome = true) rfl ?_
          (fun a b h hp hb => h.2.2.2.2.2.2.2.2.1 (hp (h.2.1 ▸ hb)))
        intro t
        unfold ensureTemporalResamplingPass
        split_ifs with h
        · intro _
          rfl
        · intro hu
          simp only [Bool.and_eq_true, not_and] at h
          exact isSome_of_not_isNone _ (fun hn => h hn hu)
      · refine key (List.take 6 kernelSteps) _ ensureSpatialResamplingPass
          (fun t => t.mOptions.useSpatialResampling = true →
            t.mpSpatialResamplingPass.isSome = true) rfl ?_
          (fun a b h hp hb => h.2.2.2.2.2.2.2.2.2.1 (hp (h.2.1 ▸ hb)))
        intro t
        unfold ensureSpatialResamplingPass
        split_ifs with h
        · intro _
          rfl
        · intro hu
          simp only [Bool.and_eq_true, not_and] at h
          exact isSome_of_not_isNone _ (fun hn => h hn hu)
  · have hu : updatePrograms s = s := by
      unfold updatePrograms
      simp [hr]
    rw [hu]
    exact ⟨KernelStep.kstepRefl s, by simpa using hr, fun h => absurd h hr⟩

theorem updatePrograms_built (s : State) (hb : kernelsBuilt s) :
    (updatePrograms s).kernels = s.kernels ∧ (updatePrograms s).log = s.log ∧
    (updatePrograms s).nextId = s.nextId ∧ kernelsBuilt (updatePrograms s) := by
  obtain ⟨h1, h2, h3, h4, h5, h6, h7, h8⟩ := hb
  have hT : (s.mpTemporalResamplingPass.isNone && s.mOptions.useTemporalResampling) = false := by
    cases hu : s.mOptions.useTemporalResampling with
    | false => simp
    | true =>
      have := h7 hu
      cases hk : s.mpTemporalResamplingPass with
      | none => simp [hk] at this
      | some _ => rfl
  have hS : (s.mpSpatialResamplingPass.isNone && s.mOptions.useSpatialResampling) = false := by
    cases hu : s.mOptions.useSpatialResampling with
    | false => simp
    | true =>
      have := h8 hu
      cases hk : s.mpSpatialResamplingPass with
      | none => simp [hk] at this
      | some _ => rfl
  have n1 : s.mpReflectTypes.isNone = false := by
    cases hk : s.mpReflectTypes with
    | none => simp [hk] at h1
    | some _ => rfl
  have n2 : s.mpTraceReceiverPass.isNone = false := by
    cases hk : s.mpTraceReceiverPass with
    | none => simp [hk] at h2
    | some _ => rfl
  have n3 : s.mpBuildPriorPass.isNone = false := by
    cases hk : s.mpBuildPriorPass with
    | none => simp [hk] at h3
    | some _ => rfl
  have n4 : s.mpInitialSamplingPass.isNone = false := by
    cases hk : s.mpInitialSamplingPass with
    | none => simp [hk] at h4
    | some _ => rfl
  have n5 : s.mpResolvePass.isNone = false := by
    cases hk : s.mpResolvePass with
    | none => simp [hk] at h5
    | some _ => rfl
  have n6 : s.mpWriteToEnvBuffer.isNone = false := by
    cases hk : s.mpWriteToEnvBuffer with
    | none => simp [hk] at h6
    | some _ => rfl
  have e : updatePrograms s = s ∨
      updatePrograms s = { s with mFrameIndex := 0, mRecompile := false } := by
    by_cases hr : s.mRecompile = true
    · right
      unfold updatePrograms
      rw [if_neg (by simp [hr])]
      have e1 : ensureReflectTypes { s with mFrameIndex := 0 } = { s with mFrameIndex := 0 } := by
        unfold ensureReflectTypes
        rw [if_neg]
        show ¬ s.mpReflectTypes.isNone = true
        simp [n1]
      rw [e1]
      have e2 : ensureTraceReceiverPass { s with mFrameIndex := 0 }
          = { s with mFrameIndex := 0 } := by
        unfold ensureTraceReceiverPass
        rw [if_neg]
        show ¬ s.mpTraceReceiverPass.isNone = true
        simp [n2]
      rw [e2]
      have e3 : ensureBuildPriorPass { s with mFrameIndex := 0 }
          = { s with mFrameIndex := 0 } := by
        unfold ensureBuildPriorPass
        rw [if_neg]
        show ¬ s.mpBuildPriorPass.isNone = true
        simp [n3]
      rw [e3]
      have e4 : ensureInitialSamplingPass { s with mFrameIndex := 0 }
          = { s with mFrameIndex := 0 } := by
        unfold ensureInitialSamplingPass
        rw [if_neg]
        show ¬ s.mpInitialSamplingPass.isNone = true
        simp [n4]
      rw [e4]
      have e5 : ensureTemporalResamplingPass { s with mFrameIndex := 0 }
          = { s with mFrameIndex := 0 } := by
        unfold ensureTemporalResamplingPass
        rw [if_neg]
        show ¬ (s.mpTemporalResamplingPass.isNone && s.mOptions.useTemporalResampling) = true
        simp [hT]
      rw [e5]
      have e6 : ensureSpatialResamplingPass { s with mFrameIndex := 0 }
          = { s with mFrameIndex := 0 } := by
        unfold ensureSpatialResamplingPass
        rw [if_neg]
        show ¬ (s.mpSpatialResamplingPass.isNone && s.mOptions.useSpatialResampling) = true
        simp [hS]
      rw [e6]
      have e7 : ensureResolvePass { s with mFrameIndex := 0 }
          = { s with mFrameIndex := 0 } := by
        unfold ensureResolvePass
        rw [if_neg]
        show ¬ s.mpResolvePass.isNone = true
        simp [n5]
      rw [e7]
      have e8 : ensureWriteToEnvBuffer { s with mFrameIndex := 0 }
          = { s with mFrameIndex := 0 } := by
        unfold ensureWriteToEnvBuffer
        rw [if_neg]
        show ¬ s.mpWriteToEnvBuffer.isNone = true
        simp [n6]
      rw [e8]
    · left
      unfold updatePrograms
      simp [hr]
  rcases e with e | e <;> rw [e] <;> exact ⟨rfl, rfl, rfl, h1, h2, h3, h4, h5, h6, h7, h8⟩

theorem kernelsBuilt_congr {s s' : State} (hk : s'.kernels = s.kernels)
    (ho : s'.mOptions = s.mOptions) (h : kernelsBuilt s) : kernelsBuilt s' := by
  simp only [State.kernels, List.cons.injEq, and_true] at hk
  obtain ⟨k1, k2, k3, k4, k5, k6, k7, k8⟩ := hk
  unfold kernelsBuilt
  rw [k1, k2, k3, k4, k5, k6, k7, k8, ho]
  exact h

theorem prepareLighting_step (s : State) :
    BufferStep s (prepareLighting s) ∧ (prepareLighting s).nextId = s.nextId := by
  unfold prepareLighting
  split_ifs
  · refine ⟨bufferStep_of_same ⟨rfl, rfl, rfl, List.prefix_append _ _, ?_⟩ (le_refl _) rfl rfl, rfl⟩
    simp [kernelCreations, List.countP_append, Event.isCreatePass]
  · exact ⟨BufferStep.stepRefl s, rfl⟩

theorem reservoirsDistinct_of_kernelStep {s s' : State} (h : KernelStep s s')
    (hd : reservoirsDistinct s) : reservoirsDistinct s' := by
  intro i
  obtain ⟨d1, d2, d3⟩ := hd i
  rw [h.2.2.1, h.2.2.2.1]
  exact ⟨fun b hb => lt_of_lt_of_le (d1 b hb) h.1, fun b hb => lt_of_lt_of_le (d2 b hb) h.1, d3⟩

/-- What `beginFrame` does to the kernel objects and the reservoir slots. -/
theorem beginFrame_kernels {s s' : State} {frameDim screenTiles : Nat × Nat}
    {needRecompile : Bool} (h : beginFrame s frameDim screenTiles needRecompile = some s') :
    s'.mRecompile = false ∧ s'.mOptions = s.mOptions ∧ reservoirsAllocated s' ∧
    (reservoirsDistinct s → reservoirsDistinct s') ∧
    ((s.mRecompile || needRecompile) = true → kernelsBuilt s') ∧
    (kernelsBuilt s → kernelsBuilt s' ∧ s'.kernels = s.kernels ∧
      ∃ es, s'.log = s.log ++ es ∧ kernelCreations es = 0) := by
  obtain ⟨s1, o1, r1, k1, l1, x1, x2, x3, h⟩ : ∃ s1 : State, s1.mOptions = s.mOptions ∧
      s1.mRecompile = (s.mRecompile || needRecompile) ∧ s1.kernels = s.kernels ∧
      s1.log = s.log ∧ s1.mpOutputReservoirs = s.mpOutputReservoirs ∧
      s1.mpTemporalReservoirs = s.mpTemporalReservoirs ∧ s1.nextId = s.nextId ∧
      prepareResources (updatePrograms (prepareLighting s1))
        (updatePrograms (prepareLighting s1)).mFrameDim screenTiles = some s' :=
    ⟨{ s with mRecompile := s.mRecompile || needRecompile, mFrameDim := frameDim },
      rfl, rfl, rfl, rfl, rfl, rfl, rfl, h⟩
  have q1 : BufferStep s1 (prepareLighting s1) := (prepareLighting_step s1).1
  obtain ⟨u1, u2, u3⟩ := updatePrograms_step (prepareLighting s1)
  obtain ⟨p1, p2⟩ := prepareResources_step h
  have d1 : reservoirsDistinct s → reservoirsDistinct s1 := by
    intro hd i
    rw [x1, x2, x3]
    exact hd i
  refine ⟨p1.1.2.2.1.trans u2, ((p1.1.2.1.trans u1.2.1).trans q1.1.2.1).trans o1, p2, ?_, ?_, ?_⟩
  · intro hd
    exact p1.2.2.1 (reservoirsDistinct_of_kernelStep u1 (q1.2.2.1 (d1 hd)))
  · intro hr
    exact kernelsBuilt_congr p1.1.1 p1.1.2.1 (u3 ((q1.1.2.2.1.trans r1).trans hr))
  · intro hb
    have b1 : kernelsBuilt s1 := kernelsBuilt_congr k1 o1 hb
    have b2 : kernelsBuilt (prepareLighting s1) := kernelsBuilt_congr q1.1.1 q1.1.2.1 b1
    obtain ⟨v1, v2, v3, v4⟩ := updatePrograms_built _ b2
    refine ⟨kernelsBuilt_congr p1.1.1 p1.1.2.1 v4,
      ((p1.1.1.trans v1).trans q1.1.1).trans k1, ?_⟩
    obtain ⟨e1, f1, g1⟩ := q1.1.creations
    obtain ⟨e2, f2, g2⟩ := p1.1.creations
    refine ⟨e1 ++ e2, ?_, ?_⟩
    · rw [f2, v2, f1, l1, List.append_assoc]
    · unfold kernelCreations at g1 g2 ⊢
      rw [List.countP_append, g1, g2]

theorem update_kernels {s s' : State} {env : Nat → ℚ} (h : update s env = some s') :
    s'.kernels = s.kernels ∧ s'.mOptions = s.mOptions ∧ s'.mRecompile = s.mRecompile ∧
    s'.nextId = s.nextId ∧ s'.mFrameIndex = s.mFrameIndex ∧
    (reservoirsDistinct s → reservoirsDistinct s') ∧
    (reservoirsAllocated s → reservoirsAllocated s') := by
  obtain ⟨px, py, es₀, esP, pass, reservoirs, hs, -⟩ := update_evolve h
  rw [hs]
  refine ⟨rfl, rfl, rfl, rfl, rfl, ?_, ?_⟩
  · intro hd i
    obtain ⟨d1, d2, d3⟩ := hd i
    show (∀ b, outputAfter s 0 s.numPasses.toNat i = some b → b.id < s.nextId) ∧
      (∀ b, temporalAfter s 0 s.numPasses.toNat i = some b → b.id < s.nextId) ∧
      (∀ b b', outputAfter s 0 s.numPasses.toNat i = some b →
        temporalAfter s 0 s.numPasses.toNat i = some b' → b.id ≠ b'.id)
    unfold outputAfter temporalAfter
    split_ifs
    · exact ⟨d2, d1, fun b b' hb hb' => (d3 b' b hb' hb).symm⟩
    · exact ⟨d1, d2, d3⟩
  · intro ha i
    obtain ⟨a1, a2⟩ := ha i
    show (outputAfter s 0 s.numPasses.toNat i).isSome = true ∧
      (temporalAfter s 0 s.numPasses.toNat i).isSome = true
    unfold outputAfter temporalAfter
    split_ifs
    · exact ⟨a2, a1⟩
    · exact ⟨a1, a2⟩

/-- The invariants of the reachable states: when the recompile flag is clear every
kernel the stored options call for exists; after a `beginFrame` that follows the
latest `setOptions` the flag is clear and every reservoir slot is allocated; the two
slots of a pass never hold the same allocation. -/
theorem reachable_inv {s : State} {f : Bool} (h : Reachable s f) :
    (s.mRecompile = false → kernelsBuilt s) ∧
    (f = true → s.mRecompile = false ∧ reservoirsAllocated s) ∧ reservoirsDistinct s := by
  induction h with
  | init options e m =>
    refine ⟨fun h => absurd h (by simp [State.init]), fun h => absurd h (by simp), ?_⟩
    intro i
    simp [State.init]
  | @setOptions s f options _ ih =>
    obtain ⟨i1, -, i3⟩ := ih
    unfold PSMSReSTIR.setOptions
    split_ifs
    · exact ⟨fun h => absurd h (by simp), fun h => absurd h (by simp), i3⟩
    · exact ⟨i1, fun h => absurd h (by simp), i3⟩
  | @beginFrame s s' f frameDim screenTiles needRecompile _ hb ih =>
    obtain ⟨i1, -, i3⟩ := ih
    obtain ⟨b1, b2, b3, b4, b5, b6⟩ := beginFrame_kernels hb
    refine ⟨fun _ => ?_, fun _ => ⟨b1, b3⟩, b4 i3⟩
    by_cases hr : (s.mRecompile || needRecompile) = true
    · exact b5 hr
    · have : s.mRecompile = false := by
        cases hm : s.mRecompile with
        | true => simp [hm] at hr
        | false => rfl
      exact (b6 (i1 this)).1
  | @update s s' env _ hu ih =>
    obtain ⟨i1, i2, i3⟩ := ih
    obtain ⟨u1, u2, u3, -, -, u6, u7⟩ := update_kernels hu
    obtain ⟨j1, j2⟩ := i2 rfl
    exact ⟨fun _ => kernelsBuilt_congr u1 u2 (i1 j1), fun _ => ⟨u3.trans j1, u7 j2⟩, u6 i3⟩
  | @endFrame s f _ ih =>
    obtain ⟨i1, i2, i3⟩ := ih
    refine ⟨i1, fun hf => ⟨(i2 hf).1, fun i => ⟨((i2 hf).2 i).2, ((i2 hf).2 i).1⟩⟩, ?_⟩
    intro i
    obtain ⟨d1, d2, d3⟩ := i3 i
    exact ⟨d2, d1, fun b b' hb hb' => (d3 b' b hb' hb).symm⟩

theorem secondFrameState_reachable : Reachable secondFrameState true :=
  Reachable.endFrame (Reachable.beginFrame
    (Reachable.init { Options.default with
      useTemporalResampling := true, useSpatialResampling := true } false false)
    (rfl : beginFrame (State.init { Options.default with
        useTemporalResampling := true, useSpatialResampling := true } false false)
      (32, 32) (2, 2) false = some ((beginFrame (State.init { Options.default with
        useTemporalResampling := true, useSpatialResampling := true } false false)
      (32, 32) (2, 2) false).getD (State.init Options.default false false))))

/-- C20.  In every state reached from construction by `setOptions`, `beginFrame`,
`update` and `endFrame`, with `update` called only after a `beginFrame` that follows
the latest `setOptions`: when the recompile flag is clear, a resampling stage that is
enabled in the stored options has its kernel object; and where `update` may be
called the flag is clear, so that in the state `update` starts from and in every
state it passes through (they differ only in the last-built grid, the reservoir
arrays and the log) the temporal kernel is not null when `update` takes the temporal
branch and the spatial kernel is not null when it takes the spatial branch. -/
theorem reachable_stage_kernels_exist (s : State) (f : Bool) (h : Reachable s f) :
    (s.mRecompile = false →
      (s.mOptions.useTemporalResampling = true → s.mpTemporalResamplingPass ≠ none) ∧
      (s.mOptions.useSpatialResampling = true → s.mpSpatialResamplingPass ≠ none)) ∧
    (f = true → s.mRecompile = false ∧
      ∀ (px py : Int) (t o : Fin 4 → Option Buffer) (es : List Event),
        ((s.evolve px py t o es).mOptions.useTemporalResampling
            && (s.evolve px py t o es).mFrameIndex != 0) = true →
          ∃ pass, (s.evolve px py t o es).mpTemporalResamplingPass = some pass) ∧
    (f = true → ∀ (px py : Int) (t o : Fin 4 → Option Buffer) (es : List Event),
        (s.evolve px py t o es).mOptions.useSpatialResampling = true →
          ∃ pass, (s.evolve px py t o es).mpSpatialResamplingPass = some pass) := by
  obtain ⟨i1, i2, -⟩ := reachable_inv h
  have stage : s.mRecompile = false →
      (s.mOptions.useTemporalResampling = true → ∃ p, s.mpTemporalResamplingPass = some p) ∧
      (s.mOptions.useSpatialResampling = true → ∃ p, s.mpSpatialResamplingPass = some p) := by
    intro hr
    obtain ⟨-, -, -, -, -, -, h7, h8⟩ := i1 hr
    exact ⟨fun hu => Option.isSome_iff_exists.mp (h7 hu),
      fun hu => Option.isSome_iff_exists.mp (h8 hu)⟩
  refine ⟨fun hr => ⟨fun hu => ?_, fun hu => ?_⟩, fun hf => ⟨(i2 hf).1, ?_⟩, fun hf => ?_⟩
  · obtain ⟨p, hp⟩ := (stage hr).1 hu
    rw [hp]
    simp
  · obtain ⟨p, hp⟩ := (stage hr).2 hu
    rw [hp]
    simp
  · intro px py t o es hc
    simp only [Bool.and_eq_true] at hc
    exact (stage (i2 hf).1).1 hc.1
  · intro px py t o es hc
    exact (stage (i2 hf).1).2 hc

theorem reachable_stage_kernels_exist_witness :
    Reachable secondFrameState true ∧
    (secondFrameState.mRecompile = false →
      (secondFrameState.mOptions.useTemporalResampling = true →
        secondFrameState.mpTemporalResamplingPass ≠ none) ∧
      (secondFrameState.mOptions.useSpatialResampling = true →
        secondFrameState.mpSpatialResamplingPass ≠ none)) ∧
    (true = true → secondFrameState.mRecompile = false ∧
      ∀ (px py : Int) (t o : Fin 4 → Option Buffer) (es : List Event),
        ((secondFrameState.evolve px py t o es).mOptions.useTemporalResampling
            && (secondFrameState.evolve px py t o es).mFrameIndex != 0) = true →
          ∃ pass, (secondFrameState.evolve px py t o es).mpTemporalResamplingPass = some pass) ∧
    (true = true → ∀ (px py : Int) (t o : Fin 4 → Option Buffer) (es : List Event),
        (secondFrameState.evolve px py t o es).mOptions.useSpatialResampling = true →
          ∃ pass, (secondFrameState.evolve px py t o es).mpSpatialResamplingPass = some pass) :=
  ⟨secondFrameState_reachable,
    reachable_stage_kernels_exist secondFrameState true secondFrameState_reachable⟩

theorem setOptions_built (s : State) (options : Options) (hb : kernelsBuilt s)
    (hn : nonStructural s.mOptions options) :
    kernelsBuilt (setOptions s options) ∧ (setOptions s options).kernels = s.kernels ∧
    (setOptions s options).log = s.log ∧ (setOptions s options).mOptions = options := by
  unfold setOptions
  split_ifs with hd
  · obtain ⟨h1, h2, h3, h4, h5, h6, h7, h8⟩ := hb
    exact ⟨⟨h1, h2, h3, h4, h5, h6, fun hu => h7 (hn.1 hu), fun hu => h8 (hn.2 hu)⟩,
      rfl, rfl, rfl⟩
  · have : options = s.mOptions := by
      by_contra hc
      exact hd hc
    exact ⟨hb, rfl, rfl, this.symm⟩

/-- C13.  From a state in which every kernel the stored options call for exists, a
sequence of `setOptions` and `beginFrame` calls in which no `setOptions` enables a
resampling stage that was disabled runs without fault, creates no kernel object (no
`ComputePass::create` among the requests of the whole sequence) and leaves every
kernel object the very object it was. -/
theorem runCalls_creates_no_kernel (cs : List Call) (s : State) (hb : kernelsBuilt s)
    (hn : nonStructuralCalls s.mOptions cs) :
    ∃ s', runCalls cs s = some s' ∧ s'.kernels = s.kernels ∧
      s'.mpReflectTypes = s.mpReflectTypes ∧ s'.mpTraceReceiverPass = s.mpTraceReceiverPass ∧
      s'.mpBuildPriorPass = s.mpBuildPriorPass ∧
      s'.mpInitialSamplingPass = s.mpInitialSamplingPass ∧
      s'.mpTemporalResamplingPass = s.mpTemporalResamplingPass ∧
      s'.mpSpatialResamplingPass = s.mpSpatialResamplingPass ∧
      s'.mpResolvePass = s.mpResolvePass ∧ s'.mpWriteToEnvBuffer = s.mpWriteToEnvBuffer ∧
      ∃ es, s'.log = s.log ++ es ∧ kernelCreations es = 0 := by
  have main : ∀ (cs : List Call) (s : State), kernelsBuilt s → nonStructuralCalls s.mOptions cs →
      ∃ s', runCalls cs s = some s' ∧ s'.kernels = s.kernels ∧
        ∃ es, s'.log = s.log ++ es ∧ kernelCreations es = 0 := by
    intro cs
    induction cs with
    | nil =>
      intro s _ _
      exact ⟨s, rfl, rfl, [], by simp, rfl⟩
    | cons c cs ih =>
      intro s hb hn
      cases c with
      | setOptions options =>
        obtain ⟨n1, n2⟩ := hn
        obtain ⟨b1, b2, b3, b4⟩ := setOptions_built s options hb n1
        obtain ⟨s', r1, r2, es, r3, r4⟩ := ih (setOptions s options) b1 (by rw [b4]; exact n2)
        exact ⟨s', by simp [runCalls, runCall, r1], r2.trans b2, es, by rw [r3, b3], r4⟩
      | beginFrame frameDim screenTiles needRecompile =>
        obtain ⟨s1, h1⟩ := beginFrame_total s frameDim screenTiles needRecompile
          (by simp [hb.1])
        obtain ⟨-, o1, -, -, -, k⟩ := beginFrame_kernels h1
        obtain ⟨k1, k2, es1, k3, k4⟩ := k hb
        obtain ⟨s', r1, r2, es, r3, r4⟩ := ih s1 k1 (by rw [o1]; exact hn)
        refine ⟨s', by simp [runCalls, runCall, h1, r1], r2.trans k2, es1 ++ es,
          by rw [r3, k3, List.append_assoc], ?_⟩
        unfold kernelCreations at k4 r4 ⊢
        rw [List.countP_append, k4, r4]
  obtain ⟨s', r1, r2, r3⟩ := main cs s hb hn
  have r2' := r2
  simp only [State.kernels, List.cons.injEq, and_true] at r2'
  obtain ⟨k1, k2, k3, k4, k5, k6, k7, k8⟩ := r2'
  exact ⟨s', r1, r2, k1, k2, k3, k4, k5, k6, k7, k8, r3⟩

theorem runCalls_creates_no_kernel_witness :
    kernelsBuilt secondFrameState ∧ nonStructuralCalls secondFrameState.mOptions sampleCalls ∧
    ∃ s', runCalls sampleCalls secondFrameState = some s' ∧
      s'.kernels = secondFrameState.kernels ∧
      s'.mpReflectTypes = secondFrameState.mpReflectTypes ∧
      s'.mpTraceReceiverPass = secondFrameState.mpTraceReceiverPass ∧
      s'.mpBuildPriorPass = secondFrameState.mpBuildPriorPass ∧
      s'.mpInitialSamplingPass = secondFrameState.mpInitialSamplingPass ∧
      s'.mpTemporalResamplingPass = secondFrameState.mpTemporalResamplingPass ∧
      s'.mpSpatialResamplingPass = secondFrameState.mpSpatialResamplingPass ∧
      s'.mpResolvePass = secondFrameState.mpResolvePass ∧
      s'.mpWriteToEnvBuffer = secondFrameState.mpWriteToEnvBuffer ∧
      ∃ es, s'.log = secondFrameState.log ++ es ∧ kernelCreations es = 0 :=
  have hb : kernelsBuilt secondFrameState := by
    unfold kernelsBuilt
    decide
  have hn : nonStructuralCalls secondFrameState.mOptions sampleCalls := by
    simp [sampleCalls, nonStructuralCalls, nonStructural]
    decide
  ⟨hb, hn, runCalls_creates_no_kernel sampleCalls secondFrameState hb hn⟩

theorem reachable_reachableUI {s : State} {f : Bool} (h : Reachable s f) :
    ∃ f', ReachableUI s f' ∧ (f = true → f' = true) := by
  induction h with
  | init options e m => exact ⟨false, ReachableUI.init options e m, fun h => absurd h (by simp)⟩
  | setOptions options _ ih =>
    obtain ⟨f', h', -⟩ := ih
    exact ⟨f', ReachableUI.setOptions options h', fun h => absurd h (by simp)⟩
  | beginFrame _ hb ih =>
    obtain ⟨f', h', -⟩ := ih
    exact ⟨true, ReachableUI.beginFrame h' hb, fun _ => rfl⟩
  | update _ hu ih =>
    obtain ⟨f', h', hf⟩ := ih
    have := hf rfl
    subst this
    exact ⟨true, ReachableUI.update h' hu, fun _ => rfl⟩
  | endFrame _ ih =>
    obtain ⟨f', h', hf⟩ := ih
    exact ⟨f', ReachableUI.endFrame h', hf⟩

/-- The invariants of the reservoir slots, with the user interface among the steps:
after a `beginFrame` every slot is allocated, and the two slots of a pass never hold
the same allocation. -/
theorem reachableUI_inv {s : State} {f : Bool} (h : ReachableUI s f) :
    (f = true → reservoirsAllocated s) ∧ reservoirsDistinct s := by
  induction h with
  | init options e m =>
    refine ⟨fun h => absurd h (by simp), ?_⟩
    intro i
    simp [State.init]
  | @setOptions s f options _ ih =>
    unfold PSMSReSTIR.setOptions
    split_ifs
    · exact ih
    · exact ih
  | @renderUI s f ui _ h1 h2 ih => exact ih
  | @beginFrame s s' f frameDim screenTiles needRecompile _ hb ih =>
    obtain ⟨-, -, b3, b4, -, -⟩ := beginFrame_kernels hb
    exact ⟨fun _ => b3, b4 ih.2⟩
  | @update s s' env _ hu ih =>
    obtain ⟨-, -, -, -, -, u6, u7⟩ := update_kernels hu
    exact ⟨fun _ => u7 (ih.1 rfl), u6 ih.2⟩
  | @endFrame s f _ ih =>
    obtain ⟨i1, i2⟩ := ih
    refine ⟨fun hf i => ⟨((i1 hf) i).2, ((i1 hf) i).1⟩, ?_⟩
    intro i
    obtain ⟨d1, d2, d3⟩ := i2 i
    exact ⟨d2, d1, fun b b' hb hb' => (d3 b' b hb' hb).symm⟩

theorem setOptions_reservoirs (s : State) (options : Options) :
    (setOptions s options).mpTemporalReservoirs = s.mpTemporalReservoirs ∧
    (setOptions s options).mpOutputReservoirs = s.mpOutputReservoirs := by
  unfold setOptions
  split_ifs <;> exact ⟨rfl, rfl⟩

/-- C17.  Let frame n run `update` from a state reached from construction by
`setOptions`, `beginFrame`, `update`, `endFrame` and the user interface (which sets the
pass count to 1, 2, 3 or 4), and then `endFrame`; let
`setOptions` be called with any options (the stored ones included), and let the
following `beginFrame` keep the two reservoir buffers of an active pass `i`.  Then the
buffer `b` that resolve read for pass `i` in frame n is the temporal slot of pass `i`
in frame n + 1, the output slot holds another allocation `b'`, every temporal
resampling dispatch of frame n + 1 for pass `i` reads `b` as history and writes `b'`,
and every initial sampling dispatch of frame n + 1 for pass `i` writes `b'`; unless a
recompile is pending, frame n + 1 runs with the frame index of frame n plus one. -/
theorem temporal_history_is_previous_result (s₀ s₁ s₃ s₄ : State) (env env' : Nat → ℚ)
    (options : Options) (frameDim screenTiles : Nat × Nat) (needRecompile : Bool) (i : Fin 4)
    (hR : ReachableUI s₀ true) (hi : i.val < s₀.numPasses.toNat)
    (h₁ : update s₀ env = some s₁)
    (h₃ : beginFrame (setOptions (endFrame s₁) options) frameDim screenTiles needRecompile
      = some s₃)
    (hkeep : s₃.mpTemporalReservoirs i = (endFrame s₁).mpTemporalReservoirs i ∧
      s₃.mpOutputReservoirs i = (endFrame s₁).mpOutputReservoirs i)
    (h₄ : update s₃ env' = some s₄) :
    ∃ (es : List Event) (pass : ComputePass) (reservoirs : List (Option Buffer))
      (es' : List Event) (pass' : ComputePass) (reservoirs' : List (Option Buffer))
      (b b' : Buffer),
      s₁.log = s₀.log ++ es ++ [.resolve pass reservoirs (frameThreads s₀)] ∧
      reservoirs[i.val]? = some (some b) ∧
      s₄.log = s₃.log ++ es' ++ [.resolve pass' reservoirs' (frameThreads s₃)] ∧
      s₃.mpTemporalReservoirs i = some b ∧ s₃.mpOutputReservoirs i = some b' ∧
      b.id ≠ b'.id ∧
      (∀ p k t o th, Event.temporalResampling p k t o th ∈ es' → k = i.val →
        t = some b ∧ o = some b') ∧
      (∀ p k o r tl th, Event.initialSampling p k o r tl th ∈ es' → k = i.val →
        o = some b') ∧
      (((setOptions (endFrame s₁) options).mRecompile || needRecompile) = false →
        s₃.mFrameIndex = u32 (s₀.mFrameIndex + 1)) := by
  obtain ⟨i2, i3⟩ := reachableUI_inv hR
  obtain ⟨-, -, -, -, u5, u6, u7⟩ := update_kernels h₁
  have hd := u6 i3 i
  have ha := u7 (i2 rfl) i
  obtain ⟨b, hb⟩ := Option.isSome_iff_exists.mp ha.1
  obtain ⟨b', hb'⟩ := Option.isSome_iff_exists.mp ha.2
  have hne : b.id ≠ b'.id := hd.2.2 b b' hb hb'
  have t3 : s₃.mpTemporalReservoirs i = some b := by
    rw [hkeep.1]
    exact hb
  have o3 : s₃.mpOutputReservoirs i = some b' := by
    rw [hkeep.2]
    exact hb'
  obtain ⟨px, py, es₀, esP, pass, reservoirs, hs, -, -, -, -, -, -, -, -, hr⟩ := update_evolve h₁
  obtain ⟨px', py', es₀', esP', pass', reservoirs', hs', hpre, -, -, hP, -⟩ := update_evolve h₄
  refine ⟨es₀ ++ esP, pass, reservoirs, es₀' ++ esP', pass', reservoirs', b, b', ?_, ?_, ?_,
    t3, o3, hne, ?_, ?_, ?_⟩
  · rw [hs]
    simp [State.evolve]
  · obtain ⟨hk, hv⟩ := hr i.val hi
    rw [hv, ← hb, hs]
    rfl
  · rw [hs']
    simp [State.evolve]
  · intro p k t o th hmem hk
    rcases List.mem_append.mp hmem with hm | hm
    · exact absurd (hpre _ hm) (by simp [Event.isPreamble])
    · obtain ⟨k', -, hpe⟩ := hP _ hm
      obtain ⟨e1, h4, e2, e3⟩ := hpe
      subst e1
      subst hk
      exact ⟨e2.trans t3, e3.trans o3⟩
  · intro p k o r tl th hmem hk
    rcases List.mem_append.mp hmem with hm | hm
    · exact absurd (hpre _ hm) (by simp [Event.isPreamble])
    · obtain ⟨k', -, hpe⟩ := hP _ hm
      obtain ⟨e1, h4, e2⟩ := hpe
      subst e1
      subst hk
      exact e2.trans o3
  · intro hn
    rw [(beginFrame_spec h₃).2.2.2.2.1 hn, ← u5]
    unfold setOptions
    split_ifs <;> rfl

theorem eq_some_getD {α : Type} (x : Option α) (d : α) (h : x.isSome = true) :
    x = some (x.getD d) := by
  cases x with
  | none => simp at h
  | some a => rfl

theorem threePassState_reachable : ReachableUI threePassState true := by
  obtain ⟨f', h, hf⟩ := reachable_reachableUI secondFrameState_reachable
  have := hf rfl
  subst this
  exact ReachableUI.renderUI _ h (by decide) (by decide)

theorem temporal_history_is_previous_result_witness :
    ReachableUI threePassState true ∧
    (2 : Fin 4).val < threePassState.numPasses.toNat ∧
    update threePassState (fun _ => 0) = some threePassUpdated ∧
    beginFrame (setOptions (endFrame threePassUpdated) secondFrameState.mOptions)
      (32, 32) (2, 2) false = some threePassNext ∧
    (threePassNext.mpTemporalReservoirs 2 = (endFrame threePassUpdated).mpTemporalReservoirs 2 ∧
      threePassNext.mpOutputReservoirs 2 = (endFrame threePassUpdated).mpOutputReservoirs 2) ∧
    update threePassNext (fun _ => 0) = some threePassNextUpdated ∧
    ∃ (es : List Event) (pass : ComputePass) (reservoirs : List (Option Buffer))
      (es' : List Event) (pass' : ComputePass) (reservoirs' : List (Option Buffer))
      (b b' : Buffer),
      threePassUpdated.log
        = threePassState.log ++ es ++ [.resolve pass reservoirs (frameThreads threePassState)] ∧
      reservoirs[(2 : Fin 4).val]? = some (some b) ∧
      threePassNextUpdated.log
        = threePassNext.log ++ es' ++ [.resolve pass' reservoirs' (frameThreads threePassNext)] ∧
      threePassNext.mpTemporalReservoirs 2 = some b ∧
      threePassNext.mpOutputReservoirs 2 = some b' ∧
      b.id ≠ b'.id ∧
      (∀ p k t o th, Event.temporalResampling p k t o th ∈ es' → k = (2 : Fin 4).val →
        t = some b ∧ o = some b') ∧
      (∀ p k o r tl th, Event.initialSampling p k o r tl th ∈ es' → k = (2 : Fin 4).val →
        o = some b') ∧
      (((setOptions (endFrame threePassUpdated) secondFrameState.mOptions).mRecompile
          || false) = false →
        threePassNext.mFrameIndex = u32 (threePassState.mFrameIndex + 1)) :=
  have h₁ : update threePassState (fun _ => 0) = some threePassUpdated := eq_some_getD _ _ rfl
  have h₃ : beginFrame (setOptions (endFrame threePassUpdated) secondFrameState.mOptions)
      (32, 32) (2, 2) false = some threePassNext := eq_some_getD _ _ rfl
  have hk : threePassNext.mpTemporalReservoirs 2
        = (endFrame threePassUpdated).mpTemporalReservoirs 2 ∧
      threePassNext.mpOutputReservoirs 2
        = (endFrame threePassUpdated).mpOutputReservoirs 2 := ⟨rfl, rfl⟩
  have h₄ : update threePassNext (fun _ => 0) = some threePassNextUpdated :=
    eq_some_getD _ _ rfl
  ⟨threePassState_reachable, by decide, h₁, h₃, hk, h₄,
    temporal_history_is_previous_result threePassState threePassUpdated threePassNext
      threePassNextUpdated (fun _ => 0) (fun _ => 0) secondFrameState.mOptions (32, 32) (2, 2)
      false 2 threePassState_reachable (by decide) h₁ h₃ hk h₄⟩

theorem visit_spec (scene : Scene) (sms sms' : SMS) (inst : GeometryInstanceData)
    (h : SMS.visit scene sms inst = some sms') :
    sms'.materialIDs = sms.materialIDs ++ ((entryAsSpecified scene inst).toList.map (·.1)) ∧
    sms'.specularAABBs = sms.specularAABBs ++ ((entryAsSpecified scene inst).toList.map (·.2.1)) ∧
    sms'.isUVSpaceSampling
      = sms.isUVSpaceSampling ++ ((entryAsSpecified scene inst).toList.map (·.2.2)) := by
  unfold SMS.visit at h
  unfold entryAsSpecified
  by_cases ht : inst.type = GeometryType.TriangleMesh
  · rw [if_neg (by simp [ht])] at h
    rw [if_pos ht]
    cases hm : scene.getMaterial inst.materialID with
    | none => simp [hm] at h
    | some material =>
      cases hb : scene.getMeshBounds inst.geometryID with
      | none => simp [hm, hb] at h
      | some aabb =>
        cases hp : material.toBasicMaterial with
        | none =>
          simp [hm, hb, hp] at h
          subst h
          simp [hp]
        | some pMaterial =>
          by_cases hc : pMaterial.isCausticBouncer = true
          · simp [hm, hb, hp, hc] at h
            subst h
            simp [hp, hc]
          · simp [hm, hb, hp, hc] at h
            subst h
            simp [hp, hc]
  · rw [if_pos ht] at h
    rw [if_neg ht]
    simp only [Option.some.injEq] at h
    subst h
    simp

theorem scan_spec (scene : Scene) :
    ∀ (l : List GeometryInstanceData) (sms sms' : SMS), SMS.scan scene l sms = some sms' →
      sms'.materialIDs = sms.materialIDs ++ (l.filterMap (entryAsSpecified scene)).map (·.1) ∧
      sms'.specularAABBs
        = sms.specularAABBs ++ (l.filterMap (entryAsSpecified scene)).map (·.2.1) ∧
      sms'.isUVSpaceSampling
        = sms.isUVSpaceSampling ++ (l.filterMap (entryAsSpecified scene)).map (·.2.2) := by
  intro l
  induction l with
  | nil =>
    intro sms sms' h
    simp only [SMS.scan, Option.some.injEq] at h
    subst h
    simp
  | cons inst rest ih =>
    intro sms sms' h
    simp only [SMS.scan, Option.bind_eq_some] at h
    obtain ⟨mid, h1, h2⟩ := h
    obtain ⟨a1, a2, a3⟩ := visit_spec scene sms mid inst h1
    obtain ⟨b1, b2, b3⟩ := ih mid sms' h2
    rw [b1, b2, b3, a1, a2, a3]
    cases he : entryAsSpecified scene inst with
    | none => simp [List.filterMap_cons, he]
    | some e => simp [List.filterMap_cons, he]

theorem scan_total (scene : Scene) :
    ∀ (l : List GeometryInstanceData) (sms : SMS),
      (∀ inst ∈ l, inst.type = GeometryType.TriangleMesh →
        (scene.getMaterial inst.materialID).isSome = true ∧
        (scene.getMeshBounds inst.geometryID).isSome = true) →
      ∃ sms', SMS.scan scene l sms = some sms' := by
  intro l
  induction l with
  | nil =>
    intro sms _
    exact ⟨sms, rfl⟩
  | cons inst rest ih =>
    intro sms hl
    have hv : ∃ mid, SMS.visit scene sms inst = some mid := by
      unfold SMS.visit
      by_cases ht : inst.type = GeometryType.TriangleMesh
      · obtain ⟨m1, m2⟩ := hl inst (List.mem_cons_self _ _) ht
        obtain ⟨material, hm⟩ := Option.isSome_iff_exists.mp m1
        obtain ⟨aabb, hb⟩ := Option.isSome_iff_exists.mp m2
        rw [if_neg (by simp [ht]), hm, hb]
        simp only
        cases hp : material.toBasicMaterial with
        | none => exact ⟨_, rfl⟩
        | some pMaterial =>
          simp only
          split_ifs <;> exact ⟨_, rfl⟩
      · rw [if_pos ht]
        exact ⟨_, rfl⟩
    obtain ⟨mid, hmid⟩ := hv
    obtain ⟨sms', h'⟩ := ih mid (fun i hi => hl i (List.mem_cons_of_mem _ hi))
    exact ⟨sms', by simp [SMS.scan, hmid, h']⟩

theorem zip_components (l : List (Nat × AABB × Nat)) :
    List.zip (l.map (·.1)) (List.zip (l.map (·.2.1)) (l.map (·.2.2))) = l := by
  induction l with
  | nil => rfl
  | cons e l ih => simp [ih]

/-- C14.  For a scene whose triangle-mesh instances name a material and a mesh the scene
knows, `setupSpecularShapes` on the empty registry returns three vectors of one and the
same length whose k-th elements are the material identifier, the bounding box and the
UV-space flag (0 or 1) of the k-th instance, in instance order, that is a triangle
mesh with a basic material that is a caustic bouncer.  An instance that is not a
triangle mesh is passed over without any lookup and adds nothing.  A call on any
registry and any scene keeps the elements already present, in place, and appends. -/
theorem setupSpecularShapes_registry (scene : Scene)
    (hs : ∀ inst ∈ scene.instances, inst.type = GeometryType.TriangleMesh →
      (scene.getMaterial inst.materialID).isSome = true ∧
      (scene.getMeshBounds inst.geometryID).isSome = true) :
    (∃ sms', SMS.empty.setupSpecularShapes scene = some sms' ∧
      sms'.materialIDs.length = (registryAsSpecified scene).length ∧
      sms'.specularAABBs.length = (registryAsSpecified scene).length ∧
      sms'.isUVSpaceSampling.length = (registryAsSpecified scene).length ∧
      List.zip sms'.materialIDs (List.zip sms'.specularAABBs sms'.isUVSpaceSampling)
        = registryAsSpecified scene) ∧
    (∀ (other : Scene) (sms : SMS) (inst : GeometryInstanceData),
      inst.type ≠ GeometryType.TriangleMesh → SMS.visit other sms inst = some sms) ∧
    (∀ (other : Scene) (sms sms' : SMS), sms.setupSpecularShapes other = some sms' →
      sms'.materialIDs = sms.materialIDs ++ (registryAsSpecified other).map (·.1) ∧
      sms'.specularAABBs = sms.specularAABBs ++ (registryAsSpecified other).map (·.2.1) ∧
      sms'.isUVSpaceSampling
        = sms.isUVSpaceSampling ++ (registryAsSpecified other).map (·.2.2)) := by
  refine ⟨?_, ?_, ?_⟩
  · obtain ⟨sms', h⟩ := scan_total scene scene.instances SMS.empty hs
    obtain ⟨a1, a2, a3⟩ := scan_spec scene scene.instances SMS.empty sms' h
    refine ⟨sms', h, ?_, ?_, ?_, ?_⟩
    · rw [a1]
      simp [SMS.empty, registryAsSpecified]
    · rw [a2]
      simp [SMS.empty, registryAsSpecified]
    · rw [a3]
      simp [SMS.empty, registryAsSpecified]
    · rw [a1, a2, a3]
      simp only [SMS.empty, List.nil_append]
      exact zip_components _
  · intro other sms inst ht
    unfold SMS.visit
    rw [if_pos ht]
  · intro other sms sms' h
    exact scan_spec other other.instances sms sms' h

theorem setupSpecularShapes_registry_witness :
    (∀ inst ∈ sampleScene.instances, inst.type = GeometryType.TriangleMesh →
      (sampleScene.getMaterial inst.materialID).isSome = true ∧
      (sampleScene.getMeshBounds inst.geometryID).isSome = true) ∧
    (∃ sms', SMS.empty.setupSpecularShapes sampleScene = some sms' ∧
      sms'.materialIDs.length = (registryAsSpecified sampleScene).length ∧
      sms'.specularAABBs.length = (registryAsSpecified sampleScene).length ∧
      sms'.isUVSpaceSampling.length = (registryAsSpecified sampleScene).length ∧
      List.zip sms'.materialIDs (List.zip sms'.specularAABBs sms'.isUVSpaceSampling)
        = registryAsSpecified sampleScene) ∧
    (∀ (other : Scene) (sms : SMS) (inst : GeometryInstanceData),
      inst.type ≠ GeometryType.TriangleMesh → SMS.visit other sms inst = some sms) ∧
    (∀ (other : Scene) (sms sms' : SMS), sms.setupSpecularShapes other = some sms' →
      sms'.materialIDs = sms.materialIDs ++ (registryAsSpecified other).map (·.1) ∧
      sms'.specularAABBs = sms.specularAABBs ++ (registryAsSpecified other).map (·.2.1) ∧
      sms'.isUVSpaceSampling
        = sms.isUVSpaceSampling ++ (registryAsSpecified other).map (·.2.2)) :=
  have hs : ∀ inst ∈ sampleScene.instances, inst.type = GeometryType.TriangleMesh →
      (sampleScene.getMaterial inst.materialID).isSome = true ∧
      (sampleScene.getMeshBounds inst.geometryID).isSome = true := by decide
  ⟨hs, setupSpecularShapes_registry sampleScene hs⟩

theorem hostPrefixSum_grid_total (nx ny : Int) (hx1 : 1 ≤ nx) (hx2 : nx ≤ 32) (hy1 : 1 ≤ ny)
    (hy2 : ny ≤ 32) (r : List ℚ) (hr : 2 * 1024 * 1024 ≤ r.length) :
    ∃ out, hostPrefixSum (512, 512) nx ny r = some out := by
  obtain ⟨a1, a2, a3, a4, a5⟩ := ceil_blocks_axis nx hx1 hx2
  obtain ⟨b1, b2, b3, b4, b5⟩ := ceil_blocks_axis ny hy1 hy2
  have hbs : blockSize (512, 512) nx ny
      = some (Int.tdiv (512 + nx - 1) nx, Int.tdiv (512 + ny - 1) ny) := by
    unfold blockSize
    simp only [a1, b1]
  generalize Int.tdiv (512 + nx - 1) nx = bx at *
  generalize Int.tdiv (512 + ny - 1) ny = by' at *
  have hsz : 0 ≤ bx * by' := le_of_lt (mul_pos a2 b2)
  have hnb : 0 ≤ nx * ny := le_of_lt (mul_pos (by omega) (by omega))
  have hprod : (((nx * ny).toNat * (bx * by').toNat : Nat) : Int) = (nx * bx) * (ny * by') := by
    push_cast
    rw [Int.toNat_of_nonneg hnb, Int.toNat_of_nonneg hsz]
    ring
  have hhi : (nx * bx) * (ny * by') ≤ (2 * 1024 * 1024 : Int) := by nlinarith
  have hle : (nx * ny).toNat * (bx * by').toNat ≤ 2 * 1024 * 1024 := by
    have : (((nx * ny).toNat * (bx * by').toNat : Nat) : Int) ≤ ((2 * 1024 * 1024 : Nat) : Int) := by
      rw [hprod]
      exact_mod_cast hhi
    exact_mod_cast this
  exact hostPrefixSum_total r hbs hsz (le_trans hle hr)

theorem ready_evolve {s : State} (h : Ready s) (px py : Int) (t o : Fin 4 → Option Buffer)
    (es : List Event) (ha : ∀ j, (o j).isSome = true ∧ (t j).isSome = true) :
    Ready (s.evolve px py t o es) :=
  ⟨h.1, h.2.1, ha, h.2.2.2.1, h.2.2.2.2.1, h.2.2.2.2.2⟩

theorem rebuildImportance_total {s : State} (h : Ready s) (env : Nat → ℚ) :
    ∃ s', rebuildImportance s env = some s' ∧ Ready s' := by
  have key : ∃ s', rebuildImportance s env = some s' := by
    obtain ⟨hk, -, -, -, ⟨hd, x1, x2, y1, y2, hc⟩, -⟩ := h
    unfold rebuildImportance
    split_ifs with c1 c2
    · obtain ⟨pass, hp⟩ := Option.isSome_iff_exists.mp hk.2.2.2.2.2.1
      cases hb : s.mpEnvMapBlockBuffer with
      | none => simp [hb, capacity] at hc
      | some buf =>
        have hcap : 2 * 1024 * 1024 ≤ buf.elementCount := by simpa [hb, capacity] using hc
        obtain ⟨⟨res, ups⟩, ho⟩ := hostPrefixSum_grid_total s.envMapNumBlockX s.envMapNumBlockY
          x1 x2 y1 y2 ((List.range buf.elementCount).map env) (by simpa using hcap)
        simp only [writeToEnvBuffer, hp, hb, State.emit, hd, ho]
        exact ⟨_, rfl⟩
    · exact ⟨_, rfl⟩
    · exact ⟨_, rfl⟩
  obtain ⟨s', hs'⟩ := key
  obtain ⟨px, py, es, e, -⟩ := rebuildImportance_evolve hs'
  exact ⟨s', hs', e ▸ ready_evolve h px py _ _ es h.2.2.1⟩

theorem clearCounters_total {s : State} (h : Ready s) :
    ∃ s', clearCounters s = some s' ∧ Ready s' := by
  obtain ⟨a, ha⟩ := Option.isSome_iff_exists.mp h.2.1.1
  obtain ⟨b, hb⟩ := Option.isSome_iff_exists.mp h.2.1.2.1
  obtain ⟨c, hc⟩ := Option.isSome_iff_exists.mp h.2.1.2.2.1
  obtain ⟨d, hd⟩ := Option.isSome_iff_exists.mp h.2.1.2.2.2
  exact ⟨s.emit [.clearUAV a 0, .clearUAV b 0, .clearUAV c 0, .clearUAV d 0],
    by simp only [clearCounters, ha, hb, hc, hd], h⟩

theorem traceReceiver_total {s : State} (h : Ready s) :
    ∃ s', traceReceiver s = some s' ∧ Ready s' := by
  obtain ⟨p, hp⟩ := Option.isSome_iff_exists.mp h.1.2.1
  exact ⟨s.emit [.traceReceiver p s.mpCurrentReceiverInfo (frameThreads s)],
    by simp only [traceReceiver, hp], h⟩

theorem initialSampling_total (r : State) (i : Nat) (hi : i < 4)
    (hk : r.mpInitialSamplingPass.isSome = true) :
    ∃ es, initialSampling r i = some (r.emit es) := by
  obtain ⟨p, hp⟩ := Option.isSome_iff_exists.mp hk
  exact ⟨_, by simp only [initialSampling, hp, hi, dif_pos]; rfl⟩

theorem temporalResampling_total (r : State) (i : Nat) (hi : i < 4)
    (hk : r.mpTemporalResamplingPass.isSome = true) :
    ∃ es, temporalResampling r i = some (r.emit es) := by
  obtain ⟨p, hp⟩ := Option.isSome_iff_exists.mp hk
  exact ⟨_, by simp only [temporalResampling, hp, hi, dif_pos]; rfl⟩

theorem spatialResampling_total (r : State) (i : Nat) (hi : i < 4)
    (hk : r.mpSpatialResamplingPass.isSome = true)
    (ht : (r.mpTemporalReservoirs ⟨i, hi⟩).isSome = true) :
    ∃ r', spatialResampling r i = some r' := by
  obtain ⟨p, hp⟩ := Option.isSome_iff_exists.mp hk
  obtain ⟨tb, htb⟩ := Option.isSome_iff_exists.mp ht
  unfold spatialResampling
  rw [hp]
  simp only [hi, dif_pos, Function.update_same, htb]
  exact ⟨_, rfl⟩

theorem passBody_total {s : State} (h : Ready s) (i : Nat) (hi : i < 4) :
    ∃ s', passBody s i = some s' ∧ Ready s' := by
  have key : ∃ s', passBody s i = some s' := by
    obtain ⟨hk, -, ha, -, -, hprior⟩ := h
    obtain ⟨-, -, -, k4, -, -, k7, k8⟩ := hk
    unfold passBody
    rw [hprior]
    simp only [Bool.false_eq_true, if_false, Option.some_bind]
    obtain ⟨es1, e1⟩ := initialSampling_total s i hi k4
    rw [e1]
    simp only [Option.some_bind]
    have step3 : ∀ r : State,
        (r.mOptions.useSpatialResampling = true → r.mpSpatialResamplingPass.isSome = true) →
        (r.mpTemporalReservoirs ⟨i, hi⟩).isSome = true →
        ∃ s', (if r.mOptions.useSpatialResampling = true
          then spatialResampling r i else some r) = some s' := by
      intro r hk ht
      split_ifs with c
      · exact spatialResampling_total r i hi (hk c) ht
      · exact ⟨_, rfl⟩
    by_cases c : ((s.emit es1).mOptions.useTemporalResampling
        && (s.emit es1).mFrameIndex != 0) = true
    · rw [if_pos c]
      simp only [Bool.and_eq_true] at c
      obtain ⟨es2, e2⟩ := temporalResampling_total (s.emit es1) i hi (k7 c.1)
      rw [e2]
      simp only [Option.some_bind]
      exact step3 ((s.emit es1).emit es2) k8 (ha ⟨i, hi⟩).2
    · rw [if_neg c]
      simp only [Option.some_bind]
      exact step3 (s.emit es1) k8 (ha ⟨i, hi⟩).2
  obtain ⟨s', hs'⟩ := key
  obtain ⟨hp, es, e, -⟩ := passBody_evolve hs'
  refine ⟨s', hs', e ▸ ready_evolve h _ _ _ _ es ?_⟩
  intro j
  unfold outputAfter temporalAfter
  split_ifs
  · exact ⟨(h.2.2.1 j).2, (h.2.2.1 j).1⟩
  · exact h.2.2.1 j

theorem passLoop_total :
    ∀ (n i : Nat) (s : State), Ready s → i + n ≤ 4 →
      ∃ s', passLoop n i s = some s' ∧ Ready s' := by
  intro n
  induction n with
  | zero =>
    intro i s h _
    exact ⟨s, rfl, h⟩
  | succ n ih =>
    intro i s h hi
    obtain ⟨s1, h1, r1⟩ := passBody_total h i (by omega)
    obtain ⟨s2, h2, r2⟩ := ih (i + 1) s1 r1 (by omega)
    exact ⟨s2, by simp only [passLoop, h1, Option.some_bind, h2], r2⟩

theorem resolveBindings_total (s : State) :
    ∀ (n i : Nat), i + n ≤ 4 → ∃ l, resolveBindings s n i = some l := by
  intro n
  induction n with
  | zero =>
    intro i _
    exact ⟨[], rfl⟩
  | succ n ih =>
    intro i hi
    obtain ⟨l, hl⟩ := ih (i + 1) (by omega)
    have h4 : i < 4 := by omega
    exact ⟨s.mpOutputReservoirs ⟨i, h4⟩ :: l, by simp only [resolveBindings, h4, dif_pos, hl]⟩

/-- In a ready state `update` runs through, and leaves a ready state. -/
theorem update_total {s : State} (h : Ready s) (env : Nat → ℚ) :
    ∃ s', update s env = some s' ∧ Ready s' := by
  obtain ⟨s1, h1, r1⟩ := rebuildImportance_total h env
  obtain ⟨s2, h2, r2⟩ := clearCounters_total r1
  obtain ⟨s3, h3, r3⟩ := traceReceiver_total r2
  have hn : 0 + s3.numPasses.toNat ≤ 4 := by
    have := r3.2.2.2.1
    omega
  obtain ⟨s4, h4, r4⟩ := passLoop_total _ 0 s3 r3 hn
  obtain ⟨pr, hpr⟩ := Option.isSome_iff_exists.mp r4.1.2.2.2.2.1
  have hn4 : 0 + s4.numPasses.toNat ≤ 4 := by
    have := r4.2.2.2.1
    omega
  obtain ⟨l, hl⟩ := resolveBindings_total s4 _ 0 hn4
  exact ⟨s4.emit [.resolve pr l (frameThreads s4)],
    by simp only [update, h1, h2, h3, h4, Option.some_bind, resolve, hpr, hl], r4⟩

theorem Keeps.keepsRefl (s : State) : Keeps s s := by
  simp [Keeps]

theorem Keeps.keepsTrans {a b c : State} (h₁ : Keeps a b) (h₂ : Keeps b c) : Keeps a c := by
  obtain ⟨a1, a2, a3, a4, a5, a6, a7, a8, a9, a10, a11, a12, a13⟩ := h₁
  obtain ⟨b1, b2, b3, b4, b5, b6, b7, b8, b9, b10, b11, b12, b13⟩ := h₂
  exact ⟨b1.trans a1, b2.trans a2, b3.trans a3, b4.trans a4, b5.trans a5, b6.trans a6,
    b7.trans a7, b8.trans a8, fun h => b9 (a9 h), fun h => b10 (a10 h), fun h => b11 (a11 h),
    fun h => b12 (a12 h), fun h => b13 (a13 h)⟩

theorem kernelSteps_keeps : ∀ f ∈ kernelSteps, ∀ s, Keeps s (f s) := by
  intro f hf s
  simp only [kernelSteps, List.mem_cons, List.mem_singleton, List.not_mem_nil, or_false] at hf
  rcases hf with rfl | rfl | rfl | rfl | rfl | rfl | rfl | rfl | rfl | rfl
  · simp [Keeps]
  · unfold ensureReflectTypes
    split_ifs <;> simp [Keeps, createPass]
  · unfold ensureTraceReceiverPass
    split_ifs <;> simp [Keeps, createPass]
  · unfold ensureBuildPriorPass
    split_ifs <;> simp [Keeps, createPass]
  · unfold ensureInitialSamplingPass
    split_ifs <;> simp [Keeps, createPass]
  · unfold ensureTemporalResamplingPass
    split_ifs <;> simp [Keeps, createPass]
  · unfold ensureSpatialResamplingPass
    split_ifs <;> simp [Keeps, createPass]
  · unfold ensureResolvePass
    split_ifs <;> simp [Keeps, createPass]
  · unfold ensureWriteToEnvBuffer
    split_ifs <;> simp [Keeps, createPass]
  · simp [Keeps]

theorem bufferSteps_keeps (ec : Nat) : ∀ f ∈ bufferSteps ec, ∀ s, Keeps s (f s) := by
  have o : ∀ (i : Fin 4) (s : State), Keeps s (ensureOutputReservoirs ec i s) := by
    intro i s
    unfold ensureOutputReservoirs
    split_ifs <;> simp [Keeps, createStructuredBuffer]
  have t : ∀ (i : Fin 4) (s : State), Keeps s (ensureTemporalReservoirs ec i s) := by
    intro i s
    unfold ensureTemporalReservoirs
    split_ifs <;> simp [Keeps, createStructuredBuffer]
  have l : ∀ (i : Fin 4) (s : State), Keeps s (ensureSolutionTiles ec i s) := by
    intro i s
    unfold ensureSolutionTiles
    split_ifs <;> simp [Keeps, createStructuredBuffer]
  intro f hf s
  simp only [bufferSteps, List.mem_cons, List.mem_singleton, List.not_mem_nil, or_false] at hf
  rcases hf with rfl | rfl | rfl | rfl | rfl | rfl | rfl | rfl | rfl | rfl | rfl | rfl | rfl |
    rfl | rfl | rfl | rfl
  · exact o 0 s
  · exact t 0 s
  · exact l 0 s
  · exact o 1 s
  · exact t 1 s
  · exact l 1 s
  · exact o 2 s
  · exact t 2 s
  · exact l 2 s
  · exact o 3 s
  · exact t 3 s
  · exact l 3 s
  · unfold ensureDebugOutputTexture
    split_ifs <;> simp [Keeps, createTexture2D]
  · unfold ensureFinalThp
    split_ifs <;> simp [Keeps, createTexture2D]
  · unfold ensureCurrentReceiverInfo
    split_ifs <;> simp [Keeps, createStructuredBuffer]
  · unfold ensureCounters
    simp only
    split_ifs <;> simp [Keeps, createStructuredBuffer]
  · unfold ensureEnvMapBlockBuffer
    split_ifs with c
    · simp [Keeps, createStructuredBuffer, capacity, u32]
    · simp [Keeps]

theorem beginFrame_keeps {s s' : State} {frameDim screenTiles : Nat × Nat}
    {needRecompile : Bool} (h : beginFrame s frameDim screenTiles needRecompile = some s') :
    Keeps s s' := by
  obtain ⟨s1, k0, h⟩ : ∃ s1 : State, Keeps s s1 ∧
      prepareResources (updatePrograms (prepareLighting s1))
        (updatePrograms (prepareLighting s1)).mFrameDim screenTiles = some s' :=
    ⟨{ s with mRecompile := s.mRecompile || needRecompile, mFrameDim := frameDim },
      by simp [Keeps], h⟩
  have k1 : Keeps s1 (prepareLighting s1) := by
    unfold prepareLighting
    split_ifs <;> simp [Keeps]
  have k2 : Keeps (prepareLighting s1) (updatePrograms (prepareLighting s1)) := by
    by_cases hr : (prepareLighting s1).mRecompile = true
    · rw [updatePrograms_eq_steps _ hr]
      exact runSteps_rel Keeps.keepsRefl (fun _ _ _ => Keeps.keepsTrans) _ kernelSteps_keeps _
    · have hu : updatePrograms (prepareLighting s1) = prepareLighting s1 := by
        unfold updatePrograms
        simp [hr]
      rw [hu]
      exact Keeps.keepsRefl _
  have k3 : Keeps (updatePrograms (prepareLighting s1)) s' := by
    rw [prepareResources_eq_steps _ _ _ (prepareResources_isSome h)] at h
    simp only [Option.some.injEq] at h
    subst h
    exact runSteps_rel Keeps.keepsRefl (fun _ _ _ => Keeps.keepsTrans) _ (bufferSteps_keeps _) _
  exact ((k0.keepsTrans k1).keepsTrans k2).keepsTrans k3

theorem beginFrame_ready {s s' : State} {frameDim screenTiles : Nat × Nat}
    {needRecompile : Bool} (hr : Ready s)
    (h : beginFrame s frameDim screenTiles needRecompile = some s') : Ready s' := by
  obtain ⟨k1, k2, k3, k4, k5, -, -, -, c1, c2, c3, c4, k13⟩ := beginFrame_keeps h
  obtain ⟨-, b2, b3, -, -, b6⟩ := beginFrame_kernels h
  obtain ⟨r1, ⟨q1, q2, q3, q4⟩, -, r4, ⟨e1, e2, e3, e4, e5, e6⟩, r6⟩ := hr
  refine ⟨(b6 r1).1, ⟨c1 q1, c2 q2, c3 q3, c4 q4⟩, b3, ?_, ⟨?_, ?_, ?_, ?_, ?_, k13 e6⟩, ?_⟩
  · rw [k1]; exact r4
  · rw [k3]; exact e1
  · rw [k4]; exact e2
  · rw [k4]; exact e3
  · rw [k5]; exact e4
  · rw [k5]; exact e5
  · rw [b2, k2]; exact r6

theorem endFrame_ready {s : State} (hr : Ready s) : Ready (endFrame s) := by
  obtain ⟨r1, r2, r3, r4, r5, r6⟩ := hr
  exact ⟨r1, r2, fun i => ⟨(r3 i).2, (r3 i).1⟩, r4, r5, r6⟩

theorem u32_succ_add (a n : Nat) : u32 (u32 (a + 1) + n) = u32 (a + (n + 1)) := by
  unfold u32
  omega

/-- What a returning run of frames without reset does to the frame index. -/
theorem frames_index :
    ∀ (ps : List ((Nat → ℚ) × (Nat × Nat) × (Nat × Nat))) (s s' : State),
      s.mRecompile = false → s.mFrameIndex < 2 ^ 32 → frames ps s = some s' →
      s'.mRecompile = false ∧ s'.mOptions = s.mOptions ∧
      s'.mFrameIndex = u32 (s.mFrameIndex + ps.length) ∧ s'.numPasses = s.numPasses := by
  intro ps
  induction ps with
  | nil =>
    intro s s' hr hlt h
    simp only [frames, Option.some.injEq] at h
    subst h
    exact ⟨hr, rfl, (Nat.mod_eq_of_lt hlt).symm, rfl⟩
  | cons p ps ih =>
    intro s s' hr hlt h
    simp only [frames, frame, Option.bind_eq_some] at h
    obtain ⟨s3, ⟨s1, h1, h3⟩, h4⟩ := h
    obtain ⟨-, u2, u3, -, u5, -, -⟩ := update_kernels h1
    obtain ⟨b1, b2, -⟩ := beginFrame_kernels h3
    have hflag : ((endFrame s1).mRecompile || false) = false := by
      show (s1.mRecompile || false) = false
      rw [u3, hr]
      rfl
    have bi : s3.mFrameIndex = u32 (s.mFrameIndex + 1) := by
      rw [(beginFrame_spec h3).2.2.2.2.1 hflag, ← u5]
      rfl
    have bo : s3.mOptions = s.mOptions := by
      rw [b2, ← u2]
      rfl
    have bn : s3.numPasses = s.numPasses := by
      rw [(beginFrame_keeps h3).1, ← (update_extends h1).2.2.2.1]
      rfl
    obtain ⟨a1, a2, a3, a4⟩ := ih s3 s' b1 (by rw [bi]; exact Nat.mod_lt _ (by decide)) h4
    refine ⟨a1, a2.trans bo, ?_, a4.trans bn⟩
    rw [a3, bi, List.length_cons]
    exact u32_succ_add _ _

theorem frames_total :
    ∀ (ps : List ((Nat → ℚ) × (Nat × Nat) × (Nat × Nat))) (s : State), Ready s →
      ∃ s', frames ps s = some s' ∧ Ready s' := by
  intro ps
  induction ps with
  | nil =>
    intro s h
    exact ⟨s, rfl, h⟩
  | cons p ps ih =>
    intro s h
    obtain ⟨s1, h1, r1⟩ := update_total h p.1
    obtain ⟨s3, h3⟩ := beginFrame_total (endFrame s1) p.2.1 p.2.2 false
      (by simp [endFrame, r1.1.1])
    obtain ⟨s', h', r'⟩ := ih s3 (beginFrame_ready (endFrame_ready r1) h3)
    exact ⟨s', by simp only [frames, frame, h1, Option.some_bind, h3, h'], r'⟩

theorem eq_some_getD_of_exists {α : Type} (x : Option α) (d : α) (h : ∃ a, x = some a) :
    x = some (x.getD d) := by
  obtain ⟨a, ha⟩ := h
  rw [ha]
  rfl

theorem updates_total :
    ∀ (envs : List (Nat → ℚ)) (s : State), Ready s →
      ∃ s', updates envs s = some s' ∧ Ready s' := by
  intro envs
  induction envs with
  | nil =>
    intro s h
    exact ⟨s, rfl, h⟩
  | cons env envs ih =>
    intro s h
    obtain ⟨s1, h1, r1⟩ := update_total h env
    obtain ⟨s', h', r'⟩ := ih s1 r1
    exact ⟨s', by simp only [updates, h1, Option.some_bind, h'], r'⟩

theorem updates_singleton (env : Nat → ℚ) (s s' : State) (h : updates [env] s = some s') :
    update s env = some s' := by
  simp only [updates, Option.bind_eq_some] at h
  obtain ⟨m, hm, hm'⟩ := h
  cases hm'
  exact hm

theorem secondFrameState_ready : Ready secondFrameState := by
  unfold Ready kernelsBuilt reservoirsAllocated
  decide

theorem envMapFrameState_ready : Ready envMapFrameState := by
  unfold Ready kernelsBuilt reservoirsAllocated
  decide

/-- C3 (as stated, refuted).  From `secondFrameState` (frame index 1, temporal reuse
enabled, recompile flag clear) a run of `2 ^ 32 - 1` frames without `setOptions` and
without a recompile request returns, and in the frame that follows, with temporal
reuse still enabled, `update` does not execute the temporal stage of pass 0: the
32-bit frame index has come back to 0. -/
theorem temporal_skipped_at_index_wrap :
    secondFrameState.mFrameIndex = 1 ∧ secondFrameState.mRecompile = false ∧
    ∃ s s', frames (List.replicate (2 ^ 32 - 1) (fun _ => 0, (32, 32), (2, 2)))
        secondFrameState = some s ∧
      s.mOptions.useTemporalResampling = true ∧ (0 : Int) < s.numPasses ∧
      update s (fun _ => 0) = some s' ∧
      ∃ es, s'.log = s.log ++ es ∧ temporalDispatches es 0 = 0 := by
  refine ⟨by decide, by decide, ?_⟩
  obtain ⟨s, hs, rs⟩ := frames_total
    (List.replicate (2 ^ 32 - 1) (fun _ => 0, (32, 32), (2, 2))) secondFrameState
    secondFrameState_ready
  obtain ⟨s', hs', -⟩ := update_total rs (fun _ => 0)
  obtain ⟨-, f2, f3, f4⟩ := frames_index _ _ _ (by decide) (by decide) hs
  have hn : (0 : Int) < s.numPasses := by
    rw [f4]
    decide
  have hidx : s.mFrameIndex = 0 := by
    rw [f3, List.length_replicate]
    decide
  obtain ⟨es, he, hc⟩ := temporal_count (i := 0) hs' hn
  refine ⟨s, s', hs, ?_, hn, hs', es, he, ?_⟩
  · rw [f2]
    decide
  · rw [hc, if_neg (by simp [hidx])]

/-- C3 (amended).  In one call of `update` that returns, the temporal-resampling stage
of every active pass `i < numPasses` is executed exactly once when
`useTemporalResampling` is set and the frame index is not 0, and not at all otherwise.
It is not executed in the frame that follows a reset, that is, when the state came out
of a `beginFrame` that found the recompile flag set (the first frame, and the first
frame after `setOptions` changed the options).  After a run of `k` frames without
`setOptions` and without recompile request that started with frame index 0, the
frame index is `k mod 2 ^ 32`: the stage is executed, when enabled, in the `k`-th
frame for every `0 < k < 2 ^ 32`. -/
theorem update_temporal_dispatch_count (s s' : State) (env : Nat → ℚ) (i : Nat)
    (h : update s env = some s') (hi : (i : Int) < s.numPasses) :
    ∃ es, s'.log = s.log ++ es ∧
      temporalDispatches es i
        = (if s.mOptions.useTemporalResampling = true ∧ s.mFrameIndex ≠ 0 then 1 else 0) ∧
      (∀ (s₀ : State) (frameDim screenTiles : Nat × Nat) (needRecompile : Bool),
        beginFrame s₀ frameDim screenTiles needRecompile = some s →
        (s₀.mRecompile || needRecompile) = true → temporalDispatches es i = 0) ∧
      (∀ (s₀ : State) (ps : List ((Nat → ℚ) × (Nat × Nat) × (Nat × Nat))),
        s₀.mRecompile = false → s₀.mFrameIndex = 0 → frames ps s₀ = some s →
        s.mFrameIndex = ps.length % 2 ^ 32 ∧ s.mOptions = s₀.mOptions ∧
        temporalDispatches es i
          = (if s₀.mOptions.useTemporalResampling = true ∧ ps.length % 2 ^ 32 ≠ 0
              then 1 else 0) ∧
        (s₀.mOptions.useTemporalResampling = true → 0 < ps.length → ps.length < 2 ^ 32 →
          temporalDispatches es i = 1)) := by
  obtain ⟨es, h1, hcount⟩ := temporal_count h hi
  refine ⟨es, h1, hcount, ?_, ?_⟩
  · intro s₀ frameDim screenTiles needRecompile hb hr
    have h0 : s.mFrameIndex = 0 := (beginFrame_spec hb).2.2.2.1 hr
    rw [hcount, if_neg (by simp [h0])]
  · intro s₀ ps hr h0 hf
    obtain ⟨-, f2, f3, -⟩ := frames_index ps s₀ s hr (by rw [h0]; decide) hf
    have hidx : s.mFrameIndex = ps.length % 2 ^ 32 := by
      rw [f3, h0, Nat.zero_add]
      rfl
    have hc : temporalDispatches es i
        = (if s₀.mOptions.useTemporalResampling = true ∧ ps.length % 2 ^ 32 ≠ 0
            then 1 else 0) := by
      rw [hcount, f2, hidx]
    refine ⟨hidx, f2, hc, ?_⟩
    intro ht hpos hlt
    rw [hc, Nat.mod_eq_of_lt hlt, if_pos ⟨ht, by omega⟩]

theorem update_temporal_dispatch_count_witness :
    update oneFrameLater (fun _ => 0)
      = some ((update oneFrameLater (fun _ => 0)).getD oneFrameLater) ∧
    ((0 : Nat) : Int) < oneFrameLater.numPasses ∧
    firstFrameState.mRecompile = false ∧ firstFrameState.mFrameIndex = 0 ∧
    firstFrameState.mOptions.useTemporalResampling = true ∧
    frames [(fun _ => 0, (32, 32), (2, 2))] firstFrameState = some oneFrameLater ∧
    ∃ es, ((update oneFrameLater (fun _ => 0)).getD oneFrameLater).log
        = oneFrameLater.log ++ es ∧
      temporalDispatches es 0 = (if oneFrameLater.mOptions.useTemporalResampling = true ∧
        oneFrameLater.mFrameIndex ≠ 0 then 1 else 0) ∧
      oneFrameLater.mFrameIndex = 1 ∧ temporalDispatches es 0 = 1 := by
  have h : update oneFrameLater (fun _ => 0)
      = some ((update oneFrameLater (fun _ => 0)).getD oneFrameLater) := eq_some_getD _ _ rfl
  have hi : ((0 : Nat) : Int) < oneFrameLater.numPasses := by decide
  have hf : frames [(fun _ => 0, (32, 32), (2, 2))] firstFrameState = some oneFrameLater :=
    eq_some_getD _ _ rfl
  obtain ⟨es, h1, h2, -, h4⟩ :=
    update_temporal_dispatch_count oneFrameLater _ (fun _ => 0) 0 h hi
  obtain ⟨a1, -, -, a4⟩ := h4 firstFrameState _ (by decide) (by decide) hf
  exact ⟨h, hi, by decide, by decide, by decide, hf, es, h1, h2, a1,
    a4 (by decide) (by decide) (by decide)⟩

theorem update_rebuild_when_grid_changed_witness :
    rebuildNeeded envMapFrameState ∧
    update envMapFrameState (fun _ => 1) = some envMapUpdated ∧
    updates [fun _ => 1] envMapUpdated = some envMapUpdatedTwice ∧
    (∃ es es', envMapUpdated.log = envMapFrameState.log ++ es ∧
      envMapUpdatedTwice.log = envMapUpdated.log ++ es' ∧
      rebuildDispatches es = 1 ∧
      envMapUpdated.prevEnvMapNumBlockX = envMapFrameState.envMapNumBlockX ∧
      envMapUpdated.prevEnvMapNumBlockY = envMapFrameState.envMapNumBlockY ∧
      rebuildDispatches es' = 0) ∧
    ¬ rebuildNeeded envMapUpdated ∧
    envMapUpdated.prevEnvMapNumBlockX = envMapUpdated.envMapNumBlockX ∧
    envMapUpdated.prevEnvMapNumBlockY = envMapUpdated.envMapNumBlockY ∧
    update envMapUpdated (fun _ => 1) = some envMapUpdatedTwice ∧
    (∃ es, envMapUpdatedTwice.log = envMapUpdated.log ++ es ∧ rebuildDispatches es = 0 ∧
      envMapUpdatedTwice.prevEnvMapNumBlockX = envMapUpdated.prevEnvMapNumBlockX ∧
      envMapUpdatedTwice.prevEnvMapNumBlockY = envMapUpdated.prevEnvMapNumBlockY) := by
  have hn : rebuildNeeded envMapFrameState := by
    unfold rebuildNeeded
    decide
  obtain ⟨t1, ht1, r1⟩ := update_total envMapFrameState_ready (fun _ => 1)
  have h : update envMapFrameState (fun _ => 1) = some envMapUpdated :=
    eq_some_getD_of_exists _ _ ⟨t1, ht1⟩
  have e1 : t1 = envMapUpdated := Option.some.inj (ht1.symm.trans h)
  rw [e1] at r1
  obtain ⟨t2, ht2, -⟩ := updates_total [fun _ => 1] envMapUpdated r1
  have h' : updates [fun _ => 1] envMapUpdated = some envMapUpdatedTwice :=
    eq_some_getD_of_exists _ _ ⟨t2, ht2⟩
  have h'' : update envMapUpdated (fun _ => 1) = some envMapUpdatedTwice :=
    updates_singleton _ _ _ h'
  obtain ⟨es, es', l, l', x, y, b1, -, -⟩ :=
    update_rebuild_when_grid_changed envMapFrameState envMapUpdated envMapUpdatedTwice
      (fun _ => 1) [fun _ => 1] h h'
  obtain ⟨c1, c2, c3, c4⟩ := b1 hn
  have px : envMapUpdated.prevEnvMapNumBlockX = envMapUpdated.envMapNumBlockX := by rw [c2, x]
  have py : envMapUpdated.prevEnvMapNumBlockY = envMapUpdated.envMapNumBlockY := by rw [c3, y]
  have hn' : ¬ rebuildNeeded envMapUpdated := by
    intro hc
    rcases hc.1 with hc | hc
    · exact hc px
    · exact hc py
  obtain ⟨fs, fs', m, -, -, -, -, d2, -⟩ :=
    update_rebuild_when_grid_changed envMapUpdated envMapUpdatedTwice envMapUpdatedTwice
      (fun _ => 1) [] h'' rfl
  obtain ⟨g1, g2, g3⟩ := d2 hn'
  exact ⟨hn, h, h', ⟨es, es', l, l', c1, c2, c3, c4⟩, hn', px, py, h'', ⟨fs, m, g1, g2, g3⟩⟩

theorem roundEven_int (k : ℤ) : roundEven (k : ℚ) = k := by
  unfold roundEven
  simp

theorem abs_roundEven_sub_le (q : ℚ) : |(roundEven q : ℚ) - q| ≤ 1 / 2 := by
  have h0 := Int.floor_le q
  have h1 := Int.lt_floor_add_one q
  unfold roundEven
  split_ifs with a b c
  · rw [abs_le]; constructor <;> linarith
  · push_cast
    rw [abs_le]; constructor <;> linarith
  · rw [abs_le]; constructor <;> linarith
  · push_cast
    rw [abs_le]; constructor <;> linarith

theorem roundEven_eq_of_lt (q : ℚ) (k : ℤ) (h1 : (k : ℚ) - 1 / 2 < q) (h2 : q < k + 1 / 2) :
    roundEven q = k := by
  have h := abs_roundEven_sub_le q
  rw [abs_le] at h
  have a : ((roundEven q : ℤ) : ℚ) < k + 1 := by linarith
  have b : (k : ℚ) - 1 < roundEven q := by linarith
  have a' : roundEven q < k + 1 := by exact_mod_cast a
  have b' : k - 1 < roundEven q := by exact_mod_cast b
  omega

theorem log_eq_of_binade (x : ℚ) (e : ℤ) (h1 : (2 : ℚ) ^ e ≤ |x|) (h2 : |x| < 2 ^ (e + 1)) :
    Int.log 2 |x| = e := by
  have hpos : 0 < |x| := lt_of_lt_of_le (by positivity) h1
  have a : e ≤ Int.log 2 |x| := (Int.zpow_le_iff_le_log (by norm_num) hpos).mp (by exact_mod_cast h1)
  have b : Int.log 2 |x| < e + 1 := (Int.lt_zpow_iff_log_lt (by norm_num) hpos).mp (by exact_mod_cast h2)
  omega

theorem roundF32_of_binade (x : ℚ) (e : ℤ) (he : -126 ≤ e) (h1 : (2 : ℚ) ^ e ≤ |x|)
    (h2 : |x| < 2 ^ (e + 1)) :
    roundF32 x = (roundEven (x / 2 ^ (e - 23)) : ℚ) * 2 ^ (e - 23) := by
  have hpos : 0 < |x| := lt_of_lt_of_le (by positivity) h1
  have hx : x ≠ 0 := abs_pos.mp hpos
  unfold roundF32
  rw [if_neg hx, log_eq_of_binade x e h1 h2, max_eq_left he]

theorem roundF32_exact (k g : ℤ) (hg : -149 ≤ g) (hk : |k| < 2 ^ 24) :
    roundF32 ((k : ℚ) * 2 ^ g) = k * 2 ^ g := by
  by_cases h0 : k = 0
  · subst h0
    simp [roundF32]
  have hx : (k : ℚ) * 2 ^ g ≠ 0 := by
    have : (2 : ℚ) ^ g ≠ 0 := by positivity
    exact mul_ne_zero (by exact_mod_cast h0) this
  have hpos : 0 < |(k : ℚ) * 2 ^ g| := abs_pos.mpr hx
  have hlt : |(k : ℚ) * 2 ^ g| < 2 ^ (g + 24) := by
    rw [abs_mul, abs_of_pos (by positivity : (0 : ℚ) < 2 ^ g), zpow_add₀ (by norm_num : (2 : ℚ) ≠ 0),
      mul_comm]
    have : |(k : ℚ)| < 2 ^ (24 : ℤ) := by
      have h' : ((|k| : ℤ) : ℚ) < ((2 ^ 24 : ℤ) : ℚ) := by exact_mod_cast hk
      rw [Int.cast_abs] at h'
      norm_num at h' ⊢
      exact h'
    exact mul_lt_mul_of_pos_left this (by positivity)
  have hL : Int.log 2 |(k : ℚ) * 2 ^ g| < g + 24 :=
    (Int.lt_zpow_iff_log_lt (by norm_num) hpos).mp (by exact_mod_cast hlt)
  unfold roundF32
  rw [if_neg hx]
  generalize hm : max (Int.log 2 |(k : ℚ) * 2 ^ g|) (-126) - 23 = m
  have hmg : m ≤ g := by
    rw [← hm]
    rcases max_cases (Int.log 2 |(k : ℚ) * 2 ^ g|) (-126) with ⟨h, -⟩ | ⟨h, -⟩ <;> rw [h] <;> omega
  obtain ⟨n, hn⟩ := Int.eq_ofNat_of_zero_le (sub_nonneg.mpr hmg)
  have hq : (k : ℚ) * 2 ^ g / 2 ^ m = ((k * 2 ^ n : ℤ) : ℚ) := by
    have : g = m + n := by omega
    rw [this, zpow_add₀ (by norm_num : (2 : ℚ) ≠ 0), zpow_natCast]
    push_cast
    field_simp
    ring
  rw [hq, roundEven_int]
  have : g = m + n := by omega
  rw [this, zpow_add₀ (by norm_num : (2 : ℚ) ≠ 0), zpow_natCast]
  push_cast
  ring

theorem roundF32_error (x : ℚ) (hx : |x| < 1) : |roundF32 x - x| ≤ 1 / 2 ^ 25 := by
  by_cases h0 : x = 0
  · subst h0
    simp [roundF32]
  have hpos : 0 < |x| := abs_pos.mpr h0
  have hL : Int.log 2 |x| < 0 :=
    (Int.lt_zpow_iff_log_lt (by norm_num) hpos).mp (by simpa using hx)
  unfold roundF32
  rw [if_neg h0]
  generalize hm : max (Int.log 2 |x|) (-126) - 23 = m
  have hm24 : m ≤ -24 := by
    rw [← hm]
    rcases max_cases (Int.log 2 |x|) (-126) with ⟨h, -⟩ | ⟨h, -⟩ <;> rw [h] <;> omega
  have hp : (0 : ℚ) < 2 ^ m := by positivity
  have hle : (2 : ℚ) ^ m ≤ 2 ^ (-24 : ℤ) := zpow_le_zpow_right₀ (by norm_num) hm24
  have e : (roundEven (x / 2 ^ m) : ℚ) * 2 ^ m - x
      = ((roundEven (x / 2 ^ m) : ℚ) - x / 2 ^ m) * 2 ^ m := by
    field_simp
  rw [e, abs_mul, abs_of_pos hp]
  have h1 := abs_roundEven_sub_le (x / 2 ^ m)
  have h2 : (2 : ℚ) ^ (-24 : ℤ) = 1 / 2 ^ 24 := by norm_num
  calc |(roundEven (x / 2 ^ m) : ℚ) - x / 2 ^ m| * 2 ^ m
      ≤ 1 / 2 * 2 ^ (-24 : ℤ) := mul_le_mul h1 hle (le_of_lt hp) (by norm_num)
    _ = 1 / 2 ^ 25 := by rw [h2]; norm_num

theorem literal_plastic : roundF32 (13247179572447 / 10000000000000) = 11112540 / 8388608 := by
  rw [roundF32_of_binade _ 0 (by norm_num) (by rw [abs_of_pos (by norm_num)]; norm_num)
    (by rw [abs_of_pos (by norm_num)]; norm_num)]
  rw [roundEven_eq_of_lt _ 11112540 (by norm_num) (by norm_num)]
  norm_num

theorem phi2F32_eq : phi2F32 = 12664745 / 16777216 := by
  unfold phi2F32 f32Div
  rw [literal_plastic]
  rw [roundF32_of_binade _ (-1) (by norm_num) (by rw [abs_of_pos (by norm_num)]; norm_num)
    (by rw [abs_of_pos (by norm_num)]; norm_num)]
  rw [roundEven_eq_of_lt _ 12664745 (by norm_num) (by norm_num)]
  norm_num

theorem phi2sqF32_eq : f32Mul phi2F32 phi2F32 = 9560333 / 16777216 := by
  unfold f32Mul
  rw [phi2F32_eq]
  rw [roundF32_of_binade _ (-1) (by norm_num) (by rw [abs_of_pos (by norm_num)]; norm_num)
    (by rw [abs_of_pos (by norm_num)]; norm_num)]
  rw [roundEven_eq_of_lt _ 9560333 (by norm_num) (by norm_num)]
  norm_num

theorem wrapAdd_step (U C : ℤ) (hU : 0 ≤ U ∧ U < 16777216) (hC : 8388608 ≤ C ∧ C < 16777216) :
    ∃ U', GridStep C U U' ∧
      (if f32Add (U / 16777216) (C / 16777216) ≥ 1
        then f32Sub (f32Add (U / 16777216) (C / 16777216)) 1
        else f32Add (U / 16777216) (C / 16777216)) = U' / 16777216 := by
  have hsum : (U : ℚ) / 16777216 + C / 16777216 = ((U + C : ℤ) : ℚ) * 2 ^ (-24 : ℤ) := by
    push_cast
    norm_num
    ring
  by_cases hlt : U + C < 16777216
  · have hs : f32Add (U / 16777216) (C / 16777216) = ((U + C : ℤ) : ℚ) / 16777216 := by
      unfold f32Add
      rw [hsum, roundF32_exact (U + C) (-24) (by norm_num)
        (by rw [abs_of_nonneg (by omega)]; omega)]
      norm_num
      ring
    have hlt1 : ¬ (((U + C : ℤ) : ℚ) / 16777216 ≥ 1) := by
      rw [ge_iff_le, not_le, div_lt_one (by norm_num)]
      exact_mod_cast hlt
    refine ⟨U + C, ⟨by omega, hlt, fun _ => rfl, fun h => absurd h (by omega)⟩, ?_⟩
    rw [hs, if_neg hlt1]
  · have hge : (16777216 : ℤ) ≤ U + C := by omega
    have hx1 : (1 : ℚ) ≤ ((U + C : ℤ) : ℚ) * 2 ^ (-24 : ℤ) := by
      have : ((16777216 : ℤ) : ℚ) ≤ ((U + C : ℤ) : ℚ) := by exact_mod_cast hge
      norm_num at this ⊢
      linarith
    have hx2 : ((U + C : ℤ) : ℚ) * 2 ^ (-24 : ℤ) < 2 := by
      have : ((U + C : ℤ) : ℚ) < ((33554432 : ℤ) : ℚ) := by exact_mod_cast (by omega : U + C < 33554432)
      norm_num at this ⊢
      linarith
    have hb := roundF32_of_binade (((U + C : ℤ) : ℚ) * 2 ^ (-24 : ℤ)) 0 (by norm_num)
      (by rw [abs_of_pos (by linarith)]; simpa using hx1)
      (by rw [abs_of_pos (by linarith)]; simpa using hx2)
    have hq : ((U + C : ℤ) : ℚ) * 2 ^ (-24 : ℤ) / 2 ^ ((0 : ℤ) - 23) = ((U + C : ℤ) : ℚ) / 2 := by
      norm_num
      ring
    rw [hq] at hb
    obtain ⟨r, hr⟩ : ∃ r : ℤ, roundEven (((U + C : ℤ) : ℚ) / 2) = r := ⟨_, rfl⟩
    rw [hr] at hb
    have herr := abs_roundEven_sub_le (((U + C : ℤ) : ℚ) / 2)
    rw [hr, abs_le] at herr
    have r1 : U + C - 1 ≤ 2 * r := by
      have : ((U + C - 1 : ℤ) : ℚ) ≤ ((2 * r : ℤ) : ℚ) := by
        push_cast
        linarith [herr.1]
      exact_mod_cast this
    have r2 : 2 * r ≤ U + C + 1 := by
      have : ((2 * r : ℤ) : ℚ) ≤ ((U + C + 1 : ℤ) : ℚ) := by
        push_cast
        linarith [herr.2]
      exact_mod_cast this
    have hs : f32Add (U / 16777216) (C / 16777216) = (r : ℚ) / 8388608 := by
      unfold f32Add
      rw [hsum, hb]
      norm_num
      ring
    have hge1 : (r : ℚ) / 8388608 ≥ 1 := by
      rw [ge_iff_le, one_le_div (by norm_num)]
      exact_mod_cast (by omega : (8388608 : ℤ) ≤ r)
    have hsub : f32Sub ((r : ℚ) / 8388608) 1 = ((2 * r - 16777216 : ℤ) : ℚ) / 16777216 := by
      unfold f32Sub
      have e : (r : ℚ) / 8388608 - 1 = ((r - 8388608 : ℤ) : ℚ) * 2 ^ (-23 : ℤ) := by
        push_cast
        norm_num
        ring
      rw [e, roundF32_exact (r - 8388608) (-23) (by norm_num)
        (by rw [abs_of_nonneg (by omega)]; omega)]
      push_cast
      norm_num
      ring
    refine ⟨2 * r - 16777216, ⟨by omega, by omega, fun h => absurd h hlt, fun _ => ⟨by omega, by omega⟩⟩, ?_⟩
    rw [hs, if_pos hge1, hsub]

theorem f32_centered (U : ℤ) (hU : Central U) :
    f32Sub (U / 16777216) (1 / 2) = ((U - 8388608 : ℤ) : ℚ) / 16777216 ∧
    |((U - 8388608 : ℤ) : ℚ) / 16777216| ≤ 5922357 / 16777216 := by
  obtain ⟨h1, h2⟩ := hU
  constructor
  · unfold f32Sub
    have e : (U : ℚ) / 16777216 - 1 / 2 = ((U - 8388608 : ℤ) : ℚ) * 2 ^ (-24 : ℤ) := by
      push_cast
      norm_num
      ring
    rw [e, roundF32_exact (U - 8388608) (-24) (by norm_num) (by rw [abs_lt]; constructor <;> omega)]
    norm_num
    ring
  · rw [abs_div, abs_of_pos (by norm_num : (0 : ℚ) < 16777216),
      div_le_div_iff_of_pos_right (by norm_num)]
    have : |U - 8388608| ≤ 5922357 := by rw [abs_le]; constructor <;> omega
    have h' : ((|U - 8388608| : ℤ) : ℚ) ≤ ((5922357 : ℤ) : ℚ) := by exact_mod_cast this
    rw [Int.cast_abs] at h'
    simpa using h'

theorem f32_sq_bound (d : ℚ) (hd : |d| ≤ 5922357 / 16777216) :
    |roundF32 (d * d)| ≤ 1247 / 10000 := by
  have h0 : 0 ≤ d * d := mul_self_nonneg d
  have h1 : d * d ≤ (5922357 / 16777216) * (5922357 / 16777216) := by
    have := mul_le_mul hd hd (abs_nonneg d) (by norm_num)
    rwa [abs_mul_abs_self] at this
  have h2 : |d * d| < 1 := by
    rw [abs_of_nonneg h0]
    calc d * d ≤ (5922357 / 16777216) * (5922357 / 16777216) := h1
      _ < 1 := by norm_num
  have h3 := roundF32_error (d * d) h2
  rw [abs_le] at h3 ⊢
  constructor
  · linarith [h3.1, (by norm_num : (1 : ℚ) / 2 ^ 25 ≤ 1247 / 10000)]
  · have : (5922357 / 16777216 : ℚ) * (5922357 / 16777216) + 1 / 2 ^ 25 ≤ 1247 / 10000 := by
      norm_num
    linarith [h3.2]

theorem rSqF32_central (U V : ℤ) (hU : Central U) (hV : Central V) :
    ¬ (rSqF32 (U / 16777216, V / 16777216) > 1 / 4) := by
  obtain ⟨a1, a2⟩ := f32_centered U hU
  obtain ⟨b1, b2⟩ := f32_centered V hV
  have ha := f32_sq_bound _ a2
  have hb := f32_sq_bound _ b2
  unfold rSqF32
  simp only
  rw [a1, b1]
  unfold f32Mul f32Add
  rw [abs_le] at ha hb
  have hs : |roundF32 (((U - 8388608 : ℤ) : ℚ) / 16777216 * (((U - 8388608 : ℤ) : ℚ) / 16777216))
      + roundF32 (((V - 8388608 : ℤ) : ℚ) / 16777216 * (((V - 8388608 : ℤ) : ℚ) / 16777216))| < 1 := by
    rw [abs_lt]
    constructor <;> linarith [ha.1, ha.2, hb.1, hb.2]
  have he := roundF32_error _ hs
  rw [abs_le] at he
  have : (1 : ℚ) / 2 ^ 25 ≤ 1 / 10000 := by norm_num
  linarith [he.2, ha.2, hb.2]

theorem nextPointF32_grid (U V : ℤ) (hU : 0 ≤ U ∧ U < 16777216) (hV : 0 ≤ V ∧ V < 16777216) :
    ∃ U' V', GridStep 12664745 U U' ∧ GridStep 9560333 V V' ∧
      nextPointF32 ((U : ℚ) / 16777216, (V : ℚ) / 16777216)
        = ((U' : ℚ) / 16777216, (V' : ℚ) / 16777216) := by
  obtain ⟨U', su, eu⟩ := wrapAdd_step U 12664745 hU (by norm_num)
  obtain ⟨V', sv, ev⟩ := wrapAdd_step V 9560333 hV (by norm_num)
  refine ⟨U', V', su, sv, ?_⟩
  unfold nextPointF32
  simp only
  rw [phi2sqF32_eq, phi2F32_eq]
  push_cast at eu ev
  rw [eu, ev]

theorem onGrid_next {p : ℚ × ℚ} (h : OnGrid p) : OnGrid (nextPointF32 p) := by
  obtain ⟨U, V, hU, hV, rfl⟩ := h
  obtain ⟨U', V', su, sv, e⟩ := nextPointF32_grid U V hU hV
  exact ⟨U', V', ⟨su.1, su.2.1⟩, ⟨sv.1, sv.2.1⟩, e⟩

theorem onGrid_iterate {p : ℚ × ℚ} (h : OnGrid p) (k : Nat) : OnGrid (nextPointF32^[k] p) := by
  induction k with
  | zero => exact h
  | succ k ih =>
    rw [Function.iterate_succ_apply']
    exact onGrid_next ih

theorem onGrid_start : OnGrid (1 / 2, 1 / 2) :=
  ⟨8388608, 8388608, by norm_num, by norm_num, by norm_num⟩

theorem central_u_alternate (U0 U1 U2 : ℤ) (h : 0 ≤ U0 ∧ U0 < 16777216)
    (u1 : GridStep 12664745 U0 U1) (u2 : GridStep 12664745 U1 U2) :
    Central U0 ∨ Central U2 := by
  unfold GridStep at *
  unfold Central
  omega

theorem central_v_consecutive (V0 V1 : ℤ) (h : 0 ≤ V0 ∧ V0 < 16777216) (v1 : GridStep 9560333 V0 V1) :
    Central V0 ∨ Central V1 := by
  unfold GridStep at *
  unfold Central
  omega

theorem central_within_five (U0 U1 U2 U3 U4 U5 V0 V1 V2 V3 V4 V5 : ℤ)
    (u1 : GridStep 12664745 U0 U1) (u2 : GridStep 12664745 U1 U2) (u3 : GridStep 12664745 U2 U3)
    (u4 : GridStep 12664745 U3 U4) (u5 : GridStep 12664745 U4 U5)
    (v1 : GridStep 9560333 V0 V1) (v2 : GridStep 9560333 V1 V2) (v3 : GridStep 9560333 V2 V3)
    (v4 : GridStep 9560333 V3 V4) (v5 : GridStep 9560333 V4 V5) :
    (Central U1 ∧ Central V1) ∨ (Central U2 ∧ Central V2) ∨ (Central U3 ∧ Central V3) ∨ (Central U4 ∧ Central V4) ∨
      (Central U5 ∧ Central V5) := by
  have a1 := central_u_alternate U1 U2 U3 ⟨u1.1, u1.2.1⟩ u2 u3
  have a2 := central_u_alternate U2 U3 U4 ⟨u2.1, u2.2.1⟩ u3 u4
  have a3 := central_u_alternate U3 U4 U5 ⟨u3.1, u3.2.1⟩ u4 u5
  have b1 := central_v_consecutive V1 V2 ⟨v1.1, v1.2.1⟩ v2
  have b2 := central_v_consecutive V2 V3 ⟨v2.1, v2.2.1⟩ v3
  have b3 := central_v_consecutive V3 V4 ⟨v3.1, v3.2.1⟩ v4
  have b4 := central_v_consecutive V4 V5 ⟨v4.1, v4.2.1⟩ v5
  by_cases h2 : Central V2
  · by_cases h4 : Central V4
    · rcases a2 with g | g
      · exact Or.inr (Or.inl ⟨g, h2⟩)
      · exact Or.inr (Or.inr (Or.inr (Or.inl ⟨g, h4⟩)))
    · have h3 := b3.resolve_right h4
      have h5 := b4.resolve_left h4
      rcases a3 with g | g
      · exact Or.inr (Or.inr (Or.inl ⟨g, h3⟩))
      · exact Or.inr (Or.inr (Or.inr (Or.inr ⟨g, h5⟩)))
  · have h1 := b1.resolve_right h2
    have h3 := b2.resolve_left h2
    rcases a1 with g | g
    · exact Or.inl ⟨g, h1⟩
    · exact Or.inr (Or.inr (Or.inl ⟨g, h3⟩))

/-- From every point of the grid, one of the next five points of the `float`
recurrence is accepted. -/
theorem accepted_within_five {p : ℚ × ℚ} (h : OnGrid p) :
    ∃ j, 1 ≤ j ∧ j ≤ 5 ∧ ¬ rSqF32 (nextPointF32^[j] p) > 1 / 4 := by
  obtain ⟨U0, V0, hU, hV, rfl⟩ := h
  obtain ⟨U1, V1, u1, v1, e1⟩ := nextPointF32_grid U0 V0 hU hV
  obtain ⟨U2, V2, u2, v2, e2⟩ := nextPointF32_grid U1 V1 ⟨u1.1, u1.2.1⟩ ⟨v1.1, v1.2.1⟩
  obtain ⟨U3, V3, u3, v3, e3⟩ := nextPointF32_grid U2 V2 ⟨u2.1, u2.2.1⟩ ⟨v2.1, v2.2.1⟩
  obtain ⟨U4, V4, u4, v4, e4⟩ := nextPointF32_grid U3 V3 ⟨u3.1, u3.2.1⟩ ⟨v3.1, v3.2.1⟩
  obtain ⟨U5, V5, u5, v5, e5⟩ := nextPointF32_grid U4 V4 ⟨u4.1, u4.2.1⟩ ⟨v4.1, v4.2.1⟩
  have i1 : nextPointF32^[1] ((U0 : ℚ) / 16777216, (V0 : ℚ) / 16777216)
      = ((U1 : ℚ) / 16777216, (V1 : ℚ) / 16777216) := e1
  have i2 : nextPointF32^[2] ((U0 : ℚ) / 16777216, (V0 : ℚ) / 16777216)
      = ((U2 : ℚ) / 16777216, (V2 : ℚ) / 16777216) := by
    rw [Function.iterate_succ_apply', i1, e2]
  have i3 : nextPointF32^[3] ((U0 : ℚ) / 16777216, (V0 : ℚ) / 16777216)
      = ((U3 : ℚ) / 16777216, (V3 : ℚ) / 16777216) := by
    rw [Function.iterate_succ_apply', i2, e3]
  have i4 : nextPointF32^[4] ((U0 : ℚ) / 16777216, (V0 : ℚ) / 16777216)
      = ((U4 : ℚ) / 16777216, (V4 : ℚ) / 16777216) := by
    rw [Function.iterate_succ_apply', i3, e4]
  have i5 : nextPointF32^[5] ((U0 : ℚ) / 16777216, (V0 : ℚ) / 16777216)
      = ((U5 : ℚ) / 16777216, (V5 : ℚ) / 16777216) := by
    rw [Function.iterate_succ_apply', i4, e5]
  rcases central_within_five U0 U1 U2 U3 U4 U5 V0 V1 V2 V3 V4 V5 u1 u2 u3 u4 u5 v1 v2 v3 v4 v5 with
    ⟨g, h⟩ | ⟨g, h⟩ | ⟨g, h⟩ | ⟨g, h⟩ | ⟨g, h⟩
  · exact ⟨1, by omega, by omega, by rw [i1]; exact rSqF32_central _ _ g h⟩
  · exact ⟨2, by omega, by omega, by rw [i2]; exact rSqF32_central _ _ g h⟩
  · exact ⟨3, by omega, by omega, by rw [i3]; exact rSqF32_central _ _ g h⟩
  · exact ⟨4, by omega, by omega, by rw [i4]; exact rSqF32_central _ _ g h⟩
  · exact ⟨5, by omega, by omega, by rw [i5]; exact rSqF32_central _ _ g h⟩

theorem componentsF32_length (ps : List (ℚ × ℚ)) : (componentsF32 ps).length = 2 * ps.length := by
  induction ps with
  | nil => rfl
  | cons p ps ih =>
    simp only [componentsF32, List.flatMap_cons, List.length_append, List.length_cons,
      List.length_nil] at ih ⊢
    omega

theorem offsetsLoopF32_spec (limit : Nat) (hl : limit % 2 = 0) (hl2 : limit < 2 ^ 32) :
    ∀ (fuel index : Nat) (p : ℚ × ℚ) (stores out : List (Nat × Int)), index % 2 = 0 →
      offsetsLoopF32 limit fuel index p stores = some out →
      ∃ m, m ≤ fuel ∧
        out = stores ++ List.enumFrom index (componentsF32 (acceptedPointsF32 m p)) ∧
        index + 2 * (acceptedPointsF32 m p).length = max index limit := by
  intro fuel
  induction fuel with
  | zero =>
    intro index p stores out _ h
    unfold offsetsLoopF32 at h
    by_cases hi : index < limit
    · rw [if_pos hi] at h
      exact absurd h (by simp)
    · rw [if_neg hi] at h
      cases h
      exact ⟨0, le_refl _, by simp [acceptedPointsF32, componentsF32], by
        simp only [acceptedPointsF32, List.length_nil]
        omega⟩
  | succ fuel ih =>
    intro index p stores out hpar h
    unfold offsetsLoopF32 at h
    by_cases hi : index < limit
    · rw [if_pos hi] at h
      by_cases hr : rSqF32 (nextPointF32 p) > 1 / 4
      · rw [if_pos hr] at h
        obtain ⟨m, hm, h1, h2⟩ := ih index (nextPointF32 p) stores out hpar h
        refine ⟨m + 1, by omega, ?_, ?_⟩
        · rw [h1]
          simp only [acceptedPointsF32, if_pos hr]
        · simp only [acceptedPointsF32, if_pos hr]
          exact h2
      · rw [if_neg hr] at h
        have e1 : u32 (index + 1) = index + 1 := by
          unfold u32
          exact Nat.mod_eq_of_lt (by omega)
        have e2 : u32 (index + 1 + 1) = index + 2 := by
          unfold u32
          exact Nat.mod_eq_of_lt (by omega)
        rw [e1, e2] at h
        obtain ⟨m, hm, h1, h2⟩ := ih (index + 2) (nextPointF32 p) _ out (by omega) h
        refine ⟨m + 1, by omega, ?_, ?_⟩
        · rw [h1]
          simp only [acceptedPointsF32, if_neg hr, componentsF32, List.flatMap_cons, List.enumFrom,
            List.append_assoc, List.cons_append, List.nil_append]
        · simp only [acceptedPointsF32, if_neg hr, List.length_cons]
          omega
    · rw [if_neg hi] at h
      cases h
      exact ⟨0, Nat.zero_le _, by simp [acceptedPointsF32, componentsF32], by
        simp only [acceptedPointsF32, List.length_nil]
        omega⟩

theorem createNeighborOffsetTextureF32_spec {sampleCount fuel : Nat} {stores : List (Nat × Int)}
    (h : createNeighborOffsetTextureF32 sampleCount fuel = some stores) :
    ∃ m, m ≤ fuel ∧ stores = List.enum (componentsF32 (acceptedPointsF32 m (1 / 2, 1 / 2))) ∧
      2 * (acceptedPointsF32 m (1 / 2, 1 / 2)).length = u32 (sampleCount * 2) := by
  unfold createNeighborOffsetTextureF32 at h
  have hl : u32 (sampleCount * 2) % 2 = 0 := by
    unfold u32
    omega
  have hl2 : u32 (sampleCount * 2) < 2 ^ 32 := Nat.mod_lt _ (by decide)
  obtain ⟨m, hm, h1, h2⟩ := offsetsLoopF32_spec _ hl hl2 fuel 0 _ [] stores rfl h
  refine ⟨m, hm, ?_, ?_⟩
  · rw [h1]
    rfl
  · simpa using h2

theorem offsetsLoopF32_more_fuel (limit : Nat) :
    ∀ (fuel index : Nat) (p : ℚ × ℚ) (stores out : List (Nat × Int)),
      offsetsLoopF32 limit fuel index p stores = some out →
      ∀ extra, offsetsLoopF32 limit (fuel + extra) index p stores = some out := by
  intro fuel
  induction fuel with
  | zero =>
    intro index p stores out h extra
    unfold offsetsLoopF32 at h
    by_cases hi : index < limit
    · rw [if_pos hi] at h
      exact absurd h (by simp)
    · rw [if_neg hi] at h
      cases extra with
      | zero =>
        unfold offsetsLoopF32
        rw [if_neg hi]
        exact h
      | succ e =>
        rw [Nat.zero_add]
        unfold offsetsLoopF32
        rw [if_neg hi]
        exact h
  | succ fuel ih =>
    intro index p stores out h extra
    have e : fuel + 1 + extra = (fuel + extra) + 1 := by omega
    rw [e]
    unfold offsetsLoopF32 at h ⊢
    by_cases hi : index < limit
    · rw [if_pos hi] at h ⊢
      by_cases hr : rSqF32 (nextPointF32 p) > 1 / 4
      · rw [if_pos hr] at h ⊢
        exact ih _ _ _ _ h extra
      · rw [if_neg hr] at h ⊢
        exact ih _ _ _ _ h extra
    · rw [if_neg hi] at h ⊢
      exact h

theorem offsetsLoopF32_progress (limit : Nat) :
    ∀ (j : Nat) (p : ℚ × ℚ) (index : Nat) (stores : List (Nat × Int)), 1 ≤ j →
      ¬ rSqF32 (nextPointF32^[j] p) > 1 / 4 → index < limit →
      ∃ i stores', 1 ≤ i ∧ i ≤ j ∧ ∀ f, offsetsLoopF32 limit (i + f) index p stores
        = offsetsLoopF32 limit f (u32 (u32 (index + 1) + 1)) (nextPointF32^[i] p) stores' := by
  intro j
  induction j with
  | zero =>
    intro p index stores h1
    omega
  | succ j ih =>
    intro p index stores _ hacc hi
    by_cases hr : rSqF32 (nextPointF32 p) > 1 / 4
    · have hj : 1 ≤ j := by
        by_contra hc
        have : j = 0 := by omega
        subst this
        exact hacc hr
      rw [Function.iterate_succ_apply] at hacc
      obtain ⟨i, stores', hi1, hi2, hf⟩ := ih (nextPointF32 p) index stores hj hacc hi
      refine ⟨i + 1, stores', by omega, by omega, ?_⟩
      intro f
      have e : i + 1 + f = (i + f) + 1 := by omega
      rw [e]
      conv_lhs => unfold offsetsLoopF32
      rw [if_pos hi, if_pos hr, hf f, Function.iterate_succ_apply]
    · refine ⟨1, stores ++ [(index, (offsetPairF32 (nextPointF32 p)).1),
        (u32 (index + 1), (offsetPairF32 (nextPointF32 p)).2)], le_refl _, by omega, ?_⟩
      intro f
      have e : 1 + f = f + 1 := by omega
      rw [e]
      conv_lhs => unfold offsetsLoopF32
      rw [if_pos hi, if_neg hr]
      rfl

theorem offsetsLoopF32_terminates (limit : Nat) (hl2 : limit < 2 ^ 32) :
    ∀ (r : Nat) (p : ℚ × ℚ) (index : Nat) (stores : List (Nat × Int)), OnGrid p →
      index + 2 * r = limit →
      ∃ fuel out, fuel ≤ 5 * r ∧ offsetsLoopF32 limit fuel index p stores = some out := by
  intro r
  induction r with
  | zero =>
    intro p index stores _ h
    refine ⟨0, stores, le_refl _, ?_⟩
    unfold offsetsLoopF32
    rw [if_neg (by omega)]
  | succ r ih =>
    intro p index stores hg h
    obtain ⟨j, hj1, hj5, hacc⟩ := accepted_within_five hg
    obtain ⟨i, stores', -, hij, hf⟩ :=
      offsetsLoopF32_progress limit j p index stores hj1 hacc (by omega)
    have e : u32 (u32 (index + 1) + 1) = index + 2 := by
      unfold u32
      rw [Nat.mod_eq_of_lt (by omega), Nat.mod_eq_of_lt (by omega)]
    obtain ⟨fuel, out, hfuel, ho⟩ := ih (nextPointF32^[i] p) (index + 2) stores'
      (onGrid_iterate hg i) (by omega)
    refine ⟨i + fuel, out, by omega, ?_⟩
    rw [hf fuel, e, ho]

/-- C9 (as stated, refuted).  For the sample count `2 ^ 31` the bound `sampleCount * 2`
wraps to 0 in `uint32_t`: the loop ends at once, whatever the fuel, and has stored
nothing instead of `2 ^ 31` pairs. -/
theorem createNeighborOffsetTextureF32_bound_wraps :
    (∀ fuel, createNeighborOffsetTextureF32 (2 ^ 31) fuel = some []) ∧
      ([] : List (Nat × Int)).length ≠ 2 * 2 ^ 31 := by
  refine ⟨?_, by decide⟩
  intro fuel
  have h : u32 (2 ^ 31 * 2) = 0 := by decide
  unfold createNeighborOffsetTextureF32
  rw [h]
  cases fuel <;> simp [offsetsLoopF32]

/-- C9 (amended).  In `float` arithmetic, for every sample count `n` with
`2 * n < 2 ^ 32`, in particular for the 8192 of the constructor, the generating loop of
`createNeighborOffsetTexture` ends, after at most `5 * n` iterations (for every
sufficient fuel, with one and the same result), and has then done exactly `2 * n`
stores, at positions `0, 1, ..., 2 * n - 1` in this order: the two components of each
of the first `n` accepted points of the recurrence, in the order the points are
generated, and nothing for a rejected point. -/
theorem createNeighborOffsetTextureF32_terminates (n : Nat) (hn : n * 2 < 2 ^ 32) :
    ∃ fuel stores m, fuel ≤ 5 * n ∧
      (∀ fuel', fuel ≤ fuel' → createNeighborOffsetTextureF32 n fuel' = some stores) ∧
      stores = List.enum (componentsF32 (acceptedPointsF32 m (1 / 2, 1 / 2))) ∧
      (acceptedPointsF32 m (1 / 2, 1 / 2)).length = n ∧ stores.length = 2 * n := by
  have e : u32 (n * 2) = n * 2 := Nat.mod_eq_of_lt hn
  obtain ⟨fuel, stores, hfuel, h⟩ := offsetsLoopF32_terminates (u32 (n * 2))
    (by rw [e]; exact hn) n (1 / 2, 1 / 2) 0 [] onGrid_start (by rw [e]; omega)
  have h' : createNeighborOffsetTextureF32 n fuel = some stores := h
  obtain ⟨m, -, hs, hlen⟩ := createNeighborOffsetTextureF32_spec h'
  rw [e] at hlen
  refine ⟨fuel, stores, m, hfuel, ?_, hs, by omega, ?_⟩
  · intro fuel' hf
    obtain ⟨extra, rfl⟩ := Nat.exists_eq_add_of_le hf
    exact offsetsLoopF32_more_fuel _ _ _ _ _ _ h extra
  · rw [hs, List.enum_length, componentsF32_length]
    omega

theorem createNeighborOffsetTextureF32_terminates_witness :
    kNeighborOffsetCount * 2 < 2 ^ 32 ∧
    ∃ fuel stores m, fuel ≤ 5 * kNeighborOffsetCount ∧
      (∀ fuel', fuel ≤ fuel' →
        createNeighborOffsetTextureF32 kNeighborOffsetCount fuel' = some stores) ∧
      stores = List.enum (componentsF32 (acceptedPointsF32 m (1 / 2, 1 / 2))) ∧
      (acceptedPointsF32 m (1 / 2, 1 / 2)).length = kNeighborOffsetCount ∧
      stores.length = 2 * kNeighborOffsetCount :=
  ⟨by decide, createNeighborOffsetTextureF32_terminates kNeighborOffsetCount (by decide)⟩

end PSMSReSTIR
